import Mathlib

/-! Storage engine of `server/core_storage.go`.

A shallow embedding of the batch ordering, the write / delete paths and the
query builders of the storage core, followed by the properties proved about
them.

Conventions of the embedding:

* Go `string` values are Lean `String`s; the Go operator `<` on strings is
  `strLess` (lexicographic on the character sequence, which for UTF-8 text is
  the byte order Go uses).
* `uuid.UUID` values and the textual owner ids are `String`s in canonical
  form; `uuidNil` is `uuid.Nil`.
* `int32` / `int64` / `SMALLINT` values are `Int`s; the code does no
  arithmetic on them, only comparisons.
* SQL text is represented by its syntax tree (`Cond`, `Stmt`) together with
  the slice of bound parameters, placeholders `$n` being kept as indices.
-/

namespace Nakama

/-! ## Strings and identifiers -/

/-- Go's `a < b` on strings. -/
def strLess (a b : String) : Bool := decide (a.data < b.data)

/-- The value of `uuid.Nil.String()`. -/
def uuidNil : String := "00000000-0000-0000-0000-000000000000"

/-! ## Batch operations and their ordering -/

/-- The fields of `api.WriteStorageObject` read by the storage core.
`PermissionRead` / `PermissionWrite` are the optional `*wrappers.Int32Value`. -/
structure WriteStorageObject where
  Collection : String
  Key : String
  Value : String
  Version : String
  PermissionRead : Option Int
  PermissionWrite : Option Int
deriving DecidableEq

/-- Go `StorageOpWrite`. -/
structure StorageOpWrite where
  OwnerID : String
  Object : WriteStorageObject
deriving DecidableEq

/-- Go `StorageOpWrites`. -/
abbrev StorageOpWrites := List StorageOpWrite

/-- The fields of `api.DeleteStorageObjectId`. -/
structure DeleteStorageObjectId where
  Collection : String
  Key : String
  Version : String
deriving DecidableEq

/-- Go `StorageOpDelete`. -/
structure StorageOpDelete where
  OwnerID : String
  ObjectID : DeleteStorageObjectId
deriving DecidableEq

/-- Go `StorageOpDeletes`. -/
abbrev StorageOpDeletes := List StorageOpDelete

/-- The body of `StorageOpWrites.Less` on the two elements `s1 = s[i]`,
`s2 = s[j]`. -/
def StorageOpWrite.less (s1 s2 : StorageOpWrite) : Bool :=
  if strLess s1.Object.Collection s2.Object.Collection then true
  else if strLess s1.Object.Key s2.Object.Key then true
  else strLess s1.OwnerID s2.OwnerID

/-- Go `StorageOpWrites.Less(i, j)`. -/
def StorageOpWrites.Less (s : StorageOpWrites) (i j : Fin s.length) : Bool :=
  StorageOpWrite.less (s.get i) (s.get j)

/-- The body of `StorageOpDeletes.Less` on the two elements `s1 = s[i]`,
`s2 = s[j]`. -/
def StorageOpDelete.less (s1 s2 : StorageOpDelete) : Bool :=
  if strLess s1.ObjectID.Collection s2.ObjectID.Collection then true
  else if strLess s1.ObjectID.Key s2.ObjectID.Key then true
  else strLess s1.OwnerID s2.OwnerID

/-- Go `StorageOpDeletes.Less(i, j)`. -/
def StorageOpDeletes.Less (s : StorageOpDeletes) (i j : Fin s.length) : Bool :=
  StorageOpDelete.less (s.get i) (s.get j)

/-- Strict lexicographic order on triples of strings: the first component
decides, the second only on equal first components, the third only on equal
first and second components. -/
def lexLess (a b : String × String × String) : Bool :=
  strLess a.1 b.1 ||
    (a.1 == b.1 && (strLess a.2.1 b.2.1 || (a.2.1 == b.2.1 && strLess a.2.2 b.2.2)))

/-- The sort key `(collection, key, owner_id)` of a write op. -/
def StorageOpWrite.sortKey (o : StorageOpWrite) : String × String × String :=
  (o.Object.Collection, o.Object.Key, o.OwnerID)

/-- The sort key `(collection, key, owner_id)` of a delete op. -/
def StorageOpDelete.sortKey (o : StorageOpDelete) : String × String × String :=
  (o.ObjectID.Collection, o.ObjectID.Key, o.OwnerID)

/-- One pass of the inner loop of the standard library's `insertionSort`:
`x` is swapped towards the front while `less x` holds against its left
neighbour. The sorted prefix is given, and returned, back to front. -/
def sinkInto {α : Type} (less : α → α → Bool) (x : α) : List α → List α
  | [] => [x]
  | y :: ys => if less x y then y :: sinkInto less x ys else x :: y :: ys

/-- The standard library's `insertionSort(data, 0, n)`, which is what
`sort.Sort` runs on slices of fewer than seven elements. -/
def insertionSort {α : Type} (less : α → α → Bool) (l : List α) : List α :=
  (l.foldl (fun acc x => sinkInto less x acc) []).reverse

/-- The standard library's `sort.Sort`: it rearranges the slice in place
through `Swap`, guided by `Less`. Which rearrangement comes out depends on the
library version and, for a `Less` that is not a strict weak order, on the
input order; the embedding keeps it abstract and records only that the result
is a rearrangement of the input. -/
structure SortAlgorithm where
  sort : {α : Type} → (α → α → Bool) → List α → List α
  perm : ∀ {α : Type} (less : α → α → Bool) (l : List α), (sort less l).Perm l

/-! ## SQL fragments

The statements the storage core sends are kept as syntax trees. A placeholder
`$n` is `Expr.param n` and refers to the `n`-th bound parameter, counted from
one. Evaluation returns `none` when the statement is ill-formed for the bound
parameters (a placeholder without a parameter, operands of different types),
which a database reports as an error. -/

/-- A bound parameter or column value: text (`collection`, `key`, `user_id`,
`value`, `version`) or integer (`read`, `write`, the timestamps, `LIMIT`). -/
inductive Val where
  | str (s : String)
  | int (n : Int)
deriving DecidableEq

/-- The columns of the `storage` table. -/
inductive Col where
  | collection | key | user_id | value | version | read | write
  | create_time | update_time
deriving DecidableEq

/-- A row of the `storage` table; every column is `NOT NULL`. -/
structure Row where
  collection : String
  key : String
  user_id : String
  value : String
  version : String
  read : Int
  write : Int
  create_time : Int
  update_time : Int
deriving DecidableEq

/-- The value of a column of a row. -/
def Row.get (r : Row) : Col → Val
  | .collection => .str r.collection
  | .key => .str r.key
  | .user_id => .str r.user_id
  | .value => .str r.value
  | .version => .str r.version
  | .read => .int r.read
  | .write => .int r.write
  | .create_time => .int r.create_time
  | .update_time => .int r.update_time

/-- Assignment of a value to a column; `none` on a type mismatch. -/
def Row.set (r : Row) : Col → Val → Option Row
  | .collection, .str s => some { r with collection := s }
  | .key, .str s => some { r with key := s }
  | .user_id, .str s => some { r with user_id := s }
  | .value, .str s => some { r with value := s }
  | .version, .str s => some { r with version := s }
  | .read, .int n => some { r with read := n }
  | .write, .int n => some { r with write := n }
  | .create_time, .int n => some { r with create_time := n }
  | .update_time, .int n => some { r with update_time := n }
  | _, _ => none

/-- Scalar expressions of the statements: a column, a placeholder `$n`, an
integer literal. -/
inductive Expr where
  | col (c : Col)
  | param (n : Nat)
  | lit (n : Int)
deriving DecidableEq

/-- Value of an expression on a row under the bound parameters. -/
def Expr.eval (params : List Val) (r : Row) : Expr → Option Val
  | .col c => some (r.get c)
  | .param n => if n = 0 then none else params[n - 1]?
  | .lit n => some (.int n)

/-- SQL `a = b` on values of the same type. -/
def Val.sqlEq : Val → Val → Option Bool
  | .str a, .str b => some (a == b)
  | .int a, .int b => some (a == b)
  | _, _ => none

/-- SQL `a > b` on values of the same type. -/
def Val.sqlGt : Val → Val → Option Bool
  | .str a, .str b => some (strLess b a)
  | .int a, .int b => some (decide (b < a))
  | _, _ => none

/-- SQL row comparison `(a1, a2, ...) > (b1, b2, ...)`: lexicographic, the
first differing position decides. -/
def tupleGt : List Val → List Val → Option Bool
  | [], [] => some false
  | a :: as, b :: bs => do
      let gt ← a.sqlGt b
      let eq ← a.sqlEq b
      let rest ← tupleGt as bs
      pure (gt || (eq && rest))
  | _, _ => none

/-- Boolean conditions of a `WHERE` clause. -/
inductive Cond where
  | eq (a b : Expr)
  | gt (a b : Expr)
  | tupleGt (l r : List Expr)
  | and (p q : Cond)
  | or (p q : Cond)
deriving DecidableEq

/-- Value of a condition on a row under the bound parameters. -/
def Cond.eval (params : List Val) (r : Row) : Cond → Option Bool
  | .eq a b => do
      let x ← a.eval params r
      let y ← b.eval params r
      x.sqlEq y
  | .gt a b => do
      let x ← a.eval params r
      let y ← b.eval params r
      x.sqlGt y
  | .tupleGt l rhs => do
      let xs ← l.mapM (Expr.eval params r)
      let ys ← rhs.mapM (Expr.eval params r)
      Nakama.tupleGt xs ys
  | .and p q => do
      let x ← p.eval params r
      let y ← q.eval params r
      pure (x && y)
  | .or p q => do
      let x ← p.eval params r
      let y ← q.eval params r
      pure (x || y)

/-- The row satisfies the `WHERE` clause under the bound parameters. -/
def Cond.selects (c : Cond) (params : List Val) (r : Row) : Prop :=
  c.eval params r = some true

instance (c : Cond) (params : List Val) (r : Row) : Decidable (c.selects params r) := by
  unfold Cond.selects; infer_instance

/-- Right-hand side of a `SET` item or an inserted value: an expression or
`now()`. -/
inductive Rhs where
  | expr (e : Expr)
  | now
deriving DecidableEq

/-- The statements executed through `ExecContext` / `BeginTx` / `Commit` /
`Rollback`. -/
inductive Stmt where
  | begin
  | savepoint
  | releaseSavepoint
  | rollbackToSavepoint
  | commit
  | rollback
  | update (set : List (Col × Rhs)) (wher : Cond)
  | insert (cols : List (Col × Rhs))
  | delete (wher : Cond)
deriving DecidableEq

/-! ## Errors and the database handle -/

/-- The `codes.Code` values the storage core returns. -/
inductive Code where
  | OK
  | InvalidArgument
  | Internal
deriving DecidableEq

/-- An error reported by `database/sql` or the `pq` driver. `retryable` says
whether it is a `*pq.Error` with code `40001` or `CR000`, the test
`crdb.ExecuteInTx` applies before restarting the closure. -/
structure DriverError where
  retryable : Bool
  msg : String
deriving DecidableEq

/-- The Go `error` values that occur in the storage core. The first three are
the package-level sentinels, compared by identity in the code. -/
inductive Err where
  | ErrStorageRejectedVersion
  | ErrStorageRejectedPermission
  | ErrStorageWriteFailed
  | errorsNew (msg : String)
  | driver (e : DriverError)
  | statusError (code : Code) (msg : String) (cause : Err)
  | ambiguousCommit (cause : Err)
  | txnRestart (retryErr : DriverError) (cause : Err)
deriving DecidableEq

/-- Equality of results is decidable when it is on errors and on values. -/
instance instDecidableEqExcept {ε α : Type} [DecidableEq ε] [DecidableEq α] :
    DecidableEq (Except ε α) := fun a b =>
  match a, b with
  | .ok x, .ok y =>
      if h : x = y then isTrue (by rw [h]) else isFalse (by intro h2; cases h2; exact h rfl)
  | .error x, .error y =>
      if h : x = y then isTrue (by rw [h]) else isFalse (by intro h2; cases h2; exact h rfl)
  | .ok _, .error _ => isFalse (by intro h; cases h)
  | .error _, .ok _ => isFalse (by intro h; cases h)

/-- Modelled from the spec: the helper `StatusError(code, msg, cause)` of the
server package, which is not among the source files; it wraps `cause` in a
`*statusError` carrying the status code, `Code()` and `Cause()` returning the
two back. -/
def StatusError (code : Code) (msg : String) (cause : Err) : Err :=
  .statusError code msg cause

/-- The text of `err.Error()` for the errors that occur in the storage core;
the ambiguous commit error of `crdb` reports the text of its cause, and the
restart error is built from the library's message pattern. -/
def Err.Error : Err → String
  | .ErrStorageRejectedVersion => "Storage write rejected - version check failed."
  | .ErrStorageRejectedPermission => "Storage write rejected - permission denied."
  | .ErrStorageWriteFailed => "Storage write failed."
  | .errorsNew msg => msg
  | .driver e => e.msg
  | .statusError _ msg _ => msg
  | .ambiguousCommit cause => cause.Error
  | .txnRestart retryErr cause =>
      "restarting txn failed. ROLLBACK TO SAVEPOINT encountered error: " ++ retryErr.msg ++
        ". Original error: " ++ cause.Error ++ "."

/-- The library's `errorCause`: follows `Cause()` as long as the error has
one. Of the errors a closure of the storage core returns only `*statusError`
has that method. -/
def errorCause : Err → Err
  | .statusError _ _ cause => errorCause cause
  | e => e

/-- The retry test of `crdb.ExecuteInTx`: the cause is a `*pq.Error` with a
retryable code. -/
def Err.retryable (e : Err) : Bool :=
  match errorCause e with
  | .driver d => d.retryable
  | _ => false

/-- Outcome of the pre-flight `QueryRowContext(...).Scan(...)` of a write:
the three scanned columns, `sql.ErrNoRows`, or another error. -/
inductive SelectResult where
  | row (version : String) (read write : Int)
  | noRows
  | failed (e : DriverError)
deriving DecidableEq

/-- The database as the storage core sees it through `*sql.DB` / `*sql.Tx`.
`σ` is the state of the database (and of the connection); nothing is assumed
about how it answers.

* `queryRow s wher params` answers
  `SELECT version, read, write FROM storage WHERE wher` with `params` bound;
* `exec s stmt params` executes a statement and returns the driver's error or
  the number of affected rows, with the state afterwards. -/
structure Backend (σ : Type) where
  queryRow : σ → Cond → List Val → SelectResult
  exec : σ → Stmt → List Val → Except DriverError Int × σ

/-- Go `sql.NullString`. -/
structure NullString where
  String : String
  Valid : Bool
deriving DecidableEq

/-- Go `sql.NullInt64`. -/
structure NullInt64 where
  Int64 : Int
  Valid : Bool
deriving DecidableEq

/-- Go `api.StorageObjectAck`; an omitted `UserId` is the empty string. -/
structure StorageObjectAck where
  Collection : String
  Key : String
  Version : String
  UserId : String
deriving DecidableEq

/-! ## The write path -/

/-- `collection = $1 AND key = $2 AND user_id = $3`, the `WHERE` clause of the
pre-flight `SELECT`, of the `UPDATE` (where `$3` carries the cast `::UUID`)
and of the authoritative `DELETE`. -/
def whereObject : Cond :=
  .and (.and (.eq (.col .collection) (.param 1)) (.eq (.col .key) (.param 2)))
    (.eq (.col .user_id) (.param 3))

/-- The statement
`UPDATE storage SET value = $4, version = $5, read = $6, write = $7, update_time = now() WHERE collection = $1 AND key = $2 AND user_id = $3::UUID`. -/
def updateStmt : Stmt :=
  .update
    [(.value, .expr (.param 4)), (.version, .expr (.param 5)), (.read, .expr (.param 6)),
      (.write, .expr (.param 7)), (.update_time, .now)]
    whereObject

/-- The statement
`INSERT INTO storage (collection, key, user_id, value, version, read, write, create_time, update_time) VALUES ($1, $2, $3::UUID, $4, $5, $6, $7, now(), now())`. -/
def insertStmt : Stmt :=
  .insert
    [(.collection, .expr (.param 1)), (.key, .expr (.param 2)), (.user_id, .expr (.param 3)),
      (.value, .expr (.param 4)), (.version, .expr (.param 5)), (.read, .expr (.param 6)),
      (.write, .expr (.param 7)), (.create_time, .now), (.update_time, .now)]

/-- The acknowledgment built at the two successful exits of
`storageWriteObject`. -/
def writeAck (ownerID : String) (object : WriteStorageObject) (newVersion : String) :
    StorageObjectAck :=
  { Collection := object.Collection
    Key := object.Key
    Version := newVersion
    UserId := if ownerID ≠ uuidNil then ownerID else "" }

/-- The end of Go `storageWriteObject`: the `UPDATE` or `INSERT` is executed
through `tx.ExecContext`; a driver error is returned as it is, a number of
affected rows other than 1 gives `ErrStorageWriteFailed`, and otherwise the
acknowledgment is returned. -/
def storageWriteExec {σ : Type} (tx : Backend σ) (s : σ) (query : Stmt) (params : List Val)
    (ack : StorageObjectAck) : Except Err StorageObjectAck × σ :=
  match tx.exec s query params with
  | (.error e, s1) => (.error (.driver e), s1)
  | (.ok rowsAffected, s1) =>
      if rowsAffected != 1 then (.error .ErrStorageWriteFailed, s1)
      else (.ok ack, s1)

/-- Go `storageWriteObject`, from the version check on: `dbVersion`,
`dbPermissionRead`, `dbPermissionWrite` are the scanned variables.
`md5hex v` stands for `fmt.Sprintf("%x", md5.Sum([]byte(v)))`. -/
def storageWriteObjectChecked {σ : Type} (tx : Backend σ) (md5hex : String → String) (s : σ)
    (authoritativeWrite : Bool) (ownerID : String) (object : WriteStorageObject)
    (dbVersion : NullString) (dbPermissionRead dbPermissionWrite : NullInt64) :
    Except Err StorageObjectAck × σ :=
  if dbVersion.Valid && (object.Version == "*" ||
      (object.Version != "" && object.Version != dbVersion.String)) then
    (.error .ErrStorageRejectedVersion, s)
  else if dbPermissionWrite.Valid && dbPermissionWrite.Int64 == 0 && !authoritativeWrite then
    (.error .ErrStorageRejectedPermission, s)
  else
    let newVersion := md5hex object.Value
    let newPermissionRead : Int :=
      match object.PermissionRead with
      | some v => v
      | none => 1
    let newPermissionWrite : Int :=
      match object.PermissionWrite with
      | some v => v
      | none => 1
    if dbVersion.Valid && dbVersion.String == newVersion &&
        dbPermissionRead.Int64 == newPermissionRead &&
        dbPermissionWrite.Int64 == newPermissionWrite then
      (.ok (writeAck ownerID object newVersion), s)
    else
      let query := if dbVersion.Valid then updateStmt else insertStmt
      storageWriteExec tx s query
        [.str object.Collection, .str object.Key, .str ownerID, .str object.Value,
          .str newVersion, .int newPermissionRead, .int newPermissionWrite]
        (writeAck ownerID object newVersion)

/-- Go `storageWriteObject`: the pre-flight `SELECT` and its error handling,
then the checks and the write. On `sql.ErrNoRows` the scanned variables keep
their zero value (`Valid = false`); when a row is found they are valid, the
columns being `NOT NULL`. -/
def storageWriteObject {σ : Type} (tx : Backend σ) (md5hex : String → String) (s : σ)
    (authoritativeWrite : Bool) (ownerID : String) (object : WriteStorageObject) :
    Except Err StorageObjectAck × σ :=
  match tx.queryRow s whereObject [.str object.Collection, .str object.Key, .str ownerID] with
  | .failed e => (.error (.driver e), s)
  | .noRows =>
      if object.Version != "" && object.Version != "*" then
        (.error .ErrStorageRejectedVersion, s)
      else
        storageWriteObjectChecked tx md5hex s authoritativeWrite ownerID object
          ⟨"", false⟩ ⟨0, false⟩ ⟨0, false⟩
  | .row version read write =>
      storageWriteObjectChecked tx md5hex s authoritativeWrite ownerID object
        ⟨version, true⟩ ⟨read, true⟩ ⟨write, true⟩

/-- The loop body of the closure passed to `crdb.ExecuteInTx` by
`StorageWriteObjects`, over the remaining ops; `acks` is the slice built so
far. A version or permission rejection is wrapped in a status error, every
other error is returned as it is. -/
def writeOps {σ : Type} (tx : Backend σ) (md5hex : String → String)
    (authoritativeWrite : Bool) :
    List StorageOpWrite → σ → List StorageObjectAck → Except Err (List StorageObjectAck) × σ
  | [], s, acks => (.ok acks, s)
  | op :: rest, s, acks =>
      match storageWriteObject tx md5hex s authoritativeWrite op.OwnerID op.Object with
      | (.error writeErr, s1) =>
          if writeErr = .ErrStorageRejectedVersion ∨ writeErr = .ErrStorageRejectedPermission then
            (.error (StatusError .InvalidArgument "Storage write rejected." writeErr), s1)
          else (.error writeErr, s1)
      | (.ok ack, s1) => writeOps tx md5hex authoritativeWrite rest s1 (acks ++ [ack])

/-- The closure of `StorageWriteObjects`: `acks` is reset, then the ops are
written in order. -/
def writeClosure {σ : Type} (tx : Backend σ) (md5hex : String → String)
    (authoritativeWrite : Bool) (ops : List StorageOpWrite) (s : σ) :
    Except Err (List StorageObjectAck) × σ :=
  writeOps tx md5hex authoritativeWrite ops s []

/-! ## `crdb.ExecuteInTx` -/

/-- What one pass through the `for` loop of `crdb.ExecuteInTx` does: it
returns, or it starts over. -/
inductive Iteration (α σ : Type) where
  | done (r : Except Err α) (s : σ)
  | again (s : σ)

/-- The tail of the loop body of `crdb.ExecuteInTx`, entered with an error:
a non-retryable error is returned (as an ambiguous commit error when the
savepoint had been released); otherwise the transaction is rolled back to the
savepoint and the loop starts over, unless that rollback fails. -/
def retryOrReturn {α σ : Type} (tx : Backend σ) (err : Err) (released : Bool) (s : σ) :
    Iteration α σ :=
  if !err.retryable then
    .done (.error (if released then .ambiguousCommit err else err)) s
  else
    match tx.exec s .rollbackToSavepoint [] with
    | (.error retryErr, s1) => .done (.error (.txnRestart retryErr err)) s1
    | (.ok _, s1) => .again s1

/-- The loop body of `crdb.ExecuteInTx`: run the closure, release the
savepoint on success. -/
def executeIteration {α σ : Type} (tx : Backend σ) (fn : σ → Except Err α × σ) (s : σ) :
    Iteration α σ :=
  match fn s with
  | (.ok a, s1) =>
      match tx.exec s1 .releaseSavepoint [] with
      | (.ok _, s2) => .done (.ok a) s2
      | (.error e, s2) => retryOrReturn tx (.driver e) true s2
  | (.error e, s1) => retryOrReturn tx e false s1

/-- The `for` loop of `crdb.ExecuteInTx`. The loop has no bound of its own;
`fuel` bounds the number of passes, `none` meaning that it was used up. -/
def executeLoop {α σ : Type} (tx : Backend σ) (fn : σ → Except Err α × σ) :
    Nat → σ → Option (Except Err α × σ)
  | 0, _ => none
  | fuel + 1, s =>
      match executeIteration tx fn s with
      | .done r s1 => some (r, s1)
      | .again s1 => executeLoop tx fn fuel s1

/-- The library function `crdb.ExecuteInTx(ctx, tx, fn)`: `SAVEPOINT`, the
retry loop, and the deferred `Commit` (after success) or `Rollback` (after an
error), whose own errors are ignored. -/
def ExecuteInTx {α σ : Type} (tx : Backend σ) (fn : σ → Except Err α × σ) (fuel : Nat)
    (s : σ) : Option (Except Err α × σ) :=
  match tx.exec s .savepoint [] with
  | (.error e, s1) => some (.error (.driver e), (tx.exec s1 .rollback []).2)
  | (.ok _, s1) =>
      match executeLoop tx fn fuel s1 with
      | none => none
      | some (.ok a, s2) => some (.ok a, (tx.exec s2 .commit []).2)
      | some (.error e, s2) => some (.error e, (tx.exec s2 .rollback []).2)

/-- The triple `(*api.StorageObjectAcks, codes.Code, error)` returned by
`StorageWriteObjects`. -/
structure WriteResult where
  acks : Option (List StorageObjectAck)
  code : Code
  err : Option Err
deriving DecidableEq

/-- Go `StorageWriteObjects`. -/
def StorageWriteObjects {σ : Type} (sorter : SortAlgorithm) (tx : Backend σ)
    (md5hex : String → String) (fuel : Nat) (s : σ) (authoritativeWrite : Bool)
    (ops : StorageOpWrites) : Option (WriteResult × σ) :=
  let ops := sorter.sort StorageOpWrite.less ops
  match tx.exec s .begin [] with
  | (.error err, s1) => some (⟨none, .Internal, some (.driver err)⟩, s1)
  | (.ok _, s1) =>
      match ExecuteInTx tx (writeClosure tx md5hex authoritativeWrite ops) fuel s1 with
      | none => none
      | some (.error (.statusError code _ cause), s2) => some (⟨none, code, some cause⟩, s2)
      | some (.error err, s2) => some (⟨none, .Internal, some err⟩, s2)
      | some (.ok acks, s2) => some (⟨some acks, .OK, none⟩, s2)

/-! ## The delete path -/

/-- The statement and parameters `StorageDeleteObjects` builds for one op:
`DELETE FROM storage WHERE collection = $1 AND key = $2 AND user_id = $3`,
with ` AND write > 0` for a client request and ` AND version = $4` for a
conditional delete. -/
def deleteQuery (authoritativeDelete : Bool) (op : StorageOpDelete) : Stmt × List Val :=
  let params := [Val.str op.ObjectID.Collection, .str op.ObjectID.Key, .str op.OwnerID]
  let query :=
    if authoritativeDelete then whereObject
    else .and whereObject (.gt (.col .write) (.lit 0))
  if op.ObjectID.Version != "" then
    (.delete (.and query (.eq (.col .version) (.param 4))), params ++ [.str op.ObjectID.Version])
  else (.delete query, params)

/-- The rule the delete path is meant to implement, for one op and one stored
row: the row is at the coordinate of the op, the delete is authoritative or
the stored write permission is positive, and the op gives no version or the
stored one. -/
def deleteMatches (authoritativeDelete : Bool) (op : StorageOpDelete) (row : Row) : Bool :=
  row.collection == op.ObjectID.Collection && row.key == op.ObjectID.Key &&
    row.user_id == op.OwnerID && (authoritativeDelete || decide (0 < row.write)) &&
    (op.ObjectID.Version == "" || row.version == op.ObjectID.Version)

/-- The error created when a `DELETE` affects no row. -/
def deleteRejected : Err :=
  .errorsNew "Storage delete rejected - not found, version check failed, or permission denied."

/-- The closure passed to `crdb.ExecuteInTx` by `StorageDeleteObjects`, over
the remaining ops. -/
def deleteOps {σ : Type} (tx : Backend σ) (authoritativeDelete : Bool) :
    List StorageOpDelete → σ → Except Err Unit × σ
  | [], s => (.ok (), s)
  | op :: rest, s =>
      match tx.exec s (deleteQuery authoritativeDelete op).1
          (deleteQuery authoritativeDelete op).2 with
      | (.error err, s1) => (.error (.driver err), s1)
      | (.ok rowsAffected, s1) =>
          if rowsAffected == 0 then
            (.error (StatusError .InvalidArgument "Storage delete rejected." deleteRejected), s1)
          else deleteOps tx authoritativeDelete rest s1

/-- Go `StorageDeleteObjects`; the result is the pair `(codes.Code, error)`. -/
def StorageDeleteObjects {σ : Type} (sorter : SortAlgorithm) (tx : Backend σ) (fuel : Nat)
    (s : σ) (authoritativeDelete : Bool) (ops : StorageOpDeletes) :
    Option ((Code × Option Err) × σ) :=
  let ops := sorter.sort StorageOpDelete.less ops
  match tx.exec s .begin [] with
  | (.error err, s1) => some ((.Internal, some (.driver err)), s1)
  | (.ok _, s1) =>
      match ExecuteInTx tx (deleteOps tx authoritativeDelete ops) fuel s1 with
      | none => none
      | some (.error (.statusError code _ cause), s2) => some ((code, some cause), s2)
      | some (.error err, s2) => some ((.Internal, some err), s2)
      | some (.ok _, s2) => some ((.OK, none), s2)

/-! ## The query builders of the read and list paths -/

/-- The fields of `api.ReadStorageObjectId`. -/
structure ReadStorageObjectId where
  Collection : String
  Key : String
  UserId : String
deriving DecidableEq

/-- `collection = $l+1 AND key = $l+2 AND user_id = $l+3`, the common part of
the clauses of `StorageReadObjects`. -/
def whereObjectAt (l : Nat) : Cond :=
  .and (.and (.eq (.col .collection) (.param (l + 1))) (.eq (.col .key) (.param (l + 2))))
    (.eq (.col .user_id) (.param (l + 3)))

/-- One pass of the loop of `StorageReadObjects` over the requested ids:
`whereClause` (`none` for the empty string) and `params` before and after. -/
def readObjectsStep (caller : String) (acc : Option Cond × List Val)
    (id : ReadStorageObjectId) : Option Cond × List Val :=
  let whereClause := acc.1
  let params := acc.2
  let l := params.length
  let built : Cond × List Val :=
    if caller = uuidNil then
      (whereObjectAt l,
        if id.UserId == "" then params ++ [.str id.Collection, .str id.Key, .str uuidNil]
        else params ++ [.str id.Collection, .str id.Key, .str id.UserId])
    else if id.UserId == "" then
      (.and (whereObjectAt l) (.eq (.col .read) (.lit 2)),
        params ++ [.str id.Collection, .str id.Key, .str uuidNil])
    else
      (.and (whereObjectAt l)
          (.or (.eq (.col .read) (.lit 2))
            (.and (.eq (.col .read) (.lit 1)) (.eq (.col .user_id) (.param (l + 4))))),
        params ++ [.str id.Collection, .str id.Key, .str id.UserId, .str caller])
  (match whereClause with
    | none => some built.1
    | some w => some (.or w built.1),
   built.2)

/-- The `WHERE` clause and the bound parameters `StorageReadObjects` builds
for a caller and a list of requested ids. -/
def StorageReadObjectsQuery (caller : String) (objectIDs : List ReadStorageObjectId) :
    Option Cond × List Val :=
  objectIDs.foldl (readObjectsStep caller) (none, [])

/-- The rule the read path is meant to implement, for one requested id and
one stored row: the row is the requested one (an empty requested owner
standing for the zero UUID) and the caller may read it. -/
def readPermitted (caller : String) (id : ReadStorageObjectId) (row : Row) : Bool :=
  row.collection == id.Collection && row.key == id.Key &&
    row.user_id == (if id.UserId = "" then uuidNil else id.UserId) &&
    (caller == uuidNil || row.read == 2 || (row.read == 1 && row.user_id == caller))

/-- Go `storageCursor`. -/
structure storageCursor where
  Key : String
  UserID : String
  Read : Int
deriving DecidableEq

/-- A list query: `SELECT ... FROM storage WHERE wher LIMIT limit` with its
bound parameters. -/
structure ListQuery where
  wher : Cond
  limit : Expr
  params : List Val
deriving DecidableEq

/-- Conjunction with the optional cursor condition appended to a query text. -/
def withCursor (c : Cond) : Option Cond → Cond
  | none => c
  | some q => .and c q

/-- The query of Go `StorageListObjectsAll`. -/
def StorageListObjectsAll (authoritative : Bool) (collection : String) (limit : Int)
    (sc : Option storageCursor) : ListQuery :=
  let base : List Val := [.str collection, .int limit]
  let cursorQuery : Option Cond := sc.map fun _ =>
    .tupleGt [.col .collection, .col .read, .col .key, .col .user_id]
      [.param 1, .lit 2, .param 3, .param 4]
  let params := match sc with
    | none => base
    | some c => base ++ [.str c.Key, .str c.UserID]
  if authoritative then
    { wher := withCursor (.eq (.col .collection) (.param 1)) cursorQuery
      limit := .param 2
      params := params }
  else
    { wher := withCursor
        (.and (.eq (.col .collection) (.param 1)) (.eq (.col .read) (.lit 2))) cursorQuery
      limit := .param 2
      params := params }

/-- The query of Go `StorageListObjectsPublicReadUser`. -/
def StorageListObjectsPublicReadUser (userID : String) (collection : String) (limit : Int)
    (sc : Option storageCursor) : ListQuery :=
  let base : List Val := [.str collection, .str userID, .int limit]
  let cursorQuery : Option Cond := sc.map fun _ =>
    .tupleGt [.col .collection, .col .read, .col .key, .col .user_id]
      [.param 1, .lit 2, .param 4, .param 5]
  let params := match sc with
    | none => base
    | some c => base ++ [.str c.Key, .str c.UserID]
  { wher := withCursor
      (.and (.and (.eq (.col .collection) (.param 1)) (.eq (.col .read) (.lit 2)))
        (.eq (.col .user_id) (.param 2))) cursorQuery
    limit := .param 3
    params := params }

/-- The query of Go `StorageListObjectsUser`. -/
def StorageListObjectsUser (authoritative : Bool) (userID : String) (collection : String)
    (limit : Int) (sc : Option storageCursor) : ListQuery :=
  let base : List Val := [.str collection, .str userID, .int limit]
  let cursorQuery : Option Cond := sc.map fun _ =>
    .tupleGt [.col .collection, .col .read, .col .key, .col .user_id]
      [.param 1, .param 4, .param 5, .param 6]
  let params := match sc with
    | none => base
    | some c => base ++ [.int c.Read, .str c.Key, .str c.UserID]
  if authoritative then
    { wher := withCursor
        (.and (.eq (.col .collection) (.param 1)) (.eq (.col .user_id) (.param 2))) cursorQuery
      limit := .param 3
      params := params }
  else
    { wher := withCursor
        (.and (.and (.eq (.col .collection) (.param 1)) (.gt (.col .read) (.lit 0)))
          (.eq (.col .user_id) (.param 2))) cursorQuery
      limit := .param 3
      params := params }

/-- The dispatch of Go `StorageListObjects` on the caller and the owner
filter, after the cursor has been decoded: `sc` is `none` for the empty
cursor string. The result is the query of the selected shape. -/
def StorageListObjectsQuery (caller : String) (ownerID : Option String) (collection : String)
    (limit : Int) (sc : Option storageCursor) : ListQuery :=
  if caller = uuidNil then
    match ownerID with
    | none => StorageListObjectsAll true collection limit sc
    | some o => StorageListObjectsUser true o collection limit sc
  else
    match ownerID with
    | none => StorageListObjectsAll false collection limit sc
    | some o =>
        if caller = o then StorageListObjectsUser false o collection limit sc
        else StorageListObjectsPublicReadUser o collection limit sc

/-! ## A reference database

A sequential, fault-free implementation of `Backend` over a list of rows,
with the primary key `(collection, key, user_id)`. It is used where a
property is about the content of the table. -/

/-- State of the reference database: the table, the value of `now()`, and
the table as it was at `BEGIN` and at `SAVEPOINT`. -/
structure Database where
  rows : List Row
  now : Int
  atBegin : List Row
  atSavepoint : List Row
deriving DecidableEq

/-- Value of a `SET` item or inserted value. -/
def Rhs.eval (now : Int) (params : List Val) (r : Row) : Rhs → Option Val
  | .expr e => e.eval params r
  | .now => some (.int now)

/-- Applies `SET` items to `target`, their values being read on `source`. -/
def applySet (now : Int) (params : List Val) (source : Row) :
    List (Col × Rhs) → Row → Option Row
  | [], target => some target
  | (c, rhs) :: rest, target => do
      let v ← rhs.eval now params source
      let target1 ← target.set c v
      applySet now params source rest target1

/-- The row with empty texts and zero numbers, from which an `INSERT` fills
the listed columns. -/
def Row.blank : Row := ⟨"", "", "", "", "", 0, 0, 0, 0⟩

/-- Rows after an `UPDATE` and the number of rows it changed; `none` when the
statement is ill-formed. -/
def updateRows (now : Int) (params : List Val) (set : List (Col × Rhs)) (wher : Cond) :
    List Row → Option (List Row × Int)
  | [] => some ([], 0)
  | r :: rs => do
      let hit ← wher.eval params r
      let r1 ← if hit then applySet now params r set r else some r
      let rest ← updateRows now params set wher rs
      pure (r1 :: rest.1, if hit then rest.2 + 1 else rest.2)

/-- Rows after a `DELETE` and the number of rows it removed; `none` when the
statement is ill-formed. -/
def deleteRows (params : List Val) (wher : Cond) : List Row → Option (List Row × Int)
  | [] => some ([], 0)
  | r :: rs => do
      let hit ← wher.eval params r
      let rest ← deleteRows params wher rs
      pure (if hit then (rest.1, rest.2 + 1) else (r :: rest.1, rest.2))

/-- The first row satisfying the condition, projected on
`version, read, write`. -/
def selectRow (params : List Val) (wher : Cond) : List Row → SelectResult
  | [] => .noRows
  | r :: rs =>
      match wher.eval params r with
      | none => .failed ⟨false, "statement is not well-formed"⟩
      | some true => .row r.version r.read r.write
      | some false => selectRow params wher rs

/-- Execution of a statement by the reference database. -/
def Database.exec (db : Database) (stmt : Stmt) (params : List Val) :
    Except DriverError Int × Database :=
  match stmt with
  | .begin => (.ok 0, { db with atBegin := db.rows })
  | .savepoint => (.ok 0, { db with atSavepoint := db.rows })
  | .releaseSavepoint => (.ok 0, db)
  | .rollbackToSavepoint => (.ok 0, { db with rows := db.atSavepoint })
  | .commit => (.ok 0, db)
  | .rollback => (.ok 0, { db with rows := db.atBegin })
  | .update set wher =>
      match updateRows db.now params set wher db.rows with
      | none => (.error ⟨false, "statement is not well-formed"⟩, db)
      | some (rows, n) => (.ok n, { db with rows := rows })
  | .insert cols =>
      match applySet db.now params Row.blank cols Row.blank with
      | none => (.error ⟨false, "statement is not well-formed"⟩, db)
      | some r =>
          if db.rows.any (fun x =>
              x.collection == r.collection && x.key == r.key && x.user_id == r.user_id) then
            (.error ⟨false, "duplicate key value violates unique constraint"⟩, db)
          else (.ok 1, { db with rows := db.rows ++ [r] })
  | .delete wher =>
      match deleteRows params wher db.rows with
      | none => (.error ⟨false, "statement is not well-formed"⟩, db)
      | some (rows, n) => (.ok n, { db with rows := rows })

/-- The reference database as a `Backend`. -/
def sqlBackend : Backend Database where
  queryRow db wher params := selectRow params wher db.rows
  exec db stmt params := db.exec stmt params

/-- The row is the one at the coordinate `(collection, key, owner)`. -/
def Row.hasCoordinate (r : Row) (collection key owner : String) : Bool :=
  r.collection == collection && r.key == key && r.user_id == owner

/-- The row as the `UPDATE` of the write path leaves it. -/
def Row.overwritten (r : Row) (value version : String) (read write now : Int) : Row :=
  { r with value := value, version := version, read := read, write := write, update_time := now }

/-- The row stored at a coordinate `(collection, key, owner)`, if any. -/
def Database.lookup (db : Database) (collection key owner : String) : Option Row :=
  db.rows.find? fun r => r.hasCoordinate collection key owner

/-! ## Runs of a batch

Vocabulary for the statements about `StorageWriteObjects` and
`StorageDeleteObjects`: which invocation of the closure a state belongs to,
and what the ops of a batch do from a state on. -/

/-- `Attempt tx fn s k s0`: in the transaction opened from state `s` (`BEGIN`
and `SAVEPOINT` succeed), `crdb.ExecuteInTx` invokes the closure `fn` in state
`s0` after `k` restarts. -/
inductive Attempt {α σ : Type} (tx : Backend σ) (fn : σ → Except Err α × σ) (s : σ) :
    Nat → σ → Prop where
  | first {a b : Int} {sb s1 : σ} :
      tx.exec s .begin [] = (.ok a, sb) → tx.exec sb .savepoint [] = (.ok b, s1) →
      Attempt tx fn s 0 s1
  | restart {k : Nat} {s0 s1 : σ} :
      Attempt tx fn s k s0 → executeIteration tx fn s0 = .again s1 →
      Attempt tx fn s (k + 1) s1

/-- `FirstFailure tx md5hex auth ops s e s1`: written in order from state `s`,
the ops before the first failing one succeed and that one fails with `e`,
leaving state `s1`. -/
inductive FirstFailure {σ : Type} (tx : Backend σ) (md5hex : String → String) (auth : Bool) :
    List StorageOpWrite → σ → Err → σ → Prop where
  | here {op : StorageOpWrite} {rest : List StorageOpWrite} {s s1 : σ} {e : Err} :
      storageWriteObject tx md5hex s auth op.OwnerID op.Object = (.error e, s1) →
      FirstFailure tx md5hex auth (op :: rest) s e s1
  | later {op : StorageOpWrite} {rest : List StorageOpWrite} {s s1 s2 : σ} {e : Err}
      {ack : StorageObjectAck} :
      storageWriteObject tx md5hex s auth op.OwnerID op.Object = (.ok ack, s1) →
      FirstFailure tx md5hex auth rest s1 e s2 →
      FirstFailure tx md5hex auth (op :: rest) s e s2

/-- `AllSucceed tx md5hex auth ops s acks s1`: written in order from state
`s`, every op succeeds; `acks` are their acknowledgments, one per op in the
order of the ops, and `s1` is the state afterwards. -/
inductive AllSucceed {σ : Type} (tx : Backend σ) (md5hex : String → String) (auth : Bool) :
    List StorageOpWrite → σ → List StorageObjectAck → σ → Prop where
  | nil {s : σ} : AllSucceed tx md5hex auth [] s [] s
  | cons {op : StorageOpWrite} {rest : List StorageOpWrite} {s s1 s2 : σ}
      {ack : StorageObjectAck} {acks : List StorageObjectAck} :
      storageWriteObject tx md5hex s auth op.OwnerID op.Object = (.ok ack, s1) →
      AllSucceed tx md5hex auth rest s1 acks s2 →
      AllSucceed tx md5hex auth (op :: rest) s (ack :: acks) s2

/-- `DeleteMiss tx auth ops s s1`: executed in order from state `s`, the
`DELETE`s of the ops before the first miss each remove at least one row and
the next one removes none, leaving state `s1`. -/
inductive DeleteMiss {σ : Type} (tx : Backend σ) (auth : Bool) :
    List StorageOpDelete → σ → σ → Prop where
  | here {op : StorageOpDelete} {rest : List StorageOpDelete} {s s1 : σ} :
      tx.exec s (deleteQuery auth op).1 (deleteQuery auth op).2 = (.ok 0, s1) →
      DeleteMiss tx auth (op :: rest) s s1
  | later {op : StorageOpDelete} {rest : List StorageOpDelete} {s s1 s2 : σ} {n : Int} :
      tx.exec s (deleteQuery auth op).1 (deleteQuery auth op).2 = (.ok n, s1) → n ≠ 0 →
      DeleteMiss tx auth rest s1 s2 →
      DeleteMiss tx auth (op :: rest) s s2

/-! ## Sample data -/

/-- An instance of `sort.Sort`: the insertion sort the standard library runs
on short slices. -/
def insertionSortAlgorithm : SortAlgorithm where
  sort less l := insertionSort less l
  perm := by
    intro α less l
    have hsink : ∀ (x : α) (acc : List α), (sinkInto less x acc).Perm (x :: acc) := by
      intro x acc
      induction acc with
      | nil => exact List.Perm.refl _
      | cons y ys ih =>
        simp only [sinkInto]
        split
        · exact (List.Perm.cons y ih).trans (List.Perm.swap x y ys)
        · exact List.Perm.refl _
    have hfold : ∀ (l acc : List α),
        (l.foldl (fun acc x => sinkInto less x acc) acc).Perm (l ++ acc) := by
      intro l
      induction l with
      | nil => intro acc; exact List.Perm.refl _
      | cons x xs ih =>
        intro acc
        refine (ih (sinkInto less x acc)).trans ?_
        refine (List.Perm.append_left xs (hsink x acc)).trans ?_
        exact List.perm_middle
    have h := hfold l []
    rw [List.append_nil] at h
    exact (List.reverse_perm _).trans h

/-- The function `md5_hex` on the values used in the examples below (and the
empty text elsewhere). -/
def md5Sample (v : String) : String :=
  if v = "x" then "9dd4e461268c8034f5c8564e155c67a6"
  else if v = "y" then "415290769594460e2e485922904f345d"
  else if v = "secret" then "5ebe2294ecd0e0f08eab7690d2a6ee69"
  else if v = "" then "d41d8cd98f00b204e9800998ecf8427e"
  else ""

/-- A user id. -/
def userU : String := "11111111-1111-1111-1111-111111111111"

/-- Another user id. -/
def userV : String := "22222222-2222-2222-2222-222222222222"

/-- The empty database. -/
def emptyDatabase : Database := ⟨[], 1000, [], []⟩

/-- The row `("inv", "sword", userU)` holding `"x"` with the given
permissions. -/
def swordRow (read write : Int) : Row :=
  ⟨"inv", "sword", userU, "x", "9dd4e461268c8034f5c8564e155c67a6", read, write, 900, 900⟩

/-- A database holding `swordRow read write` only. -/
def swordDatabase (read write : Int) : Database :=
  ⟨[swordRow read write], 1000, [], []⟩

/-- A write of `value` to `("inv", "sword")` with the given version
condition and default permissions. -/
def swordWrite (value version : String) : WriteStorageObject :=
  ⟨"inv", "sword", value, version, none, none⟩

/-- The state of the reference database holding `rows` once a transaction has
begun and set its savepoint. -/
def inTransaction (rows : List Row) : Database := ⟨rows, 1000, rows, rows⟩

/-- A database that answers like the reference database, except that an
`UPDATE` finds no row to change and reports zero affected rows, as when the
row has gone between the pre-flight `SELECT` and the `UPDATE`. -/
def vanishingBackend : Backend Database where
  queryRow db wher params := selectRow params wher db.rows
  exec db stmt params :=
    match stmt with
    | .update _ _ => (.ok 0, db)
    | _ => db.exec stmt params

/-- A write op on `(collection "a", key "b")` of `userU`. -/
def opAB : StorageOpWrite := ⟨userU, ⟨"a", "b", "x", "", none, none⟩⟩

/-- A write op on `(collection "b", key "a")` of `userU`. -/
def opBA : StorageOpWrite := ⟨userU, ⟨"b", "a", "x", "", none, none⟩⟩

/-- A delete op on `(collection "a", key "b")` of `userU`. -/
def delAB : StorageOpDelete := ⟨userU, ⟨"a", "b", ""⟩⟩

/-- A delete op on `(collection "b", key "a")` of `userU`. -/
def delBA : StorageOpDelete := ⟨userU, ⟨"b", "a", ""⟩⟩

/-! ## The cursor codec -/

/-- A byte. -/
abbrev Byte := Fin 256

/-- The alphabet of `base64.RawURLEncoding`. -/
def base64URLAlphabet : List Char :=
  "ABCDEFGHIJKLMNOPQRSTUVWXYZabcdefghijklmnopqrstuvwxyz0123456789-_".data

/-- The character that stands for a six-bit value. -/
def base64Char (n : Nat) : Char := base64URLAlphabet.getD n 'A'

/-- The six-bit value a character stands for, if it is in the alphabet. -/
def base64Index (c : Char) : Option Nat :=
  if base64URLAlphabet.indexOf c < 64 then some (base64URLAlphabet.indexOf c) else none

/-- The six-bit values of a byte sequence: three bytes give four values, a
rest of two bytes gives three, a rest of one byte gives two; there is no
padding. -/
def base64Sextets : List Byte → List Nat
  | a :: b :: c :: rest =>
      (a.val / 4) :: (a.val % 4 * 16 + b.val / 16) :: (b.val % 16 * 4 + c.val / 64) ::
        (c.val % 64) :: base64Sextets rest
  | [a, b] => [a.val / 4, a.val % 4 * 16 + b.val / 16, b.val % 16 * 4]
  | [a] => [a.val / 4, a.val % 4 * 16]
  | [] => []

/-- The byte with the given value modulo 256. -/
def byteOf (n : Nat) : Byte := ⟨n % 256, Nat.mod_lt n (by decide)⟩

/-- The bytes of a sequence of six-bit values: four values give three bytes,
a rest of three gives two, a rest of two gives one, and a rest of one value is
corrupt input. -/
def base64Bytes : List Nat → Option (List Byte)
  | s0 :: s1 :: s2 :: s3 :: rest =>
      (base64Bytes rest).map fun tail =>
        byteOf (s0 * 4 + s1 / 16) :: byteOf (s1 % 16 * 16 + s2 / 4) ::
          byteOf (s2 % 4 * 64 + s3) :: tail
  | [s0, s1, s2] => some [byteOf (s0 * 4 + s1 / 16), byteOf (s1 % 16 * 16 + s2 / 4)]
  | [s0, s1] => some [byteOf (s0 * 4 + s1 / 16)]
  | [_] => none
  | [] => some []

/-- Go `base64.RawURLEncoding.EncodeToString`. -/
def RawURLEncoding.EncodeToString (src : List Byte) : String :=
  String.mk ((base64Sextets src).map base64Char)

/-- Go `base64.RawURLEncoding.DecodeString`: carriage returns and line feeds
are skipped, any other character outside the alphabet (the padding character
included) and an impossible length are errors (`none`). -/
def RawURLEncoding.DecodeString (s : String) : Option (List Byte) :=
  ((s.data.filter fun c => c != '\r' && c != '\n').mapM base64Index).bind base64Bytes

/-- The standard library's `encoding/gob` on values of type `storageCursor`:
`encode` is `gob.NewEncoder(buf).Encode(c)` on a fresh buffer, `decode` is
`gob.NewDecoder(r).Decode(sc)` into a zero `storageCursor`, `none` standing for
an error. The bytes of a stream depend on type ids handed out at run time;
the embedding keeps them abstract and records that a stream written by
`encode` is read back as the value written (fields holding the zero value are
left out of the stream and stay zero in the target), and that a stream is
never empty (it starts with the description of the type). -/
structure GobCodec where
  encode : storageCursor → List Byte
  decode : List Byte → Option storageCursor
  decode_encode : ∀ c, decode (encode c) = some c
  encode_ne_nil : ∀ c, encode c ≠ []

/-- The start of Go `StorageListObjects`: the cursor string is decoded into a
`storageCursor`, unless it is empty. `none` is the outcome
`codes.InvalidArgument` with "Malformed cursor was used."; `some none` is the
absent cursor. -/
def decodeCursor (gob : GobCodec) (cursor : String) : Option (Option storageCursor) :=
  if cursor != "" then
    match RawURLEncoding.DecodeString cursor with
    | none => none
    | some cb =>
        match gob.decode cb with
        | none => none
        | some sc => some (some sc)
  else some none

/-! ## Execution of a list query -/

/-- The fields of `api.StorageObject`; the two timestamps are in seconds. -/
structure StorageObject where
  Collection : String
  Key : String
  UserId : String
  Value : String
  Version : String
  PermissionRead : Int
  PermissionWrite : Int
  CreateTime : Int
  UpdateTime : Int
deriving DecidableEq

/-- Go `api.StorageObjectList`. -/
structure StorageObjectList where
  Objects : List StorageObject
  Cursor : String
deriving DecidableEq

/-- The object `rows.Scan` fills from a row. -/
def scanObject (r : Row) : StorageObject :=
  { Collection := r.collection
    Key := r.key
    UserId := r.user_id
    Value := r.value
    Version := r.version
    PermissionRead := r.read
    PermissionWrite := r.write
    CreateTime := r.create_time
    UpdateTime := r.update_time }

/-- The cursor `storageListObjects` builds from the last object of a page.
`fromStringOrNil` is `uuid.FromStringOrNil`. -/
def cursorOf (fromStringOrNil : String → String) (lastObject : StorageObject) : storageCursor :=
  { Key := lastObject.Key
    UserID := if lastObject.UserId != "" then fromStringOrNil lastObject.UserId else uuidNil
    Read := lastObject.PermissionRead }

/-- Go `storageListObjects`. `rows` is what the loop over `rows.Next()` and
`rows.Scan` yields: the rows in the order the database returns them, or the
error of `rows.Scan` or `rows.Err()`. Encoding a cursor with `gob` does not
fail. -/
def storageListObjects (gob : GobCodec) (fromStringOrNil : String → String)
    (rows : Except DriverError (List Row)) (cursor : String) : Except Err StorageObjectList :=
  match rows with
  | .error e => .error (.driver e)
  | .ok scanned =>
      let objects := scanned.map scanObject
      match objects.getLast? with
      | none => .ok { Objects := objects, Cursor := cursor }
      | some lastObject =>
          .ok { Objects := objects
                Cursor := RawURLEncoding.EncodeToString
                  (gob.encode (cursorOf fromStringOrNil lastObject)) }

/-- Outcome of `db.QueryContext` for a list query, in the attempt that
`ExecuteRetryable` does not repeat: `sql.ErrNoRows`, another error, or a row
set to scan. -/
inductive QueryResult where
  | errNoRows
  | failed (e : DriverError)
  | rows (scanned : Except DriverError (List Row))
deriving DecidableEq

/-- The common body of Go `StorageListObjectsAll`, `StorageListObjectsUser`
and `StorageListObjectsPublicReadUser` after the query text is built: the
query is run and the rows are turned into a page. -/
def listObjects (gob : GobCodec) (fromStringOrNil : String → String)
    (queryContext : ListQuery → QueryResult) (query : ListQuery) (cursor : String) :
    Except Err StorageObjectList :=
  match queryContext query with
  | .errNoRows => .ok { Objects := [], Cursor := cursor }
  | .failed e => .error (.driver e)
  | .rows scanned => storageListObjects gob fromStringOrNil scanned cursor

/-- The triple `(*api.StorageObjectList, codes.Code, error)` returned by
`StorageListObjects`. -/
structure ListResult where
  list : Option StorageObjectList
  code : Code
  err : Option Err
deriving DecidableEq

/-- Go `StorageListObjects`. -/
def StorageListObjects (gob : GobCodec) (fromStringOrNil : String → String)
    (queryContext : ListQuery → QueryResult) (caller : String) (ownerID : Option String)
    (collection : String) (limit : Int) (cursor : String) : ListResult :=
  match decodeCursor gob cursor with
  | none => ⟨none, .InvalidArgument, some (.errorsNew "Malformed cursor was used.")⟩
  | some sc =>
      match listObjects gob fromStringOrNil queryContext
          (StorageListObjectsQuery caller ownerID collection limit sc) cursor with
      | .error resultErr => ⟨none, .Internal, some resultErr⟩
      | .ok result => ⟨some result, .OK, none⟩

/-- The rows of a table a list query returns: those that satisfy the `WHERE`
clause, in table order, cut at the `LIMIT`; `none` when the statement is
ill-formed. -/
def selectRows (q : ListQuery) (rows : List Row) : Option (List Row) := do
  let hits ← rows.mapM fun r => (q.wher.eval q.params r).map fun hit => (hit, r)
  match q.limit.eval q.params Row.blank with
  | some (.int n) =>
      if n < 0 then none
      else some (((hits.filter fun p => p.1).map fun p => p.2).take n.toNat)
  | _ => none

/-- Execution of a list query by the reference database. -/
def Database.queryContext (db : Database) (q : ListQuery) : QueryResult :=
  match selectRows q db.rows with
  | none => .failed ⟨false, "statement is not well-formed"⟩
  | some rows => .rows (.ok rows)

/-- Strict lexicographic order on the tuples `(collection, read, key,
user_id)`: `a` comes after `b`. -/
def tupleAfter (a b : String × Int × String × String) : Bool :=
  strLess b.1 a.1 ||
    (a.1 == b.1 && (decide (b.2.1 < a.2.1) ||
      (a.2.1 == b.2.1 && (strLess b.2.2.1 a.2.2.1 ||
        (a.2.2.1 == b.2.2.1 && strLess b.2.2.2 a.2.2.2)))))

/-- The tuple `(collection, read, key, user_id)` of a row. -/
def Row.cursorTuple (r : Row) : String × Int × String × String :=
  (r.collection, r.read, r.key, r.user_id)

/-- Sample stream format, text: each character as a byte 1 followed by the
three bytes of its code point, lowest first; a byte 0 ends the text. -/
def sampleEncodeText : List Char → List Byte
  | [] => [0]
  | ch :: rest =>
      1 :: byteOf ch.toNat :: byteOf (ch.toNat / 256) :: byteOf (ch.toNat / 65536) ::
        sampleEncodeText rest

/-- Reads a text of the sample stream format and returns the rest of the
stream. -/
def sampleDecodeText : List Byte → Option (List Char × List Byte)
  | [] => none
  | b :: rest =>
      if b = 0 then some ([], rest)
      else
        match rest with
        | b0 :: b1 :: b2 :: rest2 =>
            (sampleDecodeText rest2).map fun p =>
              (Char.ofNat (b0.val + 256 * b1.val + 65536 * b2.val) :: p.1, p.2)
        | _ => none

/-- Sample stream format, natural number: as many bytes 1, then a byte 0. -/
def sampleEncodeNat : Nat → List Byte
  | 0 => [0]
  | n + 1 => 1 :: sampleEncodeNat n

/-- Reads a natural number of the sample stream format and returns the rest of
the stream. -/
def sampleDecodeNat : List Byte → Option (Nat × List Byte)
  | [] => none
  | b :: rest =>
      if b = 0 then some (0, rest)
      else (sampleDecodeNat rest).map fun p => (p.1 + 1, p.2)

/-- Sample stream of a cursor: key, user id, sign of `Read`, size of `Read`. -/
def sampleEncodeCursor (c : storageCursor) : List Byte :=
  sampleEncodeText c.Key.data ++ (sampleEncodeText c.UserID.data ++
    ((if c.Read < 0 then 1 else 0) :: sampleEncodeNat c.Read.natAbs))

/-- Reads a cursor from a sample stream. -/
def sampleDecodeCursor (bs : List Byte) : Option storageCursor :=
  match sampleDecodeText bs with
  | none => none
  | some (key, rest1) =>
      match sampleDecodeText rest1 with
      | none => none
      | some (user, rest2) =>
          match rest2 with
          | [] => none
          | sign :: rest3 =>
              match sampleDecodeNat rest3 with
              | some (n, []) =>
                  some { Key := String.mk key
                         UserID := String.mk user
                         Read := if sign = 0 then (n : Int) else -(n : Int) }
              | _ => none

/-- An instance of `GobCodec` with a stream format of its own, for the
examples. -/
def sampleGob : GobCodec where
  encode := sampleEncodeCursor
  decode := sampleDecodeCursor
  decode_encode := by
    have hone : (1 : Byte) ≠ 0 := by decide
    have htext : ∀ (l : List Char) (rest : List Byte),
        sampleDecodeText (sampleEncodeText l ++ rest) = some (l, rest) := by
      intro l
      induction l with
      | nil =>
        intro rest
        show sampleDecodeText (0 :: rest) = some ([], rest)
        rw [sampleDecodeText.eq_def]
        simp
      | cons ch tl ih =>
        intro rest
        have hv : ch.toNat < 1114112 := by
          rcases ch.valid with h | ⟨_, h⟩
          · have h2 : ch.toNat < 55296 := h
            omega
          · exact h
        have hsum : (byteOf ch.toNat).val + 256 * (byteOf (ch.toNat / 256)).val +
            65536 * (byteOf (ch.toNat / 65536)).val = ch.toNat := by
          simp only [byteOf]
          omega
        have hch : Char.ofNat ((byteOf ch.toNat).val + 256 * (byteOf (ch.toNat / 256)).val +
            65536 * (byteOf (ch.toNat / 65536)).val) = ch := by
          rw [hsum]
          exact Char.ofNat_toNat ch
        show sampleDecodeText (1 :: byteOf ch.toNat :: byteOf (ch.toNat / 256) ::
          byteOf (ch.toNat / 65536) :: (sampleEncodeText tl ++ rest)) = some (ch :: tl, rest)
        rw [sampleDecodeText.eq_def]
        simp only [hone, if_false, ih, Option.map_some', hch]
    have hnat : ∀ (n : Nat) (rest : List Byte),
        sampleDecodeNat (sampleEncodeNat n ++ rest) = some (n, rest) := by
      intro n
      induction n with
      | zero =>
        intro rest
        show sampleDecodeNat (0 :: rest) = some (0, rest)
        rw [sampleDecodeNat.eq_def]
        simp
      | succ k ih =>
        intro rest
        show sampleDecodeNat (1 :: (sampleEncodeNat k ++ rest)) = some (k + 1, rest)
        rw [sampleDecodeNat.eq_def]
        simp only [hone, if_false, ih, Option.map_some']
    intro c
    have hn := hnat c.Read.natAbs []
    rw [List.append_nil] at hn
    unfold sampleDecodeCursor sampleEncodeCursor
    simp only [htext, hn]
    obtain ⟨k, u, r⟩ := c
    simp only [Option.some.injEq, storageCursor.mk.injEq, true_and]
    by_cases h : r < 0
    · simp only [h, if_true, hone, if_false]
      omega
    · simp only [h, if_false, if_true]
      omega
  encode_ne_nil := by
    intro c
    unfold sampleEncodeCursor
    cases h : c.Key.data <;> simp [sampleEncodeText]

/-- The public sword row of `userU` under another key. -/
def publicRow (key : String) : Row :=
  ⟨"inv", key, userU, "x", "9dd4e461268c8034f5c8564e155c67a6", 2, 1, 900, 900⟩

/-! ## The match registry of `server/match_registry.go`

The calls on a registry are taken one at a time: each is a function from the
state before to the state after. What the registry does to its collaborators
(the match handlers and the tracker) is recorded in a log. -/

/-- Conversion of an integer to `int32`, as Go does it: modulo `2^32` into
the range from `-2^31` to `2^31 - 1`. -/
def toInt32 (n : Int) : Int := (n + 2147483648) % 4294967296 - 2147483648

/-- Go `MaxLabelSize`. -/
def MaxLabelSize : Nat := 2048

/-- Go `ErrMatchLabelTooLong`. -/
def ErrMatchLabelTooLong : Err := .errorsNew "match label too long, must be 0-2048 bytes"

/-- A `map[string]interface{}` filled by `json.Unmarshal`: the member names
with their values, the values kept as JSON text. -/
structure JSONObject where
  members : List (String × String)
deriving DecidableEq

/-- Go `MatchIndexEntry`. -/
structure MatchIndexEntry where
  Node : String
  Label : Option JSONObject
  LabelString : String
deriving DecidableEq

/-- The fields of `PresenceStream` the registry reads. -/
structure PresenceStream where
  Mode : Nat
  Subject : String
  Label : String
deriving DecidableEq

/-- What the registry uses of a `*MatchHandler`: its id, `IDStr`, and the
current value of `PresenceList.Size()`. -/
structure MatchHandler where
  ID : String
  IDStr : String
  presenceSize : Int
deriving DecidableEq

/-- Modelled from the spec: the handler operations `Close()` and
`QueueTerminate(graceSeconds)` and the tracker operation `UntrackByStream`,
whose code is not part of the registry, as the record that the call was made.
None of them calls back into the registry. -/
inductive Effect where
  | close (id : String)
  | queueTerminate (id : String) (graceSeconds : Int)
  | untrackByStream (stream : PresenceStream)
deriving DecidableEq

/-- Go `LocalMatchRegistry`. `directory` is the `sync.Map` of the Go field
`matches` as its list of entries, at most one per key; `index` is the
in-memory label index as the list of its documents by id; `stoppedCh` is the
number of values waiting in the channel of capacity 2; `effects` is the log of
the calls made on handlers and on the tracker, latest last. -/
structure LocalMatchRegistry where
  node : String
  directory : List (String × MatchHandler)
  matchCount : Int
  index : List (String × MatchIndexEntry)
  stopped : Bool
  stoppedCh : Nat
  effects : List Effect
deriving DecidableEq

/-- Go `NewLocalMatchRegistry`. -/
def NewLocalMatchRegistry (node : String) : LocalMatchRegistry :=
  { node := node
    directory := []
    matchCount := 0
    index := []
    stopped := false
    stoppedCh := 0
    effects := [] }

/-- The non-blocking send `select { case r.stoppedCh <- struct{}{}: default: }`
on the channel of capacity 2. -/
def LocalMatchRegistry.signal (r : LocalMatchRegistry) : LocalMatchRegistry :=
  if r.stoppedCh < 2 then { r with stoppedCh := r.stoppedCh + 1 } else r

/-- The document id `fmt.Sprintf("%v.%v", id.String(), node)`. -/
def matchDocID (id node : String) : String := id ++ "." ++ node

/-- Go `LocalMatchRegistry.NewMatch`. `made` is what `NewMatchHandler` returns
when it is called. -/
def LocalMatchRegistry.NewMatch (r : LocalMatchRegistry) (id : String)
    (made : Except Err MatchHandler) : Except Err MatchHandler × LocalMatchRegistry :=
  if r.stopped then (.error (.errorsNew "shutdown in progress"), r)
  else
    match made with
    | .error err => (.error err, r)
    | .ok mh =>
        (.ok mh,
          { r with
            directory := (id, mh) :: r.directory.filter (fun e => e.1 != id)
            matchCount := toInt32 (r.matchCount + 1) })

/-- Go `LocalMatchRegistry.CreateMatch`. `id` is the fresh UUID, `core` is
what the core factory `createFn` returns (`.ok none` for a nil core), `made`
is what `NewMatchHandler` returns when it is called. -/
def LocalMatchRegistry.CreateMatch (r : LocalMatchRegistry) (id : String)
    (core : Except Err (Option Unit)) (made : Except Err MatchHandler) :
    Except Err String × LocalMatchRegistry :=
  match core with
  | .error err => (.error err, r)
  | .ok none => (.error (.errorsNew "error creating match: not found"), r)
  | .ok (some _) =>
      match r.NewMatch id made with
      | (.error err, r1) => (.error (.errorsNew ("error creating match: " ++ err.Error)), r1)
      | (.ok mh, r1) => (.ok mh.IDStr, r1)

/-- Go `LocalMatchRegistry.GetMatch`. -/
def LocalMatchRegistry.GetMatch (r : LocalMatchRegistry) (id : String) : Option MatchHandler :=
  r.directory.lookup id

/-- Go `LocalMatchRegistry.RemoveMatch`. Removing the document from the
in-memory index does not fail. -/
def LocalMatchRegistry.RemoveMatch (r : LocalMatchRegistry) (id : String)
    (stream : PresenceStream) : LocalMatchRegistry :=
  let matchesRemaining := toInt32 (r.matchCount - 1)
  let r1 : LocalMatchRegistry :=
    { r with
      directory := r.directory.filter (fun e => e.1 != id)
      matchCount := matchesRemaining
      effects := r.effects ++ [.untrackByStream stream]
      index := r.index.filter (fun d => d.1 != matchDocID id r.node) }
  if matchesRemaining == 0 && r1.stopped then r1.signal else r1

/-- Go `LocalMatchRegistry.UpdateMatchLabel`. `jsonUnmarshal` is the attempt to
read the label as a JSON object, whose failure is ignored. Indexing a document
in the in-memory index replaces the document of the same id and does not
fail. -/
def LocalMatchRegistry.UpdateMatchLabel (jsonUnmarshal : String → Option JSONObject)
    (r : LocalMatchRegistry) (id : String) (label : String) :
    Option Err × LocalMatchRegistry :=
  if label.utf8ByteSize > MaxLabelSize then (some ErrMatchLabelTooLong, r)
  else
    let labelJSON := jsonUnmarshal label
    (none,
      { r with
        index := (matchDocID id r.node, ⟨r.node, labelJSON, label⟩) ::
          r.index.filter (fun d => d.1 != matchDocID id r.node) })

/-- Go `LocalMatchRegistry.Stop`; the channel it returns is `stoppedCh` of the
state after. With `graceSeconds = 0` every handler is closed and dropped from
the directory; `Close` does not call back into the registry. -/
def LocalMatchRegistry.Stop (r : LocalMatchRegistry) (graceSeconds : Int) : LocalMatchRegistry :=
  let r1 : LocalMatchRegistry := { r with stopped := true }
  if graceSeconds == 0 then
    LocalMatchRegistry.signal
      { r1 with
        directory := []
        effects := r1.effects ++ r1.directory.map (fun e => Effect.close e.1) }
  else
    let anyRunning := !r1.directory.isEmpty
    let r2 : LocalMatchRegistry :=
      { r1 with
        effects := r1.effects ++
          r1.directory.map (fun e => Effect.queueTerminate e.1 graceSeconds) }
    if !anyRunning then r2.signal else r2

/-- Go `LocalMatchRegistry.Count`. -/
def LocalMatchRegistry.Count (r : LocalMatchRegistry) : Int := r.matchCount

/-- A call of the lifecycle interface of the registry. -/
inductive RegistryCall where
  | newMatch (id : String) (made : Except Err MatchHandler)
  | removeMatch (id : String) (stream : PresenceStream)
  | stop (graceSeconds : Int)

/-- The state after a call. -/
def LocalMatchRegistry.call (r : LocalMatchRegistry) : RegistryCall → LocalMatchRegistry
  | .newMatch id made => (r.NewMatch id made).2
  | .removeMatch id stream => r.RemoveMatch id stream
  | .stop graceSeconds => r.Stop graceSeconds

/-- The state after a sequence of calls. -/
def LocalMatchRegistry.run (r : LocalMatchRegistry) (calls : List RegistryCall) :
    LocalMatchRegistry :=
  calls.foldl LocalMatchRegistry.call r

/-- The handlers for which `NewMatch` has returned successfully and
`RemoveMatch` has not yet been called, by id, after a call; `live` are those
before the call, in the state `r`. A handler registered twice under one id
counts twice, and a `RemoveMatch` takes one out. -/
def liveAfterCall (r : LocalMatchRegistry) (live : List String) : RegistryCall → List String
  | .newMatch id made =>
      match (r.NewMatch id made).1 with
      | .ok _ => id :: live
      | .error _ => live
  | .removeMatch id _ => live.erase id
  | .stop _ => live

/-- The handlers for which `NewMatch` has returned successfully and
`RemoveMatch` has not yet been called, after a sequence of calls. -/
def liveAfter : LocalMatchRegistry → List String → List RegistryCall → List String
  | _, live, [] => live
  | r, live, c :: rest => liveAfter (r.call c) (liveAfterCall r live c) rest

/-- The call, if it is a `RemoveMatch`, names one of the handlers `live`. -/
def removesLiveCall (live : List String) : RegistryCall → Bool
  | .removeMatch id _ => live.contains id
  | _ => true

/-- Every `RemoveMatch` of the sequence names a handler for which `NewMatch`
has returned successfully and `RemoveMatch` has not yet been called. -/
def removesLive : LocalMatchRegistry → List String → List RegistryCall → Bool
  | _, _, [] => true
  | r, live, c :: rest =>
      removesLiveCall live c && removesLive (r.call c) (liveAfterCall r live c) rest

/-! ## Searching the label index and listing matches -/

/-- The queries the registry sends to the label index. -/
inductive IndexQuery where
  | docID (ids : List String)
  | matchAll
  | queryString (q : String)
  | matchField (field text : String)
deriving DecidableEq

/-- A search request `bleve.NewSearchRequestOptions(q, size, 0, false)` with
the stored fields to return. -/
structure SearchRequest where
  query : IndexQuery
  size : Int
  fields : List String
deriving DecidableEq

/-- The value of a stored field of a hit: a string, or something else. -/
inductive FieldValue where
  | text (s : String)
  | other
deriving DecidableEq

/-- A hit of a search: the document id and the returned fields. -/
structure Hit where
  ID : String
  Fields : List (String × FieldValue)
deriving DecidableEq

/-- `r.index.SearchInContext`: the hits for a request on the documents of the
index, or an error. How the index library reads query strings and ranks hits
is not modelled; a search is any such function. -/
abbrev IndexSearch := List (String × MatchIndexEntry) → SearchRequest → Except Err (List Hit)

/-- A search that answers document-id and match-all requests from the list of
documents, returning the stored field `label_string`, and an exact match on
`label_string` for a field match; `queryMatches` decides the query strings. -/
def docSearch (queryMatches : String → MatchIndexEntry → Bool) : IndexSearch :=
  fun docs req =>
    let selected : List (String × MatchIndexEntry) :=
      match req.query with
      | .docID ids => docs.filter fun (d : String × MatchIndexEntry) => ids.contains d.1
      | .matchAll => docs
      | .queryString q => docs.filter fun (d : String × MatchIndexEntry) => queryMatches q d.2
      | .matchField _ text =>
          docs.filter fun (d : String × MatchIndexEntry) => d.2.LabelString == text
    .ok ((selected.take req.size.toNat).map fun (d : String × MatchIndexEntry) =>
      { ID := d.1
        Fields := if req.fields.contains "label_string" then
            [("label_string", .text d.2.LabelString)]
          else [] })

/-- Go `api.Match`. -/
structure Match where
  MatchId : String
  Authoritative : Bool
  Label : Option String
  Size : Int
deriving DecidableEq

/-- What `ListMatches` takes from outside the registry: the search of the
label index, `uuid.FromStringOrNil`, the constant `StreamModeMatchRelayed`,
and the streams with their sizes that
`tracker.CountByStreamModeFilter(MatchFilterRelayed)` returns, in the order in
which the loop over the map visits them. -/
structure ListEnv where
  search : IndexSearch
  fromStringOrNil : String → String
  StreamModeMatchRelayed : Nat
  countByStreamModeFilter : List (PresenceStream × Int)

/-- `strings.SplitN(s, ".", 2)[0]`: the text before the first dot. -/
def beforeDot (s : String) : String := String.mk (s.data.takeWhile fun c => c != '.')

/-- A size passes the optional bounds `minSize` and `maxSize`. -/
def sizeEligible (minSize maxSize : Option Int) (size : Int) : Bool :=
  !(match minSize with
    | some v => decide (v > size)
    | none => false) &&
  !(match maxSize with
    | some v => decide (v < size)
    | none => false)

/-- The body of the loop of `ListMatches` over the hits of the label search, up
to the `append`: the match to append for a hit, or `none` where the body
leaves with `continue`. -/
def hitMatch (env : ListEnv) (r : LocalMatchRegistry) (minSize maxSize : Option Int)
    (hit : Hit) : Option Match :=
  let id := env.fromStringOrNil (beforeDot hit.ID)
  match r.directory.lookup id with
  | none => none
  | some mh =>
      let size := toInt32 mh.presenceSize
      if !sizeEligible minSize maxSize size then none
      else
        match hit.Fields.lookup "label_string" with
        | some (.text labelString) =>
            some { MatchId := hit.ID, Authoritative := true, Label := some labelString,
                   Size := size }
        | _ => none

/-- The loop of `ListMatches` over the hits of the label search. The result is
the slice `results` and whether the function returned from inside the loop. -/
def listHits (env : ListEnv) (r : LocalMatchRegistry) (limit : Int)
    (minSize maxSize : Option Int) : List Hit → List Match → List Match × Bool
  | [], results => (results, false)
  | hit :: rest, results =>
      match hitMatch env r minSize maxSize hit with
      | none => listHits env r limit minSize maxSize rest results
      | some m =>
          if ((results ++ [m]).length : Int) == limit then (results ++ [m], true)
          else listHits env r limit minSize maxSize rest (results ++ [m])

/-- The body of the loop of `ListMatches` over the relayed streams, up to the
`append`: the match to append for a stream and its size, or `none` where the
body leaves with `continue`. -/
def relayedMatch (env : ListEnv) (label : Option String) (minSize maxSize : Option Int)
    (stream : PresenceStream) (size : Int) : Option Match :=
  if stream.Mode != env.StreamModeMatchRelayed then none
  else if !sizeEligible minSize maxSize size then none
  else
    some { MatchId := stream.Subject ++ "." ++ stream.Label, Authoritative := false,
           Label := label, Size := size }

/-- The loop of `ListMatches` over the relayed streams of the tracker. -/
def listRelayed (env : ListEnv) (limit : Int) (label : Option String)
    (minSize maxSize : Option Int) : List (PresenceStream × Int) → List Match → List Match
  | [], results => results
  | (stream, size) :: rest, results =>
      match relayedMatch env label minSize maxSize stream size with
      | none => listRelayed env limit label minSize maxSize rest results
      | some m =>
          if ((results ++ [m]).length : Int) == limit then results ++ [m]
          else listRelayed env limit label minSize maxSize rest (results ++ [m])

/-- The first part of `ListMatches`: which search is made, if any, and whether
relayed matches are allowed. `none` is the early return of an empty list; the
error is that of the search. -/
def listSelect (env : ListEnv) (r : LocalMatchRegistry) (limit : Int)
    (authoritative : Option Bool) (label : Option String) (minSize maxSize : Option Int)
    (queryString : Option String) : Except Err (Option (Bool × Option (List Hit))) :=
  let count : Int := if minSize.isSome || maxSize.isSome then r.matchCount else limit
  match queryString with
  | some qs =>
      if authoritative == some false then .ok none
      else
        let q := if qs == "" then IndexQuery.matchAll else IndexQuery.queryString qs
        match env.search r.index ⟨q, count, ["label_string"]⟩ with
        | .error err => .error (.errorsNew ("error listing matches by query: " ++ err.Error))
        | .ok hits => .ok (some (false, some hits))
  | none =>
      match label with
      | some l =>
          if authoritative == some false then .ok none
          else
            match env.search r.index ⟨.matchField "label_string" l, count, ["label_string"]⟩ with
            | .error err => .error (.errorsNew ("error listing matches by label: " ++ err.Error))
            | .ok hits => .ok (some (false, some hits))
      | none =>
          if authoritative == none || authoritative == some true then
            match env.search r.index ⟨.matchAll, count, ["label_string"]⟩ with
            | .error err => .error (.errorsNew ("error listing matches by label: " ++ err.Error))
            | .ok hits => .ok (some (authoritative == none, some hits))
          else .ok (some (true, none))

/-- The test `labelResults != nil && labelResults.Hits.Len() == 0`. -/
def noHits : Option (List Hit) → Bool
  | some hits => hits.isEmpty
  | none => false

/-- The loop over the hits under `if labelResults != nil`, starting from the
empty slice. -/
def listLabelResults (env : ListEnv) (r : LocalMatchRegistry) (limit : Int)
    (minSize maxSize : Option Int) : Option (List Hit) → List Match × Bool
  | some hits => listHits env r limit minSize maxSize hits []
  | none => ([], false)

/-- Go `LocalMatchRegistry.ListMatches`. The result `none` is the run-time
panic of `make([]*api.Match, 0, limit)` on a negative `limit`. -/
def LocalMatchRegistry.ListMatches (env : ListEnv) (r : LocalMatchRegistry) (limit : Int)
    (authoritative : Option Bool) (label : Option String) (minSize maxSize : Option Int)
    (queryString : Option String) : Option (Except Err (List Match)) :=
  if limit == 0 then some (.ok [])
  else
    match listSelect env r limit authoritative label minSize maxSize queryString with
    | .error err => some (.error err)
    | .ok none => some (.ok [])
    | .ok (some (allowRelayed, labelResults)) =>
        if noHits labelResults && authoritative == some false then some (.ok [])
        else if limit < 0 then none
        else
          let fromHits := listLabelResults env r limit minSize maxSize labelResults
          if fromHits.2 then some (.ok fromHits.1)
          else if !allowRelayed then some (.ok fromHits.1)
          else
            some (.ok (listRelayed env limit label minSize maxSize env.countByStreamModeFilter
              fromHits.1))

/-- A sample match id. -/
def matchA : String := "6f1e8a4c-3b52-4c1d-9a77-2f0d5e8b1c01"

/-- A second sample match id. -/
def matchB : String := "b2c9d7e0-64a1-4f3e-8d25-7a9c0e4f6b02"

/-- A sample handler of `matchA` on node `n1` with three presences. -/
def handlerA : MatchHandler := ⟨matchA, matchA ++ ".n1", 3⟩

/-- A sample handler of `matchB` on node `n1` with one presence. -/
def handlerB : MatchHandler := ⟨matchB, matchB ++ ".n1", 1⟩

/-- A sample stream, that of the relayed match `matchB`. -/
def streamB : PresenceStream := ⟨5, matchB, ""⟩

/-- A sample stream of `matchA`. -/
def streamA : PresenceStream := ⟨6, matchA, "n1"⟩

/-- A sample JSON reader that reads no label at all as an object. -/
def noJSON : String → Option JSONObject := fun _ => none

/-- A sample registry on node `n1` holding `handlerA` with the label
`ranked`. -/
def sampleRegistry : LocalMatchRegistry :=
  (LocalMatchRegistry.UpdateMatchLabel noJSON
    ((NewLocalMatchRegistry "n1").NewMatch matchA (.ok handlerA)).2 matchA "ranked").2

/-- A sample environment for listing: the exact-match search, stream mode 5
for relayed matches, and two relayed streams of sizes 2 and 4. -/
def sampleEnv : ListEnv :=
  { search := docSearch fun q e => e.LabelString == q
    fromStringOrNil := id
    StreamModeMatchRelayed := 5
    countByStreamModeFilter := [(streamB, 2), (⟨5, matchA, ""⟩, 4), (streamA, 1)] }

/-- A database that answers like the reference database, except that
`RELEASE SAVEPOINT` fails with an error that is not retried, as when the
connection is lost at that point. -/
def releaseFailingBackend : Backend Database where
  queryRow db wher params := selectRow params wher db.rows
  exec db stmt params :=
    match stmt with
    | .releaseSavepoint => (.error ⟨false, "driver: bad connection"⟩, db)
    | _ => db.exec stmt params

/-- A database under contention: the reference database together with the
number of `INSERT`s still to be refused with a serialization failure, the
retryable error `40001`. -/
def contendedBackend : Backend (Nat × Database) where
  queryRow s wher params := selectRow params wher s.2.rows
  exec s stmt params :=
    match s.1, stmt with
    | n + 1, .insert _ => (.error ⟨true, "restart transaction"⟩, (n, s.2))
    | _, _ => ((s.2.exec stmt params).1, (s.1, (s.2.exec stmt params).2))

/-! # Properties -/

end Nakama

namespace Nakama

/-! ## Ordering of a batch -/

/-- C1: `StorageOpWrites.Less` and `StorageOpDeletes.Less` are not the strict
lexicographic order on `(collection, key, owner_id)`. On the ops
`(collection "b", key "a")` and `(collection "a", key "b")` of one owner
`Less` answers true in both directions, while the first triple is not
lexicographically smaller than the second; the insertion sort of the standard
library therefore leaves two batches holding these same two ops in two
different orders. -/
theorem Less_not_lexicographic :
    StorageOpWrites.Less [opBA, opAB] ⟨0, by decide⟩ ⟨1, by decide⟩ = true ∧
    lexLess opBA.sortKey opAB.sortKey = false ∧
    StorageOpWrites.Less [opBA, opAB] ⟨1, by decide⟩ ⟨0, by decide⟩ = true ∧
    StorageOpDeletes.Less [delBA, delAB] ⟨0, by decide⟩ ⟨1, by decide⟩ = true ∧
    lexLess delBA.sortKey delAB.sortKey = false ∧
    insertionSort StorageOpWrite.less [opAB, opBA] = [opBA, opAB] ∧
    insertionSort StorageOpWrite.less [opBA, opAB] = [opAB, opBA] := by
  decide

/-! ## A single write -/

section Write

variable {σ : Type} (tx : Backend σ) (md5hex : String → String) (s : σ)
  (authoritativeWrite : Bool) (ownerID : String) (object : WriteStorageObject)

/-- The errors of the final `UPDATE` / `INSERT` step. -/
theorem storageWriteExec_error (query : Stmt) (params : List Val) (ack : StorageObjectAck)
    (e : Err) (h : (storageWriteExec tx s query params ack).1 = .error e) :
    e = .ErrStorageWriteFailed ∨ ∃ d, e = .driver d := by
  revert h
  unfold storageWriteExec
  split
  · intro h
    simp only [Except.error.injEq] at h
    exact Or.inr ⟨_, h.symm⟩
  · split
    · intro h
      simp only [Except.error.injEq] at h
      exact Or.inl h.symm
    · intro h
      cases h

/-- The version test applied to an existing row. -/
theorem storageWriteObjectChecked_rejectedVersion_iff (dbVersion : NullString)
    (dbPermissionRead dbPermissionWrite : NullInt64) :
    (storageWriteObjectChecked tx md5hex s authoritativeWrite ownerID object dbVersion
        dbPermissionRead dbPermissionWrite).1 = .error .ErrStorageRejectedVersion ↔
      dbVersion.Valid = true ∧
        (object.Version = "*" ∨ (object.Version ≠ "" ∧ object.Version ≠ dbVersion.String)) := by
  unfold storageWriteObjectChecked
  split
  · rename_i h
    simp only [Bool.and_eq_true, Bool.or_eq_true, beq_iff_eq, bne_iff_ne, ne_eq] at h
    simp [h]
  · rename_i h
    simp only [Bool.and_eq_true, Bool.or_eq_true, beq_iff_eq, bne_iff_ne, ne_eq] at h
    have hne : ¬(dbVersion.Valid = true ∧
        (object.Version = "*" ∨ (object.Version ≠ "" ∧ object.Version ≠ dbVersion.String))) := h
    simp only [hne, iff_false]
    split
    · simp
    · split
      · simp
      · intro hx
        rcases storageWriteExec_error tx s _ _ _ _ hx with h | ⟨d, h⟩ <;> cases h

/-- The permission test applied after the version test. -/
theorem storageWriteObjectChecked_rejectedPermission_iff (dbVersion : NullString)
    (dbPermissionRead dbPermissionWrite : NullInt64) :
    (storageWriteObjectChecked tx md5hex s authoritativeWrite ownerID object dbVersion
        dbPermissionRead dbPermissionWrite).1 = .error .ErrStorageRejectedPermission ↔
      ¬(dbVersion.Valid = true ∧
        (object.Version = "*" ∨ (object.Version ≠ "" ∧ object.Version ≠ dbVersion.String))) ∧
      dbPermissionWrite.Valid = true ∧ dbPermissionWrite.Int64 = 0 ∧
        authoritativeWrite = false := by
  unfold storageWriteObjectChecked
  split
  · rename_i h
    simp only [Bool.and_eq_true, Bool.or_eq_true, beq_iff_eq, bne_iff_ne, ne_eq] at h
    simp [h]
  · rename_i h
    simp only [Bool.and_eq_true, Bool.or_eq_true, beq_iff_eq, bne_iff_ne, ne_eq] at h
    have hne : ¬(dbVersion.Valid = true ∧
        (object.Version = "*" ∨ (object.Version ≠ "" ∧ object.Version ≠ dbVersion.String))) := h
    simp only [hne, not_false_eq_true, true_and]
    split
    · rename_i hp
      simp only [Bool.and_eq_true, beq_iff_eq, Bool.not_eq_true'] at hp
      simp [hp]
    · rename_i hp
      simp only [Bool.and_eq_true, beq_iff_eq, Bool.not_eq_true'] at hp
      have hnp : ¬(dbPermissionWrite.Valid = true ∧ dbPermissionWrite.Int64 = 0 ∧
          authoritativeWrite = false) := fun h3 => hp ⟨⟨h3.1, h3.2.1⟩, h3.2.2⟩
      simp only [hnp, iff_false]
      split
      · simp
      · intro hx
        rcases storageWriteExec_error tx s _ _ _ _ hx with h | ⟨d, h⟩ <;> cases h

/-- A rejection leaves the state as it was: no statement is executed. -/
theorem storageWriteObjectChecked_rejected_state (dbVersion : NullString)
    (dbPermissionRead dbPermissionWrite : NullInt64) (e : Err)
    (he : e = .ErrStorageRejectedVersion ∨ e = .ErrStorageRejectedPermission)
    (h : (storageWriteObjectChecked tx md5hex s authoritativeWrite ownerID object dbVersion
        dbPermissionRead dbPermissionWrite).1 = .error e) :
    (storageWriteObjectChecked tx md5hex s authoritativeWrite ownerID object dbVersion
        dbPermissionRead dbPermissionWrite).2 = s := by
  rcases he with rfl | rfl
  · rw [storageWriteObjectChecked_rejectedVersion_iff] at h
    have hb : (dbVersion.Valid && (object.Version == "*" ||
        (object.Version != "" && object.Version != dbVersion.String))) = true := by
      simpa using h
    unfold storageWriteObjectChecked
    rw [if_pos hb]
  · rw [storageWriteObjectChecked_rejectedPermission_iff] at h
    have hb : ¬((dbVersion.Valid && (object.Version == "*" ||
        (object.Version != "" && object.Version != dbVersion.String))) = true) := by
      simpa using h.1
    have hp : (dbPermissionWrite.Valid && dbPermissionWrite.Int64 == 0 &&
        !authoritativeWrite) = true := by
      simp [h.2.1, h.2.2.1, h.2.2.2]
    unfold storageWriteObjectChecked
    rw [if_neg hb, if_pos hp]

/-- C2: `storageWriteObject` fails with `ErrStorageRejectedVersion` exactly
when the pre-flight `SELECT` reports no row and the op version is neither
empty nor `"*"`, or it finds a row and the op version is `"*"` or is non-empty
and differs from the stored version. In particular an op with an empty
version is never rejected on version, and a `"*"` op on an absent row is not
rejected. -/
theorem storageWriteObject_rejectedVersion_iff :
    ((storageWriteObject tx md5hex s authoritativeWrite ownerID object).1 =
        .error .ErrStorageRejectedVersion ↔
      (tx.queryRow s whereObject [.str object.Collection, .str object.Key, .str ownerID] =
          .noRows ∧ object.Version ≠ "" ∧ object.Version ≠ "*") ∨
      (∃ version read write,
        tx.queryRow s whereObject [.str object.Collection, .str object.Key, .str ownerID] =
          .row version read write ∧ object.Version = "*") ∨
      (∃ version read write,
        tx.queryRow s whereObject [.str object.Collection, .str object.Key, .str ownerID] =
          .row version read write ∧ object.Version ≠ "" ∧ object.Version ≠ version)) ∧
    (object.Version = "" →
      (storageWriteObject tx md5hex s authoritativeWrite ownerID object).1 ≠
        .error .ErrStorageRejectedVersion) ∧
    (object.Version = "*" →
      tx.queryRow s whereObject [.str object.Collection, .str object.Key, .str ownerID] =
        .noRows →
      (storageWriteObject tx md5hex s authoritativeWrite ownerID object).1 ≠
        .error .ErrStorageRejectedVersion) := by
  have key : (storageWriteObject tx md5hex s authoritativeWrite ownerID object).1 =
        .error .ErrStorageRejectedVersion ↔
      (tx.queryRow s whereObject [.str object.Collection, .str object.Key, .str ownerID] =
          .noRows ∧ object.Version ≠ "" ∧ object.Version ≠ "*") ∨
      (∃ version read write,
        tx.queryRow s whereObject [.str object.Collection, .str object.Key, .str ownerID] =
          .row version read write ∧ object.Version = "*") ∨
      (∃ version read write,
        tx.queryRow s whereObject [.str object.Collection, .str object.Key, .str ownerID] =
          .row version read write ∧ object.Version ≠ "" ∧ object.Version ≠ version) := by
    unfold storageWriteObject
    cases hq : tx.queryRow s whereObject
        [.str object.Collection, .str object.Key, .str ownerID] with
    | failed e => simp
    | noRows =>
      simp only [true_and, reduceCtorEq, false_and, exists_false, or_false]
      split
      · rename_i h
        simp only [Bool.and_eq_true, bne_iff_ne, ne_eq] at h
        simp [h]
      · rename_i h
        simp only [Bool.and_eq_true, bne_iff_ne, ne_eq] at h
        rw [storageWriteObjectChecked_rejectedVersion_iff]
        simp only [Bool.false_eq_true, false_and, false_iff]
        exact h
    | row version read write =>
      simp only [reduceCtorEq, false_and, false_or]
      rw [storageWriteObjectChecked_rejectedVersion_iff]
      simp only [true_and, SelectResult.row.injEq]
      constructor
      · rintro (h | ⟨h1, h2⟩)
        · exact Or.inl ⟨version, read, write, ⟨rfl, rfl, rfl⟩, h⟩
        · exact Or.inr ⟨version, read, write, ⟨rfl, rfl, rfl⟩, h1, h2⟩
      · rintro (⟨v, r, w, ⟨rfl, -, -⟩, h⟩ | ⟨v, r, w, ⟨rfl, -, -⟩, h1, h2⟩)
        · exact Or.inl h
        · exact Or.inr ⟨h1, h2⟩
  refine ⟨key, ?_, ?_⟩
  · intro hv hrej
    rw [key] at hrej
    rcases hrej with ⟨-, h, -⟩ | ⟨_, _, _, -, h⟩ | ⟨_, _, _, -, h, -⟩
    · exact h hv
    · rw [hv] at h; exact absurd h (by decide)
    · exact h hv
  · intro hv hno hrej
    rw [key] at hrej
    rcases hrej with ⟨-, -, h⟩ | ⟨_, _, _, hr, -⟩ | ⟨_, _, _, hr, -, -⟩
    · exact h hv
    · rw [hno] at hr; cases hr
    · rw [hno] at hr; cases hr

/-- C3: for a write op that is not rejected on version, `storageWriteObject`
fails with `ErrStorageRejectedPermission` exactly when the pre-flight `SELECT`
finds the row, its stored write permission is 0 and the write is not
authoritative. The state is then the one before the call (no statement is
executed, so the row is unchanged), and an authoritative write is never
rejected with `ErrStorageRejectedPermission`. -/
theorem storageWriteObject_rejectedPermission_iff
    (hpass : (storageWriteObject tx md5hex s authoritativeWrite ownerID object).1 ≠
      .error .ErrStorageRejectedVersion) :
    ((storageWriteObject tx md5hex s authoritativeWrite ownerID object).1 =
        .error .ErrStorageRejectedPermission ↔
      ∃ version read,
        tx.queryRow s whereObject [.str object.Collection, .str object.Key, .str ownerID] =
          .row version read 0 ∧ authoritativeWrite = false) ∧
    ((storageWriteObject tx md5hex s authoritativeWrite ownerID object).1 =
        .error .ErrStorageRejectedPermission →
      (storageWriteObject tx md5hex s authoritativeWrite ownerID object).2 = s) ∧
    (authoritativeWrite = true →
      (storageWriteObject tx md5hex s authoritativeWrite ownerID object).1 ≠
        .error .ErrStorageRejectedPermission) := by
  have key : (storageWriteObject tx md5hex s authoritativeWrite ownerID object).1 =
        .error .ErrStorageRejectedPermission ↔
      ∃ version read,
        tx.queryRow s whereObject [.str object.Collection, .str object.Key, .str ownerID] =
          .row version read 0 ∧ authoritativeWrite = false := by
    revert hpass
    unfold storageWriteObject
    cases hq : tx.queryRow s whereObject
        [.str object.Collection, .str object.Key, .str ownerID] with
    | failed e => simp
    | noRows =>
      simp only [reduceCtorEq, false_and, exists_false, iff_false]
      split
      · simp
      · intro _
        rw [storageWriteObjectChecked_rejectedPermission_iff]
        simp
    | row version read write =>
      simp only [ne_eq]
      rw [storageWriteObjectChecked_rejectedVersion_iff,
        storageWriteObjectChecked_rejectedPermission_iff]
      intro hpass
      constructor
      · rintro ⟨-, -, h1, h2⟩
        exact ⟨version, read, by rw [← h1], h2⟩
      · rintro ⟨v, r, hr, h2⟩
        injection hr with _ _ h1
        exact ⟨hpass, rfl, h1, h2⟩
  refine ⟨key, ?_, ?_⟩
  · unfold storageWriteObject
    cases hq : tx.queryRow s whereObject
        [.str object.Collection, .str object.Key, .str ownerID] with
    | failed e => simp
    | noRows =>
      simp only
      split
      · simp
      · exact storageWriteObjectChecked_rejected_state tx md5hex s authoritativeWrite ownerID
          object _ _ _ _ (Or.inr rfl)
    | row version read write =>
      exact storageWriteObjectChecked_rejected_state tx md5hex s authoritativeWrite ownerID
        object _ _ _ _ (Or.inr rfl)
  · intro ha hrej
    rw [key] at hrej
    obtain ⟨_, _, -, h⟩ := hrej
    rw [ha] at h
    cases h

/-- C4: when the pre-flight `SELECT` finds a row whose stored
`(version, read, write)` equals `(md5_hex(value), read or 1, write or 1)` of
the op, and the op passes the version and the permission check,
`storageWriteObject` returns the acknowledgment carrying that version and the
state of the database is the one before the call: no `UPDATE` or `INSERT` is
executed, whatever the database is. -/
theorem storageWriteObject_noop (version : String) (read write : Int)
    (hrow : tx.queryRow s whereObject [.str object.Collection, .str object.Key, .str ownerID] =
      .row version read write)
    (hversion : ¬(object.Version = "*" ∨ (object.Version ≠ "" ∧ object.Version ≠ version)))
    (hpermission : ¬(write = 0 ∧ authoritativeWrite = false))
    (hsame : version = md5hex object.Value ∧ read = object.PermissionRead.getD 1 ∧
      write = object.PermissionWrite.getD 1) :
    storageWriteObject tx md5hex s authoritativeWrite ownerID object =
      (.ok { Collection := object.Collection
             Key := object.Key
             Version := md5hex object.Value
             UserId := if ownerID ≠ uuidNil then ownerID else "" }, s) := by
  obtain ⟨hv, hr, hw⟩ := hsame
  unfold storageWriteObject
  rw [hrow]
  simp only
  unfold storageWriteObjectChecked
  have h1 : ((true && (object.Version == "*" ||
      (object.Version != "" && object.Version != version))) = true) ↔
      (object.Version = "*" ∨ (object.Version ≠ "" ∧ object.Version ≠ version)) := by
    simp
  rw [if_neg (fun h => hversion (h1.mp h))]
  have h2 : ((true && write == 0 && !authoritativeWrite) = true) ↔
      (write = 0 ∧ authoritativeWrite = false) := by
    simp
  rw [if_neg (fun h => hpermission (h2.mp h))]
  have h3 : (true && version == md5hex object.Value &&
      read == (match object.PermissionRead with | some v => v | none => 1) &&
      write == (match object.PermissionWrite with | some v => v | none => 1)) = true := by
    subst hv hr hw
    cases object.PermissionRead <;> cases object.PermissionWrite <;> simp
  simp only [h3, if_true, writeAck]

end Write

/-- Witness for C3: on the database holding the sword row with write
permission 0, a client write is rejected on permission and changes nothing. -/
theorem storageWriteObject_rejectedPermission_iff_witness :
    (storageWriteObject sqlBackend md5Sample (swordDatabase 1 0) false userU
        (swordWrite "y" "")).1 = .error .ErrStorageRejectedPermission ∧
    (storageWriteObject sqlBackend md5Sample (swordDatabase 1 0) false userU
        (swordWrite "y" "")).2 = swordDatabase 1 0 :=
  have h := storageWriteObject_rejectedPermission_iff sqlBackend md5Sample (swordDatabase 1 0)
    false userU (swordWrite "y" "") (by decide)
  ⟨h.1.mpr ⟨"9dd4e461268c8034f5c8564e155c67a6", 1, by decide, rfl⟩,
    h.2.1 (h.1.mpr ⟨"9dd4e461268c8034f5c8564e155c67a6", 1, by decide, rfl⟩)⟩

/-- Witness for C4: writing `"x"` again over the sword row holding `"x"` with
the default permissions acknowledges the version and leaves the database as
it was. -/
theorem storageWriteObject_noop_witness :
    storageWriteObject sqlBackend md5Sample (swordDatabase 1 1) false userU
        (swordWrite "x" "9dd4e461268c8034f5c8564e155c67a6") =
      (.ok ⟨"inv", "sword", "9dd4e461268c8034f5c8564e155c67a6", userU⟩, swordDatabase 1 1) :=
  storageWriteObject_noop sqlBackend md5Sample (swordDatabase 1 1) false userU
    (swordWrite "x" "9dd4e461268c8034f5c8564e155c67a6") "9dd4e461268c8034f5c8564e155c67a6" 1 1
    (by decide) (by decide) (by decide) (by decide)

end Nakama

namespace Nakama

/-! ## Writes on the reference database -/

/-- Value of the object condition on a row. -/
theorem whereObject_eval (c k o : String) (rest : List Val) (r : Row) :
    whereObject.eval (.str c :: .str k :: .str o :: rest) r = some (r.hasCoordinate c k o) := by
  simp [whereObject, Cond.eval, Expr.eval, Row.get, Val.sqlEq, Row.hasCoordinate]

/-- The pre-flight `SELECT` of the reference database returns the first row
at the coordinate. -/
theorem selectRow_whereObject (c k o : String) (rest : List Val) (rows : List Row) :
    selectRow (.str c :: .str k :: .str o :: rest) whereObject rows =
      match rows.find? (fun r => r.hasCoordinate c k o) with
      | none => .noRows
      | some r => .row r.version r.read r.write := by
  induction rows with
  | nil => rfl
  | cons r rs ih =>
    simp only [selectRow, whereObject_eval, List.find?]
    cases h : r.hasCoordinate c k o
    · simpa using ih
    · simp

/-- The row an `UPDATE` of the write path leaves in place of `r`. -/
theorem applySet_update (now : Int) (c k o v ver : String) (rd wr : Int) (r : Row) :
    applySet now [.str c, .str k, .str o, .str v, .str ver, .int rd, .int wr] r
        [(.value, .expr (.param 4)), (.version, .expr (.param 5)), (.read, .expr (.param 6)),
          (.write, .expr (.param 7)), (.update_time, .now)] r =
      some (r.overwritten v ver rd wr now) := by
  simp [applySet, Rhs.eval, Expr.eval, Row.set, Row.overwritten]

/-- The `UPDATE` of the write path on the reference database. -/
theorem updateRows_update (now : Int) (c k o v ver : String) (rd wr : Int) (rows : List Row) :
    updateRows now [.str c, .str k, .str o, .str v, .str ver, .int rd, .int wr]
        [(.value, .expr (.param 4)), (.version, .expr (.param 5)), (.read, .expr (.param 6)),
          (.write, .expr (.param 7)), (.update_time, .now)] whereObject rows =
      some (rows.map (fun r => if r.hasCoordinate c k o then r.overwritten v ver rd wr now
        else r), ((rows.countP (fun r => r.hasCoordinate c k o) : Nat) : Int)) := by
  induction rows with
  | nil => rfl
  | cons r rs ih =>
    simp only [updateRows, whereObject_eval, ih, applySet_update]
    cases h : r.hasCoordinate c k o <;> simp [h]

/-- The row an `INSERT` of the write path adds. -/
theorem applySet_insert (now : Int) (c k o v ver : String) (rd wr : Int) :
    applySet now [.str c, .str k, .str o, .str v, .str ver, .int rd, .int wr] Row.blank
        [(.collection, .expr (.param 1)), (.key, .expr (.param 2)), (.user_id, .expr (.param 3)),
          (.value, .expr (.param 4)), (.version, .expr (.param 5)), (.read, .expr (.param 6)),
          (.write, .expr (.param 7)), (.create_time, .now), (.update_time, .now)] Row.blank =
      some ⟨c, k, o, v, ver, rd, wr, now, now⟩ := by
  simp [applySet, Rhs.eval, Expr.eval, Row.set, Row.blank]

end Nakama

namespace Nakama

/-- Looking a coordinate up after the `UPDATE` of the write path. -/
theorem find_map_update (now : Int) (c k o v ver : String) (rd wr : Int) (rows : List Row) :
    (rows.map (fun r => if r.hasCoordinate c k o then r.overwritten v ver rd wr now
        else r)).find? (fun r => r.hasCoordinate c k o) =
      (rows.find? (fun r => r.hasCoordinate c k o)).map (fun r =>
          r.overwritten v ver rd wr now) := by
  induction rows with
  | nil => rfl
  | cons r rs ih =>
    cases h : r.hasCoordinate c k o
    · simp only [List.map_cons, h, Bool.false_eq_true, if_false, List.find?_cons_of_neg,
        not_false_eq_true]
      exact ih
    · have h2 : (r.overwritten v ver rd wr now).hasCoordinate c k o = true := h
      simp [List.find?, h, h2]

/-- C5: on the reference database the predicate
`version(row) = md5_hex(value(row))` is preserved by `storageWriteObject`
whatever its outcome, and after a successful write the acknowledged version
is `md5_hex` of the op value and is the stored version of the row at the
coordinate `(collection, key, owner)` of the op. -/
theorem storageWriteObject_version_invariant (md5hex : String → String) (db : Database)
    (authoritativeWrite : Bool) (ownerID : String) (object : WriteStorageObject)
    (hinv : ∀ r ∈ db.rows, r.version = md5hex r.value) :
    (∀ r ∈ (storageWriteObject sqlBackend md5hex db authoritativeWrite ownerID object).2.rows,
        r.version = md5hex r.value) ∧
    (∀ ack, (storageWriteObject sqlBackend md5hex db authoritativeWrite ownerID object).1 =
        .ok ack →
      ack.Version = md5hex object.Value ∧
      ∃ row,
        (storageWriteObject sqlBackend md5hex db authoritativeWrite ownerID
            object).2.lookup object.Collection object.Key ownerID = some row ∧
        row.version = ack.Version) := by
  unfold storageWriteObject
  have hq : sqlBackend.queryRow db whereObject
      [.str object.Collection, .str object.Key, .str ownerID] =
      match db.rows.find? (fun r => r.hasCoordinate object.Collection object.Key ownerID) with
      | none => .noRows
      | some r => .row r.version r.read r.write := selectRow_whereObject _ _ _ _ _
  rw [hq]
  cases hfind : db.rows.find? (fun r => r.hasCoordinate object.Collection object.Key ownerID) with
  | none =>
    simp only
    split
    · exact ⟨hinv, by simp⟩
    · unfold storageWriteObjectChecked
      simp only [Bool.false_and, Bool.false_eq_true, if_false]
      have hany : (db.rows.any fun x => x.collection == object.Collection &&
          x.key == object.Key && x.user_id == ownerID) = false := by
        rw [List.any_eq_false]
        intro x hx
        have := List.find?_eq_none.mp hfind x hx
        simpa [Row.hasCoordinate] using this
      simp only [storageWriteExec, sqlBackend, Database.exec, insertStmt, applySet_insert,
        hany, Bool.false_eq_true, if_false]
      simp only [bne_self_eq_false, Bool.false_eq_true, if_false]
      refine ⟨?_, ?_⟩
      · intro r hr
        rcases List.mem_append.mp hr with h | h
        · exact hinv r h
        · simp only [List.mem_singleton] at h
          rw [h]
      · intro ack hack
        simp only [Except.ok.injEq] at hack
        subst hack
        refine ⟨rfl, ?_⟩
        simp only [Database.lookup, List.find?_append, hfind, Option.none_or]
        refine ⟨_, List.find?_cons_of_pos _ ?_, rfl⟩
        simp [Row.hasCoordinate]
  | some r0 =>
    simp only
    unfold storageWriteObjectChecked
    split
    · exact ⟨hinv, by simp⟩
    · split
      · exact ⟨hinv, by simp⟩
      · simp only
        split
        · rename_i hsame
          simp only [Bool.true_and, Bool.and_eq_true, beq_iff_eq] at hsame
          refine ⟨hinv, ?_⟩
          intro ack hack
          simp only [Except.ok.injEq] at hack
          subst hack
          exact ⟨rfl, r0, hfind, hsame.1.1⟩
        · simp only [if_true, storageWriteExec, sqlBackend, Database.exec, updateStmt,
            updateRows_update]
          have hrows : ∀ r ∈ db.rows.map (fun r =>
              if r.hasCoordinate object.Collection object.Key ownerID then
                r.overwritten object.Value (md5hex object.Value)
                  (match object.PermissionRead with | some v => v | none => 1)
                  (match object.PermissionWrite with | some v => v | none => 1) db.now
              else r), r.version = md5hex r.value := by
            intro r hr
            obtain ⟨r1, hr1, rfl⟩ := List.mem_map.mp hr
            split
            · rfl
            · exact hinv r1 hr1
          split
          · exact ⟨hrows, by simp⟩
          · refine ⟨hrows, ?_⟩
            intro ack hack
            simp only [Except.ok.injEq] at hack
            subst hack
            refine ⟨rfl, ?_⟩
            simp only [Database.lookup, find_map_update, hfind, Option.map_some']
            exact ⟨_, rfl, rfl⟩

end Nakama

namespace Nakama

/-- Witness for C5: overwriting the sword row with `"y"` keeps every stored
version equal to the digest of the stored value, and the acknowledged version
is the stored one. -/
theorem storageWriteObject_version_invariant_witness :
    (∀ r ∈ (swordDatabase 1 1).rows, r.version = md5Sample r.value) ∧
    (∀ r ∈ (storageWriteObject sqlBackend md5Sample (swordDatabase 1 1) false userU
        (swordWrite "y" "")).2.rows, r.version = md5Sample r.value) ∧
    (∀ ack, (storageWriteObject sqlBackend md5Sample (swordDatabase 1 1) false userU
        (swordWrite "y" "")).1 = .ok ack →
      ack.Version = md5Sample "y" ∧
      ∃ row,
        (storageWriteObject sqlBackend md5Sample (swordDatabase 1 1) false userU
            (swordWrite "y" "")).2.lookup "inv" "sword" userU = some row ∧
        row.version = ack.Version) :=
  ⟨by decide,
    storageWriteObject_version_invariant md5Sample (swordDatabase 1 1) false userU
      (swordWrite "y" "") (by decide)⟩

end Nakama

namespace Nakama

/-! ## The read query -/

/-- A placeholder that points into the parameters appended last. -/
theorem Expr.eval_param_append (ps new : List Val) (r : Row) (i : Nat) :
    Expr.eval (ps ++ new) r (.param (ps.length + (i + 1))) = new[i]? := by
  simp only [Expr.eval, Nat.add_eq_zero, Nat.add_one_ne_zero, and_false, if_false]
  rw [List.getElem?_append_right (by omega)]
  congr 1
  omega

/-- Value of the clause built for one requested id, whatever parameters are
bound before and after its own. -/
theorem readObjectsStep_eval (caller : String) (w : Option Cond) (ps qs : List Val)
    (id : ReadStorageObjectId) (row : Row) :
    ∃ c, (readObjectsStep caller (w, ps) id).1 =
        (match w with
          | none => some c
          | some w0 => some (.or w0 c)) ∧
      (∃ new, (readObjectsStep caller (w, ps) id).2 = ps ++ new) ∧
      c.eval ((readObjectsStep caller (w, ps) id).2 ++ qs) row =
        some (readPermitted caller id row) := by
  have e1 : ∀ (a b c : Val) (rest : List Val),
      Expr.eval (ps ++ a :: b :: c :: rest) row (.param (ps.length + 1)) = some a := by
    intro a b c rest
    exact Expr.eval_param_append ps (a :: b :: c :: rest) row 0
  have e2 : ∀ (a b c : Val) (rest : List Val),
      Expr.eval (ps ++ a :: b :: c :: rest) row (.param (ps.length + 2)) = some b := by
    intro a b c rest
    exact Expr.eval_param_append ps (a :: b :: c :: rest) row 1
  have e3 : ∀ (a b c : Val) (rest : List Val),
      Expr.eval (ps ++ a :: b :: c :: rest) row (.param (ps.length + 3)) = some c := by
    intro a b c rest
    have h := Expr.eval_param_append ps (a :: b :: c :: rest) row 2
    simpa using h
  have e4 : ∀ (a b c d : Val) (rest : List Val),
      Expr.eval (ps ++ a :: b :: c :: d :: rest) row (.param (ps.length + 4)) = some d := by
    intro a b c d rest
    have h := Expr.eval_param_append ps (a :: b :: c :: d :: rest) row 3
    simpa using h
  have ecol : ∀ (params : List Val) (c : Col), Expr.eval params row (.col c) = some (row.get c) :=
    fun _ _ => rfl
  have elit : ∀ (params : List Val) (n : Int), Expr.eval params row (.lit n) = some (.int n) :=
    fun _ _ => rfl
  unfold readObjectsStep
  simp only
  by_cases hc : caller = uuidNil
  · simp only [hc, if_true]
    refine ⟨whereObjectAt ps.length, by cases w <;> rfl, ?_, ?_⟩
    · split <;> exact ⟨_, rfl⟩
    · by_cases hu : id.UserId = ""
      · simp only [hu, beq_self_eq_true, if_true, whereObjectAt, Cond.eval, List.append_assoc,
          List.cons_append, List.nil_append, e1, e2, e3, ecol]
        simp [Row.get, Val.sqlEq, readPermitted, hu]
      · have hu2 : (id.UserId == "") = false := by simpa using hu
        simp only [hu2, Bool.false_eq_true, if_false, whereObjectAt, Cond.eval,
          List.append_assoc, List.cons_append, List.nil_append, e1, e2, e3, ecol]
        simp [Row.get, Val.sqlEq, readPermitted, hu]
  · have hcb : (caller == uuidNil) = false := by simpa using hc
    simp only [hc, if_false]
    by_cases hu : id.UserId = ""
    · simp only [hu, beq_self_eq_true, if_true]
      refine ⟨_, by cases w <;> rfl, ⟨_, rfl⟩, ?_⟩
      simp only [whereObjectAt, Cond.eval, List.append_assoc, List.cons_append,
        List.nil_append, e1, e2, e3, ecol, elit]
      have hcb2 : (uuidNil == caller) = false := by
        simpa using fun h : uuidNil = caller => hc h.symm
      by_cases hro : row.user_id = uuidNil
      · simp [Row.get, Val.sqlEq, readPermitted, hcb, hcb2, hu, hro]
      · have hrb : (row.user_id == uuidNil) = false := by simpa using hro
        simp [Row.get, Val.sqlEq, readPermitted, hcb, hu, hrb]
    · have hu2 : (id.UserId == "") = false := by simpa using hu
      simp only [hu2, Bool.false_eq_true, if_false]
      refine ⟨_, by cases w <;> rfl, ⟨_, rfl⟩, ?_⟩
      simp only [whereObjectAt, Cond.eval, List.append_assoc, List.cons_append,
        List.nil_append, e1, e2, e3, e4, ecol, elit]
      simp [Row.get, Val.sqlEq, readPermitted, hcb, hu]

end Nakama

namespace Nakama

/-- The clause accumulated over the requested ids evaluates to the
disjunction of the read rule over these ids. -/
theorem readObjects_fold (caller : String) (row : Row) (ids : List ReadStorageObjectId) :
    ∀ (w : Option Cond) (ps : List Val) (seen : List ReadStorageObjectId),
      (∀ w0, w = some w0 → ∀ qs,
        w0.eval (ps ++ qs) row = some (seen.any (fun id => readPermitted caller id row))) →
      (w = none → seen = []) →
      (∀ w0, (ids.foldl (readObjectsStep caller) (w, ps)).1 = some w0 → ∀ qs,
        w0.eval ((ids.foldl (readObjectsStep caller) (w, ps)).2 ++ qs) row =
          some ((seen ++ ids).any (fun id => readPermitted caller id row))) ∧
      ((ids.foldl (readObjectsStep caller) (w, ps)).1 = none → seen ++ ids = []) := by
  induction ids with
  | nil =>
    intro w ps seen hw hnone
    simpa using ⟨hw, hnone⟩
  | cons id rest ih =>
    intro w ps seen hw hnone
    obtain ⟨c, hc1, ⟨new, hc2⟩, hc3⟩ := readObjectsStep_eval caller w ps [] id row
    have hstep : readObjectsStep caller (w, ps) id =
        ((readObjectsStep caller (w, ps) id).1, (readObjectsStep caller (w, ps) id).2) := rfl
    have hceval : ∀ qs, c.eval ((readObjectsStep caller (w, ps) id).2 ++ qs) row =
        some (readPermitted caller id row) := by
      intro qs
      obtain ⟨c2, hc1b, -, hc3b⟩ := readObjectsStep_eval caller w ps qs id row
      have : c2 = c := by
        cases w with
        | none =>
          rw [hc1] at hc1b
          simp only [Option.some.injEq] at hc1b
          exact hc1b.symm
        | some w0 =>
          rw [hc1] at hc1b
          simp only [Option.some.injEq, Cond.or.injEq, true_and] at hc1b
          exact hc1b.symm
      rw [← this]
      exact hc3b
    simp only [List.foldl_cons]
    rw [hstep]
    have hres := ih (readObjectsStep caller (w, ps) id).1 (readObjectsStep caller (w, ps) id).2
      (seen ++ [id]) ?_ ?_
    · simpa [List.append_assoc] using hres
    · intro w1 hw1 qs
      cases w with
      | none =>
        rw [hc1] at hw1
        simp only [Option.some.injEq] at hw1
        subst hw1
        rw [hceval qs, hnone rfl]
        simp
      | some w0 =>
        rw [hc1] at hw1
        simp only [Option.some.injEq] at hw1
        subst hw1
        have h0 := hw w0 rfl (new ++ qs)
        rw [← List.append_assoc, ← hc2] at h0
        simp only [Cond.eval, h0, hceval qs, Option.bind_eq_bind, Option.some_bind,
          Option.pure_def, List.any_append, List.any_cons, List.any_nil, Bool.or_false]
    · intro hn
      cases w with
      | none => rw [hc1] at hn; cases hn
      | some w0 => rw [hc1] at hn; cases hn

/-- C6: for a non-empty list of requested ids, `StorageReadObjects` builds a
`WHERE` clause that is well-formed for the parameters it binds and that
selects a stored row iff some requested id has the row's collection and key
and the row's owner (an empty requested owner standing for the zero UUID) and
the caller is the zero UUID, or the row's read permission is 2, or it is 1 and
the row's owner is the caller. Hence a row with read permission 0 is never
selected for a client, and a row with read permission 1 is never selected for
a client other than its owner. -/
theorem StorageReadObjectsQuery_selects (caller : String)
    (objectIDs : List ReadStorageObjectId) (hne : objectIDs ≠ []) (row : Row) :
    ∃ w, (StorageReadObjectsQuery caller objectIDs).1 = some w ∧
      (∃ b, w.eval (StorageReadObjectsQuery caller objectIDs).2 row = some b) ∧
      (w.selects (StorageReadObjectsQuery caller objectIDs).2 row ↔
        ∃ id ∈ objectIDs, row.collection = id.Collection ∧ row.key = id.Key ∧
          row.user_id = (if id.UserId = "" then uuidNil else id.UserId) ∧
          (caller = uuidNil ∨ row.read = 2 ∨ (row.read = 1 ∧ row.user_id = caller))) ∧
      (caller ≠ uuidNil → row.read = 0 →
        ¬w.selects (StorageReadObjectsQuery caller objectIDs).2 row) ∧
      (caller ≠ uuidNil → row.read = 1 → row.user_id ≠ caller →
        ¬w.selects (StorageReadObjectsQuery caller objectIDs).2 row) := by
  obtain ⟨h1, h2⟩ := readObjects_fold caller row objectIDs none [] []
    (by intro w0 h; cases h) (fun _ => rfl)
  cases hw : (StorageReadObjectsQuery caller objectIDs).1 with
  | none => exact absurd (by simpa using h2 hw) hne
  | some w =>
    have hev := h1 w hw []
    simp only [List.append_nil, List.nil_append] at hev
    have hev2 : w.eval (StorageReadObjectsQuery caller objectIDs).2 row =
        some (objectIDs.any (fun id => readPermitted caller id row)) := hev
    have hiff : w.selects (StorageReadObjectsQuery caller objectIDs).2 row ↔
        ∃ id ∈ objectIDs, row.collection = id.Collection ∧ row.key = id.Key ∧
          row.user_id = (if id.UserId = "" then uuidNil else id.UserId) ∧
          (caller = uuidNil ∨ row.read = 2 ∨ (row.read = 1 ∧ row.user_id = caller)) := by
      unfold Cond.selects
      rw [hev2]
      simp only [Option.some.injEq, List.any_eq_true, readPermitted, Bool.and_eq_true,
        Bool.or_eq_true, beq_iff_eq, and_assoc, or_assoc]
    refine ⟨w, rfl, ⟨_, hev2⟩, hiff, ?_, ?_⟩
    · intro hc hr hsel
      obtain ⟨id, -, -, -, -, h⟩ := hiff.mp hsel
      rcases h with h | h | ⟨h, -⟩
      · exact hc h
      · rw [hr] at h; exact absurd h (by decide)
      · rw [hr] at h; exact absurd h (by decide)
    · intro hc hr ho hsel
      obtain ⟨id, -, -, -, -, h⟩ := hiff.mp hsel
      rcases h with h | h | ⟨-, h⟩
      · exact hc h
      · rw [hr] at h; exact absurd h (by decide)
      · exact ho h

/-- Witness for C6: a request by `userV` for the sword of `userU`, applied to
the sword row readable by its owner only. -/
theorem StorageReadObjectsQuery_selects_witness :
    ∃ w, (StorageReadObjectsQuery userV [⟨"inv", "sword", userU⟩]).1 = some w ∧
      (∃ b, w.eval (StorageReadObjectsQuery userV [⟨"inv", "sword", userU⟩]).2
        (swordRow 1 1) = some b) ∧
      (w.selects (StorageReadObjectsQuery userV [⟨"inv", "sword", userU⟩]).2 (swordRow 1 1) ↔
        ∃ id ∈ [(⟨"inv", "sword", userU⟩ : ReadStorageObjectId)],
          (swordRow 1 1).collection = id.Collection ∧ (swordRow 1 1).key = id.Key ∧
          (swordRow 1 1).user_id = (if id.UserId = "" then uuidNil else id.UserId) ∧
          (userV = uuidNil ∨ (swordRow 1 1).read = 2 ∨
            ((swordRow 1 1).read = 1 ∧ (swordRow 1 1).user_id = userV))) ∧
      (userV ≠ uuidNil → (swordRow 1 1).read = 0 →
        ¬w.selects (StorageReadObjectsQuery userV [⟨"inv", "sword", userU⟩]).2
          (swordRow 1 1)) ∧
      (userV ≠ uuidNil → (swordRow 1 1).read = 1 → (swordRow 1 1).user_id ≠ userV →
        ¬w.selects (StorageReadObjectsQuery userV [⟨"inv", "sword", userU⟩]).2
          (swordRow 1 1)) :=
  StorageReadObjectsQuery_selects userV [⟨"inv", "sword", userU⟩] (by decide) (swordRow 1 1)

end Nakama

namespace Nakama

/-! ## The list query -/

/-- C10: for a list call with an empty cursor and a stored row whose read
permission is 0, 1 or 2, the row satisfies the `WHERE` clause of the query
selected by the dispatch of `StorageListObjects` iff its collection is the
requested one and: the caller is the zero UUID and there is no owner filter or
the row's owner is the filter; or the caller is a client, there is no owner
filter and read is 2; or the caller is a client, the filter is the caller,
the row's owner is the caller and read is 1 or 2; or the caller is a client,
the filter is another user, the row's owner is the filter and read is 2. -/
theorem StorageListObjectsQuery_selects (caller : String) (ownerID : Option String)
    (collection : String) (limit : Int) (row : Row)
    (hread : row.read = 0 ∨ row.read = 1 ∨ row.read = 2) :
    (StorageListObjectsQuery caller ownerID collection limit none).wher.selects
        (StorageListObjectsQuery caller ownerID collection limit none).params row ↔
      row.collection = collection ∧
        ((caller = uuidNil ∧ (ownerID = none ∨ ownerID = some row.user_id)) ∨
          (caller ≠ uuidNil ∧ ownerID = none ∧ row.read = 2) ∨
          (caller ≠ uuidNil ∧ ownerID = some caller ∧ row.user_id = caller ∧
            (row.read = 1 ∨ row.read = 2)) ∨
          (caller ≠ uuidNil ∧ (∃ o, ownerID = some o ∧ o ≠ caller ∧ row.user_id = o) ∧
            row.read = 2)) := by
  have hgt : decide (0 < row.read) = true ↔ (row.read = 1 ∨ row.read = 2) := by
    rcases hread with h | h | h <;> simp [h]
  unfold StorageListObjectsQuery Cond.selects
  by_cases hc : caller = uuidNil
  · simp only [hc, if_true]
    cases ownerID with
    | none =>
      simp [StorageListObjectsAll, withCursor, Cond.eval, Expr.eval, Row.get, Val.sqlEq]
    | some o =>
      simp [StorageListObjectsUser, withCursor, Cond.eval, Expr.eval, Row.get, Val.sqlEq]
      intro _
      exact eq_comm
  · simp only [hc, if_false]
    cases ownerID with
    | none =>
      simp [StorageListObjectsAll, withCursor, Cond.eval, Expr.eval, Row.get, Val.sqlEq, hc]
    | some o =>
      by_cases ho : caller = o
      · subst ho
        simp only [if_true]
        simp [StorageListObjectsUser, withCursor, Cond.eval, Expr.eval, Row.get, Val.sqlEq,
          Val.sqlGt, hc, hgt]
        tauto
      · simp only [ho, if_false]
        have ho2 : ¬o = caller := fun h => ho h.symm
        simp [StorageListObjectsPublicReadUser, withCursor, Cond.eval, Expr.eval, Row.get,
          Val.sqlEq, hc, ho, ho2]
        tauto

end Nakama

namespace Nakama

/-- Witness for C10: `userV` listing the collection `"inv"` of `userU` is
shown the public sword row of `userU`. -/
theorem StorageListObjectsQuery_selects_witness :
    (StorageListObjectsQuery userV (some userU) "inv" 10 none).wher.selects
      (StorageListObjectsQuery userV (some userU) "inv" 10 none).params (swordRow 2 1) :=
  (StorageListObjectsQuery_selects userV (some userU) "inv" 10 (swordRow 2 1)
    (by decide)).mpr
    ⟨rfl, Or.inr (Or.inr (Or.inr ⟨by decide, ⟨userU, rfl, by decide, rfl⟩, rfl⟩))⟩

end Nakama

namespace Nakama

/-! ## The transaction loop -/

section Loop

variable {α σ : Type} (tx : Backend σ) (fn : σ → Except Err α × σ)

/-- A pass in which the closure fails with an error that is not retryable
returns that error. -/
theorem executeIteration_error (s s1 : σ) (e : Err) (hfn : fn s = (.error e, s1))
    (hre : e.retryable = false) : executeIteration tx fn s = .done (.error e) s1 := by
  simp [executeIteration, hfn, retryOrReturn, hre]

/-- A pass in which the closure fails with a retryable error and the rollback
to the savepoint fails returns the restart error. -/
theorem executeIteration_restartFailed (s s1 s2 : σ) (e : Err) (retryErr : DriverError)
    (hfn : fn s = (.error e, s1)) (hre : e.retryable = true)
    (hrb : tx.exec s1 .rollbackToSavepoint [] = (.error retryErr, s2)) :
    executeIteration tx fn s = .done (.error (.txnRestart retryErr e)) s2 := by
  simp [executeIteration, hfn, retryOrReturn, hre, hrb]

/-- A pass in which the closure succeeds and the savepoint is released
returns the closure's result. -/
theorem executeIteration_ok (s s1 s2 : σ) (a : α) (n : Int) (hfn : fn s = (.ok a, s1))
    (hrel : tx.exec s1 .releaseSavepoint [] = (.ok n, s2)) :
    executeIteration tx fn s = .done (.ok a) s2 := by
  simp [executeIteration, hfn, hrel]

/-- A pass in which the closure succeeds and the release of the savepoint
fails with an error that is not retryable returns an ambiguous commit error. -/
theorem executeIteration_releaseFailed (s s1 s2 : σ) (a : α) (relErr : DriverError)
    (hfn : fn s = (.ok a, s1))
    (hrel : tx.exec s1 .releaseSavepoint [] = (.error relErr, s2))
    (hre : relErr.retryable = false) :
    executeIteration tx fn s = .done (.error (.ambiguousCommit (.driver relErr))) s2 := by
  have h : (Err.driver relErr).retryable = false := hre
  simp [executeIteration, hfn, hrel, retryOrReturn, h]

/-- A pass in which the closure succeeds, the release of the savepoint fails
with a retryable error and the rollback to the savepoint fails returns the
restart error. -/
theorem executeIteration_releaseRestartFailed (s s1 s2 s3 : σ) (a : α)
    (relErr retryErr : DriverError) (hfn : fn s = (.ok a, s1))
    (hrel : tx.exec s1 .releaseSavepoint [] = (.error relErr, s2))
    (hre : relErr.retryable = true)
    (hrb : tx.exec s2 .rollbackToSavepoint [] = (.error retryErr, s3)) :
    executeIteration tx fn s = .done (.error (.txnRestart retryErr (.driver relErr))) s3 := by
  have h : (Err.driver relErr).retryable = true := hre
  simp [executeIteration, hfn, hrel, retryOrReturn, h, hrb]

/-- A pass in which the closure fails with a retryable error and the rollback
to the savepoint succeeds starts the loop over. -/
theorem executeIteration_again (s s1 s2 : σ) (e : Err) (n : Int)
    (hfn : fn s = (.error e, s1)) (hre : e.retryable = true)
    (hrb : tx.exec s1 .rollbackToSavepoint [] = (.ok n, s2)) :
    executeIteration tx fn s = (.again s2 : Iteration α σ) := by
  simp [executeIteration, hfn, retryOrReturn, hre, hrb]

/-- A pass in which the closure succeeds, the release of the savepoint fails
with a retryable error and the rollback to the savepoint succeeds starts the
loop over. -/
theorem executeIteration_releaseAgain (s s1 s2 s3 : σ) (a : α) (relErr : DriverError)
    (n : Int) (hfn : fn s = (.ok a, s1))
    (hrel : tx.exec s1 .releaseSavepoint [] = (.error relErr, s2))
    (hre : relErr.retryable = true)
    (hrb : tx.exec s2 .rollbackToSavepoint [] = (.ok n, s3)) :
    executeIteration tx fn s = (.again s3 : Iteration α σ) := by
  have h : (Err.driver relErr).retryable = true := hre
  simp [executeIteration, hfn, hrel, retryOrReturn, h, hrb]

/-- A pass that returns a status error got it from the closure. -/
theorem executeIteration_statusError (s s2 : σ) (code : Code) (msg : String) (cause : Err)
    (h : executeIteration tx fn s = .done (.error (.statusError code msg cause)) s2) :
    fn s = (.error (.statusError code msg cause), s2) := by
  revert h
  unfold executeIteration
  rcases hfn : fn s with ⟨r, s1⟩
  cases r with
  | ok a =>
    simp only
    rcases hrel : tx.exec s1 .releaseSavepoint [] with ⟨rr, s3⟩
    cases rr with
    | ok n => simp
    | error e =>
      simp only [retryOrReturn]
      split
      · simp
      · split <;> simp
  | error e =>
    simp only [retryOrReturn]
    split
    · simp only [Bool.false_eq_true, if_false, Iteration.done.injEq, Except.error.injEq,
        Prod.mk.injEq]
      rintro ⟨h1, h2⟩
      exact ⟨by rw [h1], h2⟩
    · split <;> simp

/-- After `k` restarts the loop is where the `k`-th restart left it. -/
theorem executeLoop_of_attempt (s s0 : σ) (k : Nat) (h : Attempt tx fn s k s0) :
    ∃ a sb b s1, tx.exec s .begin [] = (.ok a, sb) ∧ tx.exec sb .savepoint [] = (.ok b, s1) ∧
      ∀ fuel, executeLoop tx fn (fuel + k) s1 = executeLoop tx fn fuel s0 := by
  induction h with
  | first hb hs => exact ⟨_, _, _, _, hb, hs, fun _ => rfl⟩
  | @restart k0 _ _ _ hit ih =>
    obtain ⟨a, sb, b, s1, hb, hs, hloop⟩ := ih
    refine ⟨a, sb, b, s1, hb, hs, ?_⟩
    intro fuel
    have h1 := hloop (fuel + 1)
    have h2 : fuel + 1 + k0 = fuel + (k0 + 1) := by omega
    rw [h2] at h1
    rw [h1]
    simp [executeLoop, hit]

/-- With enough fuel `crdb.ExecuteInTx` returns what the first pass that does
not restart returns, after the deferred `Commit` or `Rollback`. -/
theorem ExecuteInTx_of_attempt (s s0 s2 : σ) (k : Nat) (res : Except Err α)
    (h : Attempt tx fn s k s0) (hit : executeIteration tx fn s0 = .done res s2)
    (fuel : Nat) (hfuel : k < fuel) :
    ∃ a sb, tx.exec s .begin [] = (.ok a, sb) ∧
      ExecuteInTx tx fn fuel sb = some (res,
        (tx.exec s2 (match res with | .ok _ => Stmt.commit | .error _ => Stmt.rollback) []).2) := by
  obtain ⟨a, sb, b, s1, hb, hs, hloop⟩ := executeLoop_of_attempt tx fn s s0 k h
  obtain ⟨m, rfl⟩ : ∃ m, fuel = (m + 1) + k := ⟨fuel - k - 1, by omega⟩
  have hl : executeLoop tx fn (m + 1 + k) s1 = some (res, s2) := by
    rw [hloop (m + 1)]
    simp [executeLoop, hit]
  refine ⟨a, sb, hb, ?_⟩
  unfold ExecuteInTx
  rw [hs]
  simp only [hl]
  cases res <;> rfl

/-- A run of the loop that returns does so in a pass reached by restarts. -/
theorem attempt_of_executeLoop (s : σ) (fuel : Nat) :
    ∀ (k : Nat) (s0 : σ) (res : Except Err α) (s2 : σ), Attempt tx fn s k s0 →
      executeLoop tx fn fuel s0 = some (res, s2) →
      ∃ k1 s1, Attempt tx fn s k1 s1 ∧ executeIteration tx fn s1 = .done res s2 := by
  induction fuel with
  | zero => intro k s0 res s2 _ h; cases h
  | succ n ih =>
    intro k s0 res s2 hatt h
    unfold executeLoop at h
    cases hit : executeIteration tx fn s0 with
    | done r s3 =>
      rw [hit] at h
      simp only [Option.some.injEq, Prod.mk.injEq] at h
      exact ⟨k, s0, hatt, by rw [hit, h.1, h.2]⟩
    | again s3 =>
      rw [hit] at h
      exact ih (k + 1) s3 res s2 (Attempt.restart hatt hit) h

/-- When `crdb.ExecuteInTx` returns a status error, some pass of the loop ran
the closure and the closure returned that status error. -/
theorem ExecuteInTx_statusError (s sb sf : σ) (a : Int) (fuel : Nat) (code : Code)
    (msg : String) (cause : Err) (hb : tx.exec s .begin [] = (.ok a, sb))
    (h : ExecuteInTx tx fn fuel sb = some (.error (.statusError code msg cause), sf)) :
    ∃ k s0 s2, Attempt tx fn s k s0 ∧ fn s0 = (.error (.statusError code msg cause), s2) := by
  unfold ExecuteInTx at h
  rcases hs : tx.exec sb .savepoint [] with ⟨r, s1⟩
  rw [hs] at h
  cases r with
  | error e => simp at h
  | ok b =>
    simp only at h
    cases hl : executeLoop tx fn fuel s1 with
    | none => rw [hl] at h; cases h
    | some p =>
      obtain ⟨res, s2⟩ := p
      rw [hl] at h
      have hres : res = .error (.statusError code msg cause) := by
        cases res with
        | ok x => simp at h
        | error x =>
          simp only [Option.some.injEq, Prod.mk.injEq, Except.error.injEq] at h
          rw [h.1]
      subst hres
      obtain ⟨k1, s3, hatt, hit⟩ :=
        attempt_of_executeLoop tx fn s fuel 0 s1 _ s2 (Attempt.first hb hs) hl
      exact ⟨k1, s3, s2, hatt, executeIteration_statusError tx fn s3 s2 code msg cause hit⟩

end Loop

end Nakama

namespace Nakama

/-! ## A batch of writes -/

section Batch

variable {σ : Type} (tx : Backend σ) (md5hex : String → String) (auth : Bool)

/-- The body of `storageWriteObjectChecked` as a chain of tests. -/
theorem storageWriteObjectChecked_eq (s : σ) (ownerID : String)
    (object : WriteStorageObject) (dbVersion : NullString)
    (dbPermissionRead dbPermissionWrite : NullInt64) :
    storageWriteObjectChecked tx md5hex s auth ownerID object dbVersion dbPermissionRead
        dbPermissionWrite =
      if (dbVersion.Valid && (object.Version == "*" ||
          (object.Version != "" && object.Version != dbVersion.String))) = true then
        (.error .ErrStorageRejectedVersion, s)
      else if (dbPermissionWrite.Valid && dbPermissionWrite.Int64 == 0 && !auth) = true then
        (.error .ErrStorageRejectedPermission, s)
      else if (dbVersion.Valid && dbVersion.String == md5hex object.Value &&
          dbPermissionRead.Int64 == object.PermissionRead.getD 1 &&
          dbPermissionWrite.Int64 == object.PermissionWrite.getD 1) = true then
        (.ok (writeAck ownerID object (md5hex object.Value)), s)
      else
        storageWriteExec tx s (if dbVersion.Valid = true then updateStmt else insertStmt)
          [.str object.Collection, .str object.Key, .str ownerID, .str object.Value,
            .str (md5hex object.Value), .int (object.PermissionRead.getD 1),
            .int (object.PermissionWrite.getD 1)]
          (writeAck ownerID object (md5hex object.Value)) := by
  unfold storageWriteObjectChecked
  cases object.PermissionRead <;> cases object.PermissionWrite <;> rfl

/-- The errors `storageWriteObjectChecked` can return. -/
theorem storageWriteObjectChecked_error (s : σ) (ownerID : String)
    (object : WriteStorageObject) (dbVersion : NullString)
    (dbPermissionRead dbPermissionWrite : NullInt64) (e : Err)
    (h : (storageWriteObjectChecked tx md5hex s auth ownerID object dbVersion dbPermissionRead
      dbPermissionWrite).1 = .error e) :
    e = .ErrStorageRejectedVersion ∨ e = .ErrStorageRejectedPermission ∨
      e = .ErrStorageWriteFailed ∨ ∃ d, e = .driver d := by
  rw [storageWriteObjectChecked_eq] at h
  by_cases h1 : (dbVersion.Valid && (object.Version == "*" ||
      (object.Version != "" && object.Version != dbVersion.String))) = true
  · rw [if_pos h1] at h
    simp only [Except.error.injEq] at h
    exact Or.inl h.symm
  · rw [if_neg h1] at h
    by_cases h2 : (dbPermissionWrite.Valid && dbPermissionWrite.Int64 == 0 && !auth) = true
    · rw [if_pos h2] at h
      simp only [Except.error.injEq] at h
      exact Or.inr (Or.inl h.symm)
    · rw [if_neg h2] at h
      by_cases h3 : (dbVersion.Valid && dbVersion.String == md5hex object.Value &&
          dbPermissionRead.Int64 == object.PermissionRead.getD 1 &&
          dbPermissionWrite.Int64 == object.PermissionWrite.getD 1) = true
      · rw [if_pos h3] at h
        cases h
      · rw [if_neg h3] at h
        exact Or.inr (Or.inr (storageWriteExec_error tx s _ _ _ _ h))

/-- The errors `storageWriteObject` can return: the three sentinels and the
driver's errors. -/
theorem storageWriteObject_error (s : σ) (ownerID : String) (object : WriteStorageObject)
    (e : Err) (h : (storageWriteObject tx md5hex s auth ownerID object).1 = .error e) :
    e = .ErrStorageRejectedVersion ∨ e = .ErrStorageRejectedPermission ∨
      e = .ErrStorageWriteFailed ∨ ∃ d, e = .driver d := by
  revert h
  unfold storageWriteObject
  split
  · intro h
    simp only [Except.error.injEq] at h
    exact Or.inr (Or.inr (Or.inr ⟨_, h.symm⟩))
  · split
    · intro h
      simp only [Except.error.injEq] at h
      exact Or.inl h.symm
    · exact storageWriteObjectChecked_error tx md5hex auth s ownerID object _ _ _ e
  · exact storageWriteObjectChecked_error tx md5hex auth s ownerID object _ _ _ e

/-- The acknowledgment of a successful write. -/
theorem storageWriteObject_ok (s : σ) (ownerID : String) (object : WriteStorageObject)
    (ack : StorageObjectAck)
    (h : (storageWriteObject tx md5hex s auth ownerID object).1 = .ok ack) :
    ack = writeAck ownerID object (md5hex object.Value) := by
  have hexec : ∀ (q : Stmt) (ps : List Val),
      (storageWriteExec tx s q ps (writeAck ownerID object (md5hex object.Value))).1 = .ok ack →
      ack = writeAck ownerID object (md5hex object.Value) := by
    intro q ps
    unfold storageWriteExec
    split
    · intro h; cases h
    · split
      · intro h; cases h
      · intro h
        simp only [Except.ok.injEq] at h
        exact h.symm
  have hchecked : ∀ (dbVersion : NullString) (dbPermissionRead dbPermissionWrite : NullInt64),
      (storageWriteObjectChecked tx md5hex s auth ownerID object dbVersion dbPermissionRead
        dbPermissionWrite).1 = .ok ack → ack = writeAck ownerID object (md5hex object.Value) := by
    intro dbVersion dbPermissionRead dbPermissionWrite h
    rw [storageWriteObjectChecked_eq] at h
    by_cases h1 : (dbVersion.Valid && (object.Version == "*" ||
        (object.Version != "" && object.Version != dbVersion.String))) = true
    · rw [if_pos h1] at h
      cases h
    · rw [if_neg h1] at h
      by_cases h2 : (dbPermissionWrite.Valid && dbPermissionWrite.Int64 == 0 && !auth) = true
      · rw [if_pos h2] at h
        cases h
      · rw [if_neg h2] at h
        by_cases h3 : (dbVersion.Valid && dbVersion.String == md5hex object.Value &&
            dbPermissionRead.Int64 == object.PermissionRead.getD 1 &&
            dbPermissionWrite.Int64 == object.PermissionWrite.getD 1) = true
        · rw [if_pos h3] at h
          simp only [Except.ok.injEq] at h
          exact h.symm
        · rw [if_neg h3] at h
          exact hexec _ _ h
  revert h
  unfold storageWriteObject
  split
  · intro h; cases h
  · split
    · intro h; cases h
    · exact hchecked _ _ _
  · exact hchecked _ _ _

/-- What the closure returns for an error of an op. -/
theorem writeOps_firstFailure (ops : List StorageOpWrite) (s s1 : σ) (e : Err)
    (h : FirstFailure tx md5hex auth ops s e s1) (acks : List StorageObjectAck) :
    writeOps tx md5hex auth ops s acks =
      (.error (if e = .ErrStorageRejectedVersion ∨ e = .ErrStorageRejectedPermission then
        StatusError .InvalidArgument "Storage write rejected." e else e), s1) := by
  induction h generalizing acks with
  | here hop => simp only [writeOps, hop]; split <;> rfl
  | later hop _ ih => simp only [writeOps, hop]; exact ih _

/-- What the closure returns when every op succeeds. -/
theorem writeOps_allSucceed (ops : List StorageOpWrite) (s s1 : σ)
    (got : List StorageObjectAck) (h : AllSucceed tx md5hex auth ops s got s1)
    (acks : List StorageObjectAck) :
    writeOps tx md5hex auth ops s acks = (.ok (acks ++ got), s1) := by
  induction h generalizing acks with
  | nil => simp [writeOps]
  | cons hop _ ih => simp only [writeOps, hop]; rw [ih]; simp

/-- An error of the closure comes from the first failing op. -/
theorem firstFailure_of_writeOps (ops : List StorageOpWrite) :
    ∀ (s s1 : σ) (acks : List StorageObjectAck) (x : Err),
      writeOps tx md5hex auth ops s acks = (.error x, s1) →
      ∃ e, FirstFailure tx md5hex auth ops s e s1 ∧
        x = (if e = .ErrStorageRejectedVersion ∨ e = .ErrStorageRejectedPermission then
          StatusError .InvalidArgument "Storage write rejected." e else e) := by
  induction ops with
  | nil => intro s s1 acks x h; simp [writeOps] at h
  | cons op rest ih =>
    intro s s1 acks x h
    unfold writeOps at h
    rcases hop : storageWriteObject tx md5hex s auth op.OwnerID op.Object with ⟨r, s2⟩
    rw [hop] at h
    cases r with
    | error e =>
      simp only at h
      refine ⟨e, ?_, ?_⟩
      · have hs : s2 = s1 := by
          split at h <;> simp only [Prod.mk.injEq] at h <;> exact h.2
        rw [← hs]
        exact FirstFailure.here hop
      · split at h <;> simp only [Prod.mk.injEq, Except.error.injEq] at h
        · rename_i hc; rw [if_pos hc]; exact h.1.symm
        · rename_i hc; rw [if_neg hc]; exact h.1.symm
    | ok ack =>
      simp only at h
      obtain ⟨e, hff, hx⟩ := ih s2 s1 _ x h
      exact ⟨e, FirstFailure.later hop hff, hx⟩

/-- The acknowledgments of a batch in which every op succeeds are those of
the ops, in the order of the ops. -/
theorem allSucceed_acks (ops : List StorageOpWrite) (s s1 : σ) (acks : List StorageObjectAck)
    (h : AllSucceed tx md5hex auth ops s acks s1) :
    acks = ops.map (fun op => writeAck op.OwnerID op.Object (md5hex op.Object.Value)) := by
  induction h with
  | nil => rfl
  | cons hop _ ih =>
    have := storageWriteObject_ok tx md5hex auth _ _ _ _ (by rw [hop])
    simp only [List.map_cons, ← ih, this]

/-- The first failing op of a batch fails with a sentinel or a driver error. -/
theorem firstFailure_error (ops : List StorageOpWrite) (s s1 : σ) (e : Err)
    (h : FirstFailure tx md5hex auth ops s e s1) :
    e = .ErrStorageRejectedVersion ∨ e = .ErrStorageRejectedPermission ∨
      e = .ErrStorageWriteFailed ∨ ∃ d, e = .driver d := by
  induction h with
  | here hop => exact storageWriteObject_error tx md5hex auth _ _ _ _ (by rw [hop])
  | later _ _ ih => exact ih

end Batch

end Nakama

namespace Nakama

/-- A wrapped version or permission rejection is not retried. -/
theorem rejection_not_retryable (e : Err)
    (he : e = .ErrStorageRejectedVersion ∨ e = .ErrStorageRejectedPermission) :
    (StatusError .InvalidArgument "Storage write rejected." e).retryable = false := by
  rcases he with rfl | rfl <;> rfl

/-- Counterexample for C7. On a database whose `RELEASE SAVEPOINT` fails, the
one op of the batch succeeds and `StorageWriteObjects` returns `Internal`
without acknowledgments. On a database that refuses the first `INSERT` with a
serialization failure, the op fails in the first pass with that error, the
batch is applied again, and `StorageWriteObjects` returns `OK` with the
acknowledgment. -/
theorem StorageWriteObjects_codes_not_per_op :
    ((storageWriteObject releaseFailingBackend md5Sample (inTransaction [swordRow 1 1]) false
        userU (swordWrite "y" "")).1 =
      .ok (writeAck userU (swordWrite "y" "") (md5Sample "y")) ∧
    StorageWriteObjects insertionSortAlgorithm releaseFailingBackend md5Sample 1
        (swordDatabase 1 1) false [⟨userU, swordWrite "y" ""⟩] =
      some (⟨none, .Internal,
          some (.ambiguousCommit (.driver ⟨false, "driver: bad connection"⟩))⟩,
        inTransaction [swordRow 1 1])) ∧
    ((storageWriteObject contendedBackend md5Sample (1, inTransaction []) false userU
        (swordWrite "x" "")).1 = .error (.driver ⟨true, "restart transaction"⟩) ∧
    (StorageWriteObjects insertionSortAlgorithm contendedBackend md5Sample 2
        (1, emptyDatabase) false [⟨userU, swordWrite "x" ""⟩]).map Prod.fst =
      some ⟨some [writeAck userU (swordWrite "x" "") (md5Sample "x")], .OK, none⟩) := by
  decide

/-- C7, as the code has it: the code `StorageWriteObjects` returns, in terms
of what the ops of the sorted batch and the savepoint do in the pass of the
transaction loop that returns. In a transaction that began (`BEGIN` and
`SAVEPOINT` succeeded) and reached a pass starting in state `s0` after `k`
restarts, with more than `k` units of fuel:
(1) if the first failing op fails with `ErrStorageRejectedVersion` or
`ErrStorageRejectedPermission`, the result is `InvalidArgument` with that
error and no acknowledgments, and the transaction is rolled back; (2) conversely a result with code
`InvalidArgument` has no acknowledgments and arises only in this way; (3) if
the first failing op fails with another error, the result is `Internal` with
no acknowledgments, carrying that error when it is not retryable and the
restart error when it is retryable and the rollback to the savepoint fails;
(4) if no op fails and the savepoint is released, the result is `OK` with the
acknowledgments of the ops of the sorted batch, one per op of the batch, in
the order in which the ops were applied; (5) if no op fails and the release
of the savepoint fails, the result is `Internal` with no acknowledgments,
carrying the ambiguous commit error when the failure is not retryable and the
restart error when it is retryable and the rollback to the savepoint fails;
(6) a retryable failure, of an op or of the release, after which the rollback
to the savepoint succeeds is not returned: the loop starts the next pass, in
which the sorted batch is applied again. -/
theorem StorageWriteObjects_codes {σ : Type} (sorter : SortAlgorithm) (tx : Backend σ)
    (md5hex : String → String) (s : σ) (auth : Bool) (ops : StorageOpWrites) :
    (∀ k s0 e s1,
      Attempt tx (writeClosure tx md5hex auth (sorter.sort StorageOpWrite.less ops)) s k s0 →
      FirstFailure tx md5hex auth (sorter.sort StorageOpWrite.less ops) s0 e s1 →
      e = .ErrStorageRejectedVersion ∨ e = .ErrStorageRejectedPermission →
      ∀ fuel, k < fuel →
      StorageWriteObjects sorter tx md5hex fuel s auth ops =
        some (⟨none, .InvalidArgument, some e⟩, (tx.exec s1 .rollback []).2)) ∧
    (∀ fuel r sf, StorageWriteObjects sorter tx md5hex fuel s auth ops = some (r, sf) →
      r.code = .InvalidArgument →
      r.acks = none ∧
      ∃ k s0 e s1,
        Attempt tx (writeClosure tx md5hex auth (sorter.sort StorageOpWrite.less ops)) s k s0 ∧
        FirstFailure tx md5hex auth (sorter.sort StorageOpWrite.less ops) s0 e s1 ∧
        (e = .ErrStorageRejectedVersion ∨ e = .ErrStorageRejectedPermission) ∧
        r.err = some e) ∧
    (∀ k s0 e s1,
      Attempt tx (writeClosure tx md5hex auth (sorter.sort StorageOpWrite.less ops)) s k s0 →
      FirstFailure tx md5hex auth (sorter.sort StorageOpWrite.less ops) s0 e s1 →
      e ≠ .ErrStorageRejectedVersion → e ≠ .ErrStorageRejectedPermission →
      (e.retryable = false → ∀ fuel, k < fuel →
        StorageWriteObjects sorter tx md5hex fuel s auth ops =
          some (⟨none, .Internal, some e⟩, (tx.exec s1 .rollback []).2)) ∧
      (e.retryable = true → ∀ retryErr s2,
        tx.exec s1 .rollbackToSavepoint [] = (.error retryErr, s2) → ∀ fuel, k < fuel →
        StorageWriteObjects sorter tx md5hex fuel s auth ops =
          some (⟨none, .Internal, some (.txnRestart retryErr e)⟩,
            (tx.exec s2 .rollback []).2))) ∧
    (∀ k s0 acks s1 n s2,
      Attempt tx (writeClosure tx md5hex auth (sorter.sort StorageOpWrite.less ops)) s k s0 →
      AllSucceed tx md5hex auth (sorter.sort StorageOpWrite.less ops) s0 acks s1 →
      tx.exec s1 .releaseSavepoint [] = (.ok n, s2) →
      ∀ fuel, k < fuel →
      StorageWriteObjects sorter tx md5hex fuel s auth ops =
        some (⟨some acks, .OK, none⟩, (tx.exec s2 .commit []).2) ∧
      acks.length = ops.length ∧
      acks = (sorter.sort StorageOpWrite.less ops).map
        (fun op => writeAck op.OwnerID op.Object (md5hex op.Object.Value))) ∧
    (∀ k s0 acks s1 relErr s2,
      Attempt tx (writeClosure tx md5hex auth (sorter.sort StorageOpWrite.less ops)) s k s0 →
      AllSucceed tx md5hex auth (sorter.sort StorageOpWrite.less ops) s0 acks s1 →
      tx.exec s1 .releaseSavepoint [] = (.error relErr, s2) →
      (relErr.retryable = false → ∀ fuel, k < fuel →
        StorageWriteObjects sorter tx md5hex fuel s auth ops =
          some (⟨none, .Internal, some (.ambiguousCommit (.driver relErr))⟩,
            (tx.exec s2 .rollback []).2)) ∧
      (relErr.retryable = true → ∀ retryErr s3,
        tx.exec s2 .rollbackToSavepoint [] = (.error retryErr, s3) → ∀ fuel, k < fuel →
        StorageWriteObjects sorter tx md5hex fuel s auth ops =
          some (⟨none, .Internal, some (.txnRestart retryErr (.driver relErr))⟩,
            (tx.exec s3 .rollback []).2))) ∧
    (∀ k s0,
      Attempt tx (writeClosure tx md5hex auth (sorter.sort StorageOpWrite.less ops)) s k s0 →
      (∀ e s1 n s2,
        FirstFailure tx md5hex auth (sorter.sort StorageOpWrite.less ops) s0 e s1 →
        e.retryable = true → tx.exec s1 .rollbackToSavepoint [] = (.ok n, s2) →
        Attempt tx (writeClosure tx md5hex auth (sorter.sort StorageOpWrite.less ops)) s
          (k + 1) s2) ∧
      (∀ acks s1 relErr s2 n s3,
        AllSucceed tx md5hex auth (sorter.sort StorageOpWrite.less ops) s0 acks s1 →
        tx.exec s1 .releaseSavepoint [] = (.error relErr, s2) → relErr.retryable = true →
        tx.exec s2 .rollbackToSavepoint [] = (.ok n, s3) →
        Attempt tx (writeClosure tx md5hex auth (sorter.sort StorageOpWrite.less ops)) s
          (k + 1) s3)) := by
  refine ⟨?_, ?_, ?_, ?_, ?_, ?_⟩
  · intro k s0 e s1 hatt hff he fuel hfuel
    have hfn : writeClosure tx md5hex auth (sorter.sort StorageOpWrite.less ops) s0 =
        (.error (StatusError .InvalidArgument "Storage write rejected." e), s1) := by
      unfold writeClosure
      rw [writeOps_firstFailure tx md5hex auth _ _ _ _ hff, if_pos he]
    have hit := executeIteration_error tx _ s0 s1 _ hfn (rejection_not_retryable e he)
    obtain ⟨a, sb, hb, hex⟩ := ExecuteInTx_of_attempt tx _ s s0 s1 k _ hatt hit fuel hfuel
    simp only [StorageWriteObjects, hb, hex, StatusError]
  · intro fuel r sf h hcode
    unfold StorageWriteObjects at h
    rcases hb : tx.exec s .begin [] with ⟨rb, sb⟩
    rw [hb] at h
    cases rb with
    | error eb =>
      simp only [Option.some.injEq, Prod.mk.injEq] at h
      rw [← h.1] at hcode
      cases hcode
    | ok a =>
      simp only at h
      cases hex : ExecuteInTx tx
          (writeClosure tx md5hex auth (sorter.sort StorageOpWrite.less ops)) fuel sb with
      | none => rw [hex] at h; cases h
      | some p =>
        obtain ⟨res, s2⟩ := p
        rw [hex] at h
        cases res with
        | ok acks =>
          simp only [Option.some.injEq, Prod.mk.injEq] at h
          rw [← h.1] at hcode
          cases hcode
        | error x =>
          cases x with
          | statusError code msg cause =>
            simp only [Option.some.injEq, Prod.mk.injEq] at h
            obtain ⟨k, s0, s3, hatt, hfn⟩ :=
              ExecuteInTx_statusError tx _ s sb s2 a fuel code msg cause hb hex
            obtain ⟨e, hff, hx⟩ := firstFailure_of_writeOps tx md5hex auth _ s0 s3 [] _ hfn
            by_cases he : e = .ErrStorageRejectedVersion ∨ e = .ErrStorageRejectedPermission
            · rw [if_pos he] at hx
              simp only [StatusError, Err.statusError.injEq] at hx
              refine ⟨by rw [← h.1], k, s0, e, s3, hatt, hff, he, ?_⟩
              rw [← h.1, hx.2.2]
            · rw [if_neg he] at hx
              rcases firstFailure_error tx md5hex auth _ _ _ _ hff with h1 | h1 | h1 | ⟨d, h1⟩
              · exact absurd (Or.inl h1) he
              · exact absurd (Or.inr h1) he
              · rw [h1] at hx; cases hx
              · rw [h1] at hx; cases hx
          | ErrStorageRejectedVersion =>
            simp only [Option.some.injEq, Prod.mk.injEq] at h
            rw [← h.1] at hcode; cases hcode
          | ErrStorageRejectedPermission =>
            simp only [Option.some.injEq, Prod.mk.injEq] at h
            rw [← h.1] at hcode; cases hcode
          | ErrStorageWriteFailed =>
            simp only [Option.some.injEq, Prod.mk.injEq] at h
            rw [← h.1] at hcode; cases hcode
          | errorsNew m =>
            simp only [Option.some.injEq, Prod.mk.injEq] at h
            rw [← h.1] at hcode; cases hcode
          | driver d =>
            simp only [Option.some.injEq, Prod.mk.injEq] at h
            rw [← h.1] at hcode; cases hcode
          | ambiguousCommit c =>
            simp only [Option.some.injEq, Prod.mk.injEq] at h
            rw [← h.1] at hcode; cases hcode
          | txnRestart re c =>
            simp only [Option.some.injEq, Prod.mk.injEq] at h
            rw [← h.1] at hcode; cases hcode
  · intro k s0 e s1 hatt hff hv hp
    have hne : ¬(e = .ErrStorageRejectedVersion ∨ e = .ErrStorageRejectedPermission) := by
      rintro (h | h)
      · exact hv h
      · exact hp h
    have hfn : writeClosure tx md5hex auth (sorter.sort StorageOpWrite.less ops) s0 =
        (.error e, s1) := by
      unfold writeClosure
      rw [writeOps_firstFailure tx md5hex auth _ _ _ _ hff, if_neg hne]
    refine ⟨?_, ?_⟩
    · intro hre fuel hfuel
      have hit := executeIteration_error tx _ s0 s1 _ hfn hre
      obtain ⟨a, sb, hb, hex⟩ := ExecuteInTx_of_attempt tx _ s s0 s1 k _ hatt hit fuel hfuel
      rcases firstFailure_error tx md5hex auth _ _ _ _ hff with h1 | h1 | h1 | ⟨d, h1⟩
      · exact absurd h1 hv
      · exact absurd h1 hp
      · subst h1; simp only [StorageWriteObjects, hb, hex]
      · subst h1; simp only [StorageWriteObjects, hb, hex]
    · intro hre retryErr s2 hrb fuel hfuel
      have hit := executeIteration_restartFailed tx _ s0 s1 s2 _ retryErr hfn hre hrb
      obtain ⟨a, sb, hb, hex⟩ := ExecuteInTx_of_attempt tx _ s s0 s2 k _ hatt hit fuel hfuel
      simp only [StorageWriteObjects, hb, hex]
  · intro k s0 acks s1 n s2 hatt hall hrel fuel hfuel
    have hfn : writeClosure tx md5hex auth (sorter.sort StorageOpWrite.less ops) s0 =
        (.ok acks, s1) := by
      unfold writeClosure
      rw [writeOps_allSucceed tx md5hex auth _ _ _ _ hall, List.nil_append]
    have hit := executeIteration_ok tx _ s0 s1 s2 _ n hfn hrel
    obtain ⟨a, sb, hb, hex⟩ := ExecuteInTx_of_attempt tx _ s s0 s2 k _ hatt hit fuel hfuel
    have hacks := allSucceed_acks tx md5hex auth _ _ _ _ hall
    refine ⟨by simp only [StorageWriteObjects, hb, hex], ?_, hacks⟩
    rw [hacks, List.length_map]
    exact (sorter.perm StorageOpWrite.less ops).length_eq
  · intro k s0 acks s1 relErr s2 hatt hall hrel
    have hfn : writeClosure tx md5hex auth (sorter.sort StorageOpWrite.less ops) s0 =
        (.ok acks, s1) := by
      unfold writeClosure
      rw [writeOps_allSucceed tx md5hex auth _ _ _ _ hall, List.nil_append]
    refine ⟨?_, ?_⟩
    · intro hre fuel hfuel
      have hit := executeIteration_releaseFailed tx _ s0 s1 s2 _ relErr hfn hrel hre
      obtain ⟨a, sb, hb, hex⟩ := ExecuteInTx_of_attempt tx _ s s0 s2 k _ hatt hit fuel hfuel
      simp only [StorageWriteObjects, hb, hex]
    · intro hre retryErr s3 hrb fuel hfuel
      have hit := executeIteration_releaseRestartFailed tx _ s0 s1 s2 s3 _ relErr retryErr hfn
        hrel hre hrb
      obtain ⟨a, sb, hb, hex⟩ := ExecuteInTx_of_attempt tx _ s s0 s3 k _ hatt hit fuel hfuel
      simp only [StorageWriteObjects, hb, hex]
  · intro k s0 hatt
    refine ⟨?_, ?_⟩
    · intro e s1 n s2 hff hre hrb
      have hne : ¬(e = .ErrStorageRejectedVersion ∨ e = .ErrStorageRejectedPermission) := by
        rintro (h | h) <;> · rw [h] at hre; cases hre
      have hfn : writeClosure tx md5hex auth (sorter.sort StorageOpWrite.less ops) s0 =
          (.error e, s1) := by
        unfold writeClosure
        rw [writeOps_firstFailure tx md5hex auth _ _ _ _ hff, if_neg hne]
      exact Attempt.restart hatt (executeIteration_again tx _ s0 s1 s2 e n hfn hre hrb)
    · intro acks s1 relErr s2 n s3 hall hrel hre hrb
      have hfn : writeClosure tx md5hex auth (sorter.sort StorageOpWrite.less ops) s0 =
          (.ok acks, s1) := by
        unfold writeClosure
        rw [writeOps_allSucceed tx md5hex auth _ _ _ _ hall, List.nil_append]
      exact Attempt.restart hatt
        (executeIteration_releaseAgain tx _ s0 s1 s2 s3 _ relErr n hfn hrel hre hrb)

end Nakama

namespace Nakama

/-- Witness for C7, on three batches of one op over the existing sword row: a
write with version `"*"` is rejected on version and the batch returns
`InvalidArgument` without acknowledgments; an unconditional write succeeds and
the batch returns `OK` with its acknowledgment; the same write on a database
whose `RELEASE SAVEPOINT` fails returns `Internal` without acknowledgments. -/
theorem StorageWriteObjects_codes_witness :
    StorageWriteObjects insertionSortAlgorithm sqlBackend md5Sample 1 (swordDatabase 1 1) false
        [⟨userU, swordWrite "x" "*"⟩] =
      some (⟨none, .InvalidArgument, some .ErrStorageRejectedVersion⟩,
        inTransaction [swordRow 1 1]) ∧
    StorageWriteObjects insertionSortAlgorithm sqlBackend md5Sample 1 (swordDatabase 1 1) false
        [⟨userU, swordWrite "y" ""⟩] =
      some (⟨some [writeAck userU (swordWrite "y" "") (md5Sample "y")], .OK, none⟩,
        ⟨[Row.overwritten (swordRow 1 1) "y" (md5Sample "y") 1 1 1000], 1000, [swordRow 1 1],
          [swordRow 1 1]⟩) ∧
    StorageWriteObjects insertionSortAlgorithm releaseFailingBackend md5Sample 1
        (swordDatabase 1 1) false [⟨userU, swordWrite "y" ""⟩] =
      some (⟨none, .Internal,
          some (.ambiguousCommit (.driver ⟨false, "driver: bad connection"⟩))⟩,
        inTransaction [swordRow 1 1]) :=
  ⟨(StorageWriteObjects_codes insertionSortAlgorithm sqlBackend md5Sample (swordDatabase 1 1)
      false [⟨userU, swordWrite "x" "*"⟩]).1 0 (inTransaction [swordRow 1 1])
      .ErrStorageRejectedVersion (inTransaction [swordRow 1 1])
      (Attempt.first
        (rfl : sqlBackend.exec (swordDatabase 1 1) .begin [] =
          (.ok 0, ⟨[swordRow 1 1], 1000, [swordRow 1 1], []⟩))
        (rfl : sqlBackend.exec ⟨[swordRow 1 1], 1000, [swordRow 1 1], []⟩ .savepoint [] =
          (.ok 0, inTransaction [swordRow 1 1])))
      (FirstFailure.here rfl) (Or.inl rfl) 1 (by decide),
    ((StorageWriteObjects_codes insertionSortAlgorithm sqlBackend md5Sample (swordDatabase 1 1)
      false [⟨userU, swordWrite "y" ""⟩]).2.2.2.1 0 (inTransaction [swordRow 1 1])
      [writeAck userU (swordWrite "y" "") (md5Sample "y")]
      ⟨[Row.overwritten (swordRow 1 1) "y" (md5Sample "y") 1 1 1000], 1000, [swordRow 1 1],
        [swordRow 1 1]⟩
      0
      ⟨[Row.overwritten (swordRow 1 1) "y" (md5Sample "y") 1 1 1000], 1000, [swordRow 1 1],
        [swordRow 1 1]⟩
      (Attempt.first
        (rfl : sqlBackend.exec (swordDatabase 1 1) .begin [] =
          (.ok 0, ⟨[swordRow 1 1], 1000, [swordRow 1 1], []⟩))
        (rfl : sqlBackend.exec ⟨[swordRow 1 1], 1000, [swordRow 1 1], []⟩ .savepoint [] =
          (.ok 0, inTransaction [swordRow 1 1])))
      (AllSucceed.cons rfl AllSucceed.nil) rfl 1 (by decide)).1,
    ((StorageWriteObjects_codes insertionSortAlgorithm releaseFailingBackend md5Sample
      (swordDatabase 1 1) false [⟨userU, swordWrite "y" ""⟩]).2.2.2.2.1 0
      (inTransaction [swordRow 1 1])
      [writeAck userU (swordWrite "y" "") (md5Sample "y")]
      ⟨[Row.overwritten (swordRow 1 1) "y" (md5Sample "y") 1 1 1000], 1000, [swordRow 1 1],
        [swordRow 1 1]⟩
      ⟨false, "driver: bad connection"⟩
      ⟨[Row.overwritten (swordRow 1 1) "y" (md5Sample "y") 1 1 1000], 1000, [swordRow 1 1],
        [swordRow 1 1]⟩
      (Attempt.first
        (rfl : releaseFailingBackend.exec (swordDatabase 1 1) .begin [] =
          (.ok 0, ⟨[swordRow 1 1], 1000, [swordRow 1 1], []⟩))
        (rfl : releaseFailingBackend.exec ⟨[swordRow 1 1], 1000, [swordRow 1 1], []⟩
          .savepoint [] = (.ok 0, inTransaction [swordRow 1 1])))
      (AllSucceed.cons rfl AllSucceed.nil) rfl).1 rfl 1 (by decide)⟩

/-- Counterexample for C8: on a database whose `UPDATE` affects no row, the
write fails with `ErrStorageWriteFailed` and `StorageWriteObjects` returns it
with code `Internal`, not `InvalidArgument`. -/
theorem StorageWriteObjects_writeFailed_not_invalidArgument :
    (vanishingBackend.exec (inTransaction [swordRow 1 1]) updateStmt
        [.str "inv", .str "sword", .str userU, .str "y", .str (md5Sample "y"), .int 1,
          .int 1]).1 = .ok 0 ∧
    (storageWriteObject vanishingBackend md5Sample (inTransaction [swordRow 1 1]) false userU
        (swordWrite "y" "")).1 = .error .ErrStorageWriteFailed ∧
    StorageWriteObjects insertionSortAlgorithm vanishingBackend md5Sample 1 (swordDatabase 1 1)
        false [⟨userU, swordWrite "y" ""⟩] =
      some (⟨none, .Internal, some .ErrStorageWriteFailed⟩, inTransaction [swordRow 1 1]) := by
  decide

/-- C8, as the code has it: the final step of `storageWriteObject` fails with
`ErrStorageWriteFailed` exactly when the `INSERT` or `UPDATE` is executed
without error and affects a number of rows different from 1; and when the
first failing op of the sorted batch fails with `ErrStorageWriteFailed`,
`StorageWriteObjects` returns it with code `Internal` and no acknowledgments,
after rolling the transaction back. -/
theorem StorageWriteObjects_writeFailed {σ : Type} (sorter : SortAlgorithm) (tx : Backend σ)
    (md5hex : String → String) (s : σ) (auth : Bool) (ops : StorageOpWrites) :
    (∀ (s0 s1 : σ) (query : Stmt) (params : List Val) (ack : StorageObjectAck),
      storageWriteExec tx s0 query params ack = (.error .ErrStorageWriteFailed, s1) ↔
        ∃ n, tx.exec s0 query params = (.ok n, s1) ∧ n ≠ 1) ∧
    (∀ k s0 s1,
      Attempt tx (writeClosure tx md5hex auth (sorter.sort StorageOpWrite.less ops)) s k s0 →
      FirstFailure tx md5hex auth (sorter.sort StorageOpWrite.less ops) s0
        .ErrStorageWriteFailed s1 →
      ∀ fuel, k < fuel →
      StorageWriteObjects sorter tx md5hex fuel s auth ops =
        some (⟨none, .Internal, some .ErrStorageWriteFailed⟩, (tx.exec s1 .rollback []).2)) := by
  refine ⟨?_, ?_⟩
  · intro s0 s1 query params ack
    unfold storageWriteExec
    rcases hx : tx.exec s0 query params with ⟨r, s2⟩
    cases r with
    | error e => simp
    | ok n =>
      by_cases hn : n = 1
      · simp [hn]
      · simp only [bne_iff_ne, ne_eq, hn, not_false_eq_true, if_true, Prod.mk.injEq, true_and,
          Except.ok.injEq]
        constructor
        · intro h
          exact ⟨n, ⟨rfl, h⟩, hn⟩
        · rintro ⟨_, ⟨-, h⟩, -⟩
          exact h
  · intro k s0 s1 hatt hff fuel hfuel
    have hfn : writeClosure tx md5hex auth (sorter.sort StorageOpWrite.less ops) s0 =
        (.error .ErrStorageWriteFailed, s1) := by
      unfold writeClosure
      rw [writeOps_firstFailure tx md5hex auth _ _ _ _ hff, if_neg (by decide)]
    have hit := executeIteration_error tx _ s0 s1 _ hfn rfl
    obtain ⟨a, sb, hb, hex⟩ := ExecuteInTx_of_attempt tx _ s s0 s1 k _ hatt hit fuel hfuel
    simp only [StorageWriteObjects, hb, hex]

/-- Witness for C8: the batch of the counterexample, through the general
statement. -/
theorem StorageWriteObjects_writeFailed_witness :
    StorageWriteObjects insertionSortAlgorithm vanishingBackend md5Sample 1 (swordDatabase 1 1)
        false [⟨userU, swordWrite "y" ""⟩] =
      some (⟨none, .Internal, some .ErrStorageWriteFailed⟩, inTransaction [swordRow 1 1]) :=
  (StorageWriteObjects_writeFailed insertionSortAlgorithm vanishingBackend md5Sample
    (swordDatabase 1 1) false [⟨userU, swordWrite "y" ""⟩]).2 0 (inTransaction [swordRow 1 1])
    (inTransaction [swordRow 1 1])
    (Attempt.first
      (rfl : vanishingBackend.exec (swordDatabase 1 1) .begin [] =
        (.ok 0, ⟨[swordRow 1 1], 1000, [swordRow 1 1], []⟩))
      (rfl : vanishingBackend.exec ⟨[swordRow 1 1], 1000, [swordRow 1 1], []⟩ .savepoint [] =
        (.ok 0, inTransaction [swordRow 1 1])))
    (FirstFailure.here rfl) 1 (by decide)

end Nakama

namespace Nakama

/-! ## A batch of deletes -/

/-- Value of the `WHERE` clause of the `DELETE` built for an op. -/
theorem deleteQuery_eval (auth : Bool) (op : StorageOpDelete) (row : Row) :
    ∃ w, (deleteQuery auth op).1 = .delete w ∧
      w.eval (deleteQuery auth op).2 row = some (deleteMatches auth op row) := by
  unfold deleteQuery
  by_cases hv : op.ObjectID.Version = ""
  · have hv2 : (op.ObjectID.Version != "") = false := by simp [hv]
    simp only [hv2, Bool.false_eq_true, if_false]
    cases auth
    · refine ⟨_, rfl, ?_⟩
      simp [whereObject, Cond.eval, Expr.eval, Row.get, Val.sqlEq, Val.sqlGt, deleteMatches, hv]
    · refine ⟨_, rfl, ?_⟩
      simp [whereObject, Cond.eval, Expr.eval, Row.get, Val.sqlEq, deleteMatches, hv]
  · have hv2 : (op.ObjectID.Version != "") = true := by simp [hv]
    have hv3 : (op.ObjectID.Version == "") = false := by simpa using hv
    simp only [hv2, if_true]
    cases auth
    · refine ⟨_, rfl, ?_⟩
      simp [whereObject, Cond.eval, Expr.eval, Row.get, Val.sqlEq, Val.sqlGt, deleteMatches, hv3]
    · refine ⟨_, rfl, ?_⟩
      simp [whereObject, Cond.eval, Expr.eval, Row.get, Val.sqlEq, deleteMatches, hv3]

/-- A `DELETE` whose condition is well-formed removes the rows satisfying it
and reports their number. -/
theorem deleteRows_eq (params : List Val) (w : Cond) (p : Row → Bool)
    (hp : ∀ r, w.eval params r = some (p r)) (rows : List Row) :
    deleteRows params w rows =
      some (rows.filter (fun r => !p r), ((rows.countP p : Nat) : Int)) := by
  induction rows with
  | nil => rfl
  | cons r rs ih =>
    simp only [deleteRows, hp, ih]
    cases h : p r <;> simp [h]

/-- What the closure returns when a `DELETE` removes no row. -/
theorem deleteOps_miss {σ : Type} (tx : Backend σ) (auth : Bool) (ops : List StorageOpDelete)
    (s s1 : σ) (h : DeleteMiss tx auth ops s s1) :
    deleteOps tx auth ops s =
      (.error (StatusError .InvalidArgument "Storage delete rejected." deleteRejected), s1) := by
  induction h with
  | here hx => simp [deleteOps, hx]
  | later hx hn _ ih => simp [deleteOps, hx, hn, ih]

/-- C9: (1) the `DELETE` built for an op selects a stored row iff the row is
at the coordinate `(collection, key, owner)` of the op, the delete is
authoritative or the stored write permission is positive, and the op version
is empty or equal to the stored version; (2) the reference database removes
exactly the selected rows and reports their number; (3) as soon as the
`DELETE` of one op of the sorted batch removes no row, the ops before it
having removed some, `StorageDeleteObjects` returns `InvalidArgument` with
one fixed error and rolls the transaction back; (4) the message of that error
does not depend on the cause. -/
theorem StorageDeleteObjects_rejected {σ : Type} (sorter : SortAlgorithm) (tx : Backend σ)
    (s : σ) (auth : Bool) (ops : StorageOpDeletes) :
    (∀ op row, ∃ w, (deleteQuery auth op).1 = .delete w ∧
      (w.selects (deleteQuery auth op).2 row ↔
        row.collection = op.ObjectID.Collection ∧ row.key = op.ObjectID.Key ∧
        row.user_id = op.OwnerID ∧ (auth = true ∨ 0 < row.write) ∧
        (op.ObjectID.Version = "" ∨ row.version = op.ObjectID.Version))) ∧
    (∀ op (db : Database), ∃ w, (deleteQuery auth op).1 = .delete w ∧
      sqlBackend.exec db (deleteQuery auth op).1 (deleteQuery auth op).2 =
        (.ok ((db.rows.countP (fun r => decide (w.selects (deleteQuery auth op).2 r)) : Nat) : Int),
          { db with
            rows := db.rows.filter (fun r => !decide (w.selects (deleteQuery auth op).2 r)) })) ∧
    (∀ k s0 s1,
      Attempt tx (deleteOps tx auth (sorter.sort StorageOpDelete.less ops)) s k s0 →
      DeleteMiss tx auth (sorter.sort StorageOpDelete.less ops) s0 s1 →
      ∀ fuel, k < fuel →
      StorageDeleteObjects sorter tx fuel s auth ops =
        some ((.InvalidArgument, some deleteRejected), (tx.exec s1 .rollback []).2)) ∧
    deleteRejected.Error =
      "Storage delete rejected - not found, version check failed, or permission denied." := by
  refine ⟨?_, ?_, ?_, rfl⟩
  · intro op row
    obtain ⟨w, hw, hev⟩ := deleteQuery_eval auth op row
    refine ⟨w, hw, ?_⟩
    unfold Cond.selects
    rw [hev]
    simp only [Option.some.injEq, deleteMatches, Bool.and_eq_true, Bool.or_eq_true, beq_iff_eq,
      decide_eq_true_eq, and_assoc]
  · intro op db
    obtain ⟨w, hw, -⟩ := deleteQuery_eval auth op Row.blank
    have hev : ∀ r, w.eval (deleteQuery auth op).2 r = some (deleteMatches auth op r) := by
      intro r
      obtain ⟨w2, hw2, hev2⟩ := deleteQuery_eval auth op r
      rw [hw] at hw2
      simp only [Stmt.delete.injEq] at hw2
      rw [hw2]
      exact hev2
    have hdec : (fun r => decide (w.selects (deleteQuery auth op).2 r)) =
        deleteMatches auth op := by
      funext r
      have h1 := hev r
      unfold Cond.selects
      cases hm : deleteMatches auth op r
      · rw [hm] at h1
        simp [h1]
      · rw [hm] at h1
        simp [h1]
    refine ⟨w, hw, ?_⟩
    rw [hdec]
    have hdec2 : (fun r => !decide (w.selects (deleteQuery auth op).2 r)) =
        (fun r => !deleteMatches auth op r) := by
      funext r
      exact congrArg (fun b => !b) (congrFun hdec r)
    rw [hdec2, hw]
    simp only [sqlBackend, Database.exec, deleteRows_eq _ w _ hev]
  · intro k s0 s1 hatt hmiss fuel hfuel
    have hfn := deleteOps_miss tx auth _ s0 s1 hmiss
    have hit := executeIteration_error tx _ s0 s1 _ hfn rfl
    obtain ⟨a, sb, hb, hex⟩ := ExecuteInTx_of_attempt tx _ s s0 s1 k _ hatt hit fuel hfuel
    simp only [StorageDeleteObjects, hb, hex, StatusError]

/-- Witness for C9: a client delete of a row that is absent, of a row whose
version differs from the requested one, and of a row with write permission 0
return the same code and the same error. -/
theorem StorageDeleteObjects_rejected_witness :
    StorageDeleteObjects insertionSortAlgorithm sqlBackend 1 emptyDatabase false
        [⟨userU, ⟨"inv", "sword", ""⟩⟩] =
      some ((.InvalidArgument, some deleteRejected), inTransaction []) ∧
    StorageDeleteObjects insertionSortAlgorithm sqlBackend 1 (swordDatabase 1 1) false
        [⟨userU, ⟨"inv", "sword", "415290769594460e2e485922904f345d"⟩⟩] =
      some ((.InvalidArgument, some deleteRejected), inTransaction [swordRow 1 1]) ∧
    StorageDeleteObjects insertionSortAlgorithm sqlBackend 1 (swordDatabase 1 0) false
        [⟨userU, ⟨"inv", "sword", ""⟩⟩] =
      some ((.InvalidArgument, some deleteRejected), inTransaction [swordRow 1 0]) :=
  ⟨(StorageDeleteObjects_rejected insertionSortAlgorithm sqlBackend emptyDatabase false
      [⟨userU, ⟨"inv", "sword", ""⟩⟩]).2.2.1 0 (inTransaction []) (inTransaction [])
      (Attempt.first
        (rfl : sqlBackend.exec emptyDatabase .begin [] = (.ok 0, ⟨[], 1000, [], []⟩))
        (rfl : sqlBackend.exec ⟨[], 1000, [], []⟩ .savepoint [] = (.ok 0, inTransaction [])))
      (DeleteMiss.here rfl) 1 (by decide),
    (StorageDeleteObjects_rejected insertionSortAlgorithm sqlBackend (swordDatabase 1 1) false
      [⟨userU, ⟨"inv", "sword", "415290769594460e2e485922904f345d"⟩⟩]).2.2.1 0
      (inTransaction [swordRow 1 1]) (inTransaction [swordRow 1 1])
      (Attempt.first
        (rfl : sqlBackend.exec (swordDatabase 1 1) .begin [] =
          (.ok 0, ⟨[swordRow 1 1], 1000, [swordRow 1 1], []⟩))
        (rfl : sqlBackend.exec ⟨[swordRow 1 1], 1000, [swordRow 1 1], []⟩ .savepoint [] =
          (.ok 0, inTransaction [swordRow 1 1])))
      (DeleteMiss.here rfl) 1 (by decide),
    (StorageDeleteObjects_rejected insertionSortAlgorithm sqlBackend (swordDatabase 1 0) false
      [⟨userU, ⟨"inv", "sword", ""⟩⟩]).2.2.1 0
      (inTransaction [swordRow 1 0]) (inTransaction [swordRow 1 0])
      (Attempt.first
        (rfl : sqlBackend.exec (swordDatabase 1 0) .begin [] =
          (.ok 0, ⟨[swordRow 1 0], 1000, [swordRow 1 0], []⟩))
        (rfl : sqlBackend.exec ⟨[swordRow 1 0], 1000, [swordRow 1 0], []⟩ .savepoint [] =
          (.ok 0, inTransaction [swordRow 1 0])))
      (DeleteMiss.here rfl) 1 (by decide)⟩

end Nakama

namespace Nakama

/-! ## The cursor codec -/

/-- Every six-bit value is read back from its character. -/
theorem base64Index_base64Char : ∀ n, n < 64 → base64Index (base64Char n) = some n := by
  decide

/-- No character of the alphabet is skipped by the decoder. -/
theorem base64Char_not_newline : ∀ n, n < 64 →
    (base64Char n != '\r' && base64Char n != '\n') = true := by
  decide

/-- The values produced from bytes are six-bit values. -/
theorem base64Sextets_lt (bs : List Byte) : ∀ n ∈ base64Sextets bs, n < 64 := by
  induction bs using base64Sextets.induct with
  | case1 a b c rest ih =>
    intro n hn
    simp only [base64Sextets, List.mem_cons] at hn
    rcases hn with h | h | h | h | h
    · have := a.isLt; omega
    · have := a.isLt; have := b.isLt; omega
    · have := b.isLt; have := c.isLt; omega
    · omega
    · exact ih n h
  | case2 a b =>
    intro n hn
    simp only [base64Sextets, List.mem_cons, List.mem_singleton, List.not_mem_nil, or_false] at hn
    have := a.isLt; have := b.isLt
    rcases hn with h | h | h <;> omega
  | case3 a =>
    intro n hn
    simp only [base64Sextets, List.mem_cons, List.mem_singleton, List.not_mem_nil, or_false] at hn
    have := a.isLt
    rcases hn with h | h <;> omega
  | case4 => intro n hn; simp [base64Sextets] at hn

/-- Regrouping the six-bit values gives the bytes back. -/
theorem base64Bytes_base64Sextets (bs : List Byte) :
    base64Bytes (base64Sextets bs) = some bs := by
  have hb : ∀ (x : Byte) (n : Nat), n = x.val → byteOf n = x := by
    intro x n h
    apply Fin.ext
    simp only [byteOf, h]
    exact Nat.mod_eq_of_lt x.isLt
  induction bs using base64Sextets.induct with
  | case1 a b c rest ih =>
    simp only [base64Sextets, base64Bytes, ih, Option.map_some']
    have ha := hb a (a.val / 4 * 4 + (a.val % 4 * 16 + b.val / 16) / 16)
      (by have := a.isLt; have := b.isLt; omega)
    have hb2 := hb b ((a.val % 4 * 16 + b.val / 16) % 16 * 16 + (b.val % 16 * 4 + c.val / 64) / 4)
      (by have := a.isLt; have := b.isLt; have := c.isLt; omega)
    have hc := hb c ((b.val % 16 * 4 + c.val / 64) % 4 * 64 + c.val % 64)
      (by have := b.isLt; have := c.isLt; omega)
    rw [ha, hb2, hc]
  | case2 a b =>
    simp only [base64Sextets, base64Bytes]
    have ha := hb a (a.val / 4 * 4 + (a.val % 4 * 16 + b.val / 16) / 16)
      (by have := a.isLt; have := b.isLt; omega)
    have hb2 := hb b ((a.val % 4 * 16 + b.val / 16) % 16 * 16 + (b.val % 16 * 4) / 4)
      (by have := a.isLt; have := b.isLt; omega)
    rw [ha, hb2]
  | case3 a =>
    simp only [base64Sextets, base64Bytes]
    have ha := hb a (a.val / 4 * 4 + (a.val % 4 * 16) / 16)
      (by have := a.isLt; omega)
    rw [ha]
  | case4 => rfl

/-- The characters of six-bit values are read back as these values, none being
skipped. -/
theorem mapM_base64Index (sx : List Nat) (h : ∀ n ∈ sx, n < 64) :
    (((sx.map base64Char).filter fun c => c != '\r' && c != '\n').mapM base64Index) =
      some sx := by
  induction sx with
  | nil => rfl
  | cons n rest ih =>
    have hn : n < 64 := h n (List.mem_cons_self n rest)
    have hrest := ih (fun m hm => h m (List.mem_cons_of_mem n hm))
    simp only [List.map_cons, List.filter_cons, base64Char_not_newline n hn, if_true,
      List.mapM_cons, base64Index_base64Char n hn, hrest]
    rfl

/-- `base64.RawURLEncoding`: decoding an encoded byte sequence gives it back. -/
theorem DecodeString_EncodeToString (bs : List Byte) :
    RawURLEncoding.DecodeString (RawURLEncoding.EncodeToString bs) = some bs := by
  unfold RawURLEncoding.DecodeString RawURLEncoding.EncodeToString
  simp only [mapM_base64Index _ (base64Sextets_lt bs), Option.some_bind,
    base64Bytes_base64Sextets]

/-- `base64.RawURLEncoding`: only the empty byte sequence is encoded as the
empty string. -/
theorem EncodeToString_ne_empty (bs : List Byte) (h : bs ≠ []) :
    RawURLEncoding.EncodeToString bs ≠ "" := by
  unfold RawURLEncoding.EncodeToString
  intro he
  have hd : (base64Sextets bs).map base64Char = [] := congrArg String.data he
  cases bs with
  | nil => exact h rfl
  | cons a rest =>
    cases rest with
    | nil => simp [base64Sextets] at hd
    | cons b rest2 =>
      cases rest2 with
      | nil => simp [base64Sextets] at hd
      | cons c rest3 => simp [base64Sextets] at hd

/-- The cursor string of a cursor is read back as that cursor by the start of
`StorageListObjects`. -/
theorem decodeCursor_encode (gob : GobCodec) (c : storageCursor) :
    decodeCursor gob (RawURLEncoding.EncodeToString (gob.encode c)) = some (some c) := by
  unfold decodeCursor
  have hne : (RawURLEncoding.EncodeToString (gob.encode c) != "") = true := by
    simpa using EncodeToString_ne_empty _ (gob.encode_ne_nil c)
  simp only [hne, if_true, DecodeString_EncodeToString, gob.decode_encode]

/-- The page `storageListObjects` builds from a non-empty row set. -/
theorem storageListObjects_nonempty (gob : GobCodec) (fromStringOrNil : String → String)
    (scanned : List Row) (last : Row) (cursor : String) :
    storageListObjects gob fromStringOrNil (.ok (scanned ++ [last])) cursor =
      .ok { Objects := (scanned ++ [last]).map scanObject
            Cursor := RawURLEncoding.EncodeToString
              (gob.encode (cursorOf fromStringOrNil (scanObject last))) } := by
  unfold storageListObjects
  simp only [List.map_append, List.map_cons, List.map_nil, List.getLast?_append,
    List.getLast?_singleton]
  rfl

end Nakama

namespace Nakama

/-! ## Pages and cursors -/

/-- Counterexample for C11: a client lists the collection `"inv"` with limit 2
and no cursor on a table holding one public row. The page holds one object,
fewer than the limit, and its cursor is not the empty string. -/
theorem StorageListObjects_short_page_cursor :
    (StorageListObjects sampleGob id (swordDatabase 2 1).queryContext userV none "inv" 2
        "").code = .OK ∧
    (StorageListObjects sampleGob id (swordDatabase 2 1).queryContext userV none "inv" 2
        "").list.map (fun l => l.Objects.length) = some 1 ∧
    (StorageListObjects sampleGob id (swordDatabase 2 1).queryContext userV none "inv" 2
        "").list.map (fun l => decide (l.Cursor = "")) = some false := by
  decide

/-- C11, as the code has it: the cursor of a page does not depend on the
limit. For an empty row set `storageListObjects` returns the cursor string it
was given; for a non-empty row set, short or not, it returns the encoding of
the cursor made from the last row, which is not the empty string. Through
`StorageListObjects`, with any limit, a query answered with a non-empty row
set gives code `OK` and that cursor. -/
theorem storageListObjects_cursor (gob : GobCodec) (fromStringOrNil : String → String)
    (cursor : String) :
    storageListObjects gob fromStringOrNil (.ok []) cursor =
      .ok { Objects := [], Cursor := cursor } ∧
    (∀ scanned last, ∃ l,
      storageListObjects gob fromStringOrNil (.ok (scanned ++ [last])) cursor = .ok l ∧
      l.Objects.length = scanned.length + 1 ∧
      l.Cursor = RawURLEncoding.EncodeToString (gob.encode
        { Key := last.key
          UserID := if last.user_id != "" then fromStringOrNil last.user_id else uuidNil
          Read := last.read }) ∧
      l.Cursor ≠ "") ∧
    (∀ (queryContext : ListQuery → QueryResult) caller ownerID collection limit sc scanned last,
      decodeCursor gob cursor = some sc →
      queryContext (StorageListObjectsQuery caller ownerID collection limit sc) =
        .rows (.ok (scanned ++ [last])) →
      ∃ l, StorageListObjects gob fromStringOrNil queryContext caller ownerID collection limit
          cursor = ⟨some l, .OK, none⟩ ∧
        l.Objects.length = scanned.length + 1 ∧ l.Cursor ≠ "") := by
  refine ⟨rfl, ?_, ?_⟩
  · intro scanned last
    refine ⟨_, storageListObjects_nonempty gob fromStringOrNil scanned last cursor, ?_, rfl,
      EncodeToString_ne_empty _ (gob.encode_ne_nil _)⟩
    simp
  · intro queryContext caller ownerID collection limit sc scanned last hsc hq
    refine ⟨{ Objects := (scanned ++ [last]).map scanObject
              Cursor := RawURLEncoding.EncodeToString
                (gob.encode (cursorOf fromStringOrNil (scanObject last))) }, ?_, ?_,
      EncodeToString_ne_empty _ (gob.encode_ne_nil _)⟩
    · unfold StorageListObjects listObjects
      simp only [hsc, hq, storageListObjects_nonempty]
    · simp

/-- Witness for C11: the page of the counterexample, through the general
statement. -/
theorem storageListObjects_cursor_witness :
    ∃ l, StorageListObjects sampleGob id (swordDatabase 2 1).queryContext userV none "inv" 2
        "" = ⟨some l, .OK, none⟩ ∧
      l.Objects.length = 1 ∧ l.Cursor ≠ "" :=
  (storageListObjects_cursor sampleGob id "").2.2 (swordDatabase 2 1).queryContext userV none
    "inv" 2 none [] (swordRow 2 1) (by decide) (by decide)

/-- C12: for a non-empty row set, the cursor string `storageListObjects` emits
is decoded by the start of `StorageListObjects` (unpadded base64url, then gob)
without error into the triple made from the last row of the page: its key, its
owner as a UUID, its read permission. More generally every encoded cursor is
decoded into itself. -/
theorem storageListObjects_cursor_roundtrip (gob : GobCodec)
    (fromStringOrNil : String → String) (cursor : String) :
    (∀ scanned last, ∃ l,
      storageListObjects gob fromStringOrNil (.ok (scanned ++ [last])) cursor = .ok l ∧
      decodeCursor gob l.Cursor = some (some
        { Key := last.key
          UserID := if last.user_id != "" then fromStringOrNil last.user_id else uuidNil
          Read := last.read })) ∧
    (∀ c, decodeCursor gob (RawURLEncoding.EncodeToString (gob.encode c)) = some (some c)) := by
  refine ⟨?_, decodeCursor_encode gob⟩
  intro scanned last
  exact ⟨_, storageListObjects_nonempty gob fromStringOrNil scanned last cursor,
    decodeCursor_encode gob _⟩

/-! ## The cursor condition of the list queries -/

/-- Counterexample for C20: a client lists the public objects of `userU` with
the cursor `(Key "z", UserID userU, Read 1)`. The public row with key `"a"`
passes the filter of the listing and its tuple `("inv", 2, "a", userU)` comes
after `("inv", 1, "z", userU)`, yet the query with the cursor does not select
it: the row is compared with `("inv", 2, "z", userU)`. -/
theorem list_cursor_read_not_bound :
    (StorageListObjectsQuery userV (some userU) "inv" 10 none).wher.selects
      (StorageListObjectsQuery userV (some userU) "inv" 10 none).params (publicRow "a") ∧
    tupleAfter (publicRow "a").cursorTuple ("inv", 1, "z", userU) = true ∧
    ¬(StorageListObjectsQuery userV (some userU) "inv" 10 (some ⟨"z", userU, 1⟩)).wher.selects
      (StorageListObjectsQuery userV (some userU) "inv" 10 (some ⟨"z", userU, 1⟩)).params
      (publicRow "a") := by
  decide

end Nakama

namespace Nakama

/-- Value of the row comparison of the list queries on a row. -/
theorem cursorTuple_eval (params : List Val) (row : Row) (e1 e2 e3 e4 : Expr)
    (c : String) (rd : Int) (k u : String)
    (h1 : e1.eval params row = some (.str c)) (h2 : e2.eval params row = some (.int rd))
    (h3 : e3.eval params row = some (.str k)) (h4 : e4.eval params row = some (.str u)) :
    (Cond.tupleGt [.col .collection, .col .read, .col .key, .col .user_id]
        [e1, e2, e3, e4]).eval params row =
      some (tupleAfter row.cursorTuple (c, rd, k, u)) := by
  have ecol : ∀ col, Expr.eval params row (.col col) = some (row.get col) := fun _ => rfl
  simp only [Cond.eval, List.mapM_cons, List.mapM_nil, ecol, h1, h2, h3, h4, Row.get,
    Option.pure_def, Option.bind_eq_bind, Option.some_bind, Nakama.tupleGt, Val.sqlGt, Val.sqlEq,
    tupleAfter, Row.cursorTuple, Bool.and_false, Bool.or_false]

/-- C20, as the code has it: with a cursor, the queries of
`StorageListObjectsUser` (authoritative or not) select a row iff it passes the
filter of the listing and its tuple `(collection, read, key, user_id)` comes
after `(collection, cursor.Read, cursor.Key, cursor.UserID)`; the queries of
the client listings that keep public rows only (`StorageListObjectsAll` for a
client, `StorageListObjectsPublicReadUser`) select a row iff it passes the
filter and its tuple comes after `(collection, 2, cursor.Key, cursor.UserID)`,
the read position being the literal 2 and the other positions being bound to
the fields of the cursor. -/
theorem list_cursor_continuation (collection : String) (limit : Int) (sc : storageCursor)
    (row : Row) :
    (∀ userID,
      (StorageListObjectsUser true userID collection limit (some sc)).wher.selects
          (StorageListObjectsUser true userID collection limit (some sc)).params row ↔
        (row.collection = collection ∧ row.user_id = userID) ∧
          tupleAfter row.cursorTuple (collection, sc.Read, sc.Key, sc.UserID) = true) ∧
    (∀ userID,
      (StorageListObjectsUser false userID collection limit (some sc)).wher.selects
          (StorageListObjectsUser false userID collection limit (some sc)).params row ↔
        (row.collection = collection ∧ 0 < row.read ∧ row.user_id = userID) ∧
          tupleAfter row.cursorTuple (collection, sc.Read, sc.Key, sc.UserID) = true) ∧
    ((StorageListObjectsAll false collection limit (some sc)).wher.selects
          (StorageListObjectsAll false collection limit (some sc)).params row ↔
        (row.collection = collection ∧ row.read = 2) ∧
          tupleAfter row.cursorTuple (collection, 2, sc.Key, sc.UserID) = true) ∧
    (∀ userID,
      (StorageListObjectsPublicReadUser userID collection limit (some sc)).wher.selects
          (StorageListObjectsPublicReadUser userID collection limit (some sc)).params row ↔
        (row.collection = collection ∧ row.read = 2 ∧ row.user_id = userID) ∧
          tupleAfter row.cursorTuple (collection, 2, sc.Key, sc.UserID) = true) := by
  refine ⟨?_, ?_, ?_, ?_⟩
  · intro userID
    have ht := cursorTuple_eval
      [.str collection, .str userID, .int limit, .int sc.Read, .str sc.Key, .str sc.UserID] row
      (.param 1) (.param 4) (.param 5) (.param 6) collection sc.Read sc.Key sc.UserID
      rfl rfl rfl rfl
    simp only [StorageListObjectsUser, Option.map_some', withCursor, List.cons_append,
      List.nil_append, if_true, Cond.selects]
    rw [Cond.eval, ht]
    simp [Cond.eval, Expr.eval, Row.get, Val.sqlEq]
  · intro userID
    have ht := cursorTuple_eval
      [.str collection, .str userID, .int limit, .int sc.Read, .str sc.Key, .str sc.UserID] row
      (.param 1) (.param 4) (.param 5) (.param 6) collection sc.Read sc.Key sc.UserID
      rfl rfl rfl rfl
    simp only [StorageListObjectsUser, Option.map_some', withCursor, List.cons_append,
      List.nil_append, Bool.false_eq_true, if_false, Cond.selects]
    rw [Cond.eval, ht]
    simp [Cond.eval, Expr.eval, Row.get, Val.sqlEq, Val.sqlGt, and_assoc]
  · have ht := cursorTuple_eval
      [.str collection, .int limit, .str sc.Key, .str sc.UserID] row
      (.param 1) (.lit 2) (.param 3) (.param 4) collection 2 sc.Key sc.UserID
      rfl rfl rfl rfl
    simp only [StorageListObjectsAll, Option.map_some', withCursor, List.cons_append,
      List.nil_append, Bool.false_eq_true, if_false, Cond.selects]
    rw [Cond.eval, ht]
    simp [Cond.eval, Expr.eval, Row.get, Val.sqlEq]
  · intro userID
    have ht := cursorTuple_eval
      [.str collection, .str userID, .int limit, .str sc.Key, .str sc.UserID] row
      (.param 1) (.lit 2) (.param 4) (.param 5) collection 2 sc.Key sc.UserID
      rfl rfl rfl rfl
    simp only [StorageListObjectsPublicReadUser, Option.map_some', withCursor, List.cons_append,
      List.nil_append, Cond.selects]
    rw [Cond.eval, ht]
    simp [Cond.eval, Expr.eval, Row.get, Val.sqlEq, and_assoc]

end Nakama

namespace Nakama

/-! ## The match registry: count, shutdown and the completion signal -/

theorem toInt32_succ (a : Int) : toInt32 (toInt32 a + 1) = toInt32 (a + 1) := by
  unfold toInt32
  omega

theorem toInt32_pred (a : Int) : toInt32 (toInt32 a - 1) = toInt32 (a - 1) := by
  unfold toInt32
  omega

theorem toInt32_of_lt (n : Nat) (h : n < 2147483648) : toInt32 (n : Int) = n := by
  unfold toInt32
  omega

theorem signal_matchCount (r : LocalMatchRegistry) : r.signal.matchCount = r.matchCount := by
  unfold LocalMatchRegistry.signal
  split <;> rfl

theorem signal_stopped (r : LocalMatchRegistry) : r.signal.stopped = r.stopped := by
  unfold LocalMatchRegistry.signal
  split <;> rfl

theorem signal_directory (r : LocalMatchRegistry) : r.signal.directory = r.directory := by
  unfold LocalMatchRegistry.signal
  split <;> rfl

theorem Stop_matchCount (r : LocalMatchRegistry) (graceSeconds : Int) :
    (r.Stop graceSeconds).matchCount = r.matchCount := by
  unfold LocalMatchRegistry.Stop
  simp only
  split_ifs <;> first | rfl | simp only [signal_matchCount]

theorem Stop_stopped (r : LocalMatchRegistry) (graceSeconds : Int) :
    (r.Stop graceSeconds).stopped = true := by
  unfold LocalMatchRegistry.Stop
  simp only
  split_ifs <;> first | rfl | simp only [signal_stopped]

theorem RemoveMatch_matchCount (r : LocalMatchRegistry) (id : String) (stream : PresenceStream) :
    (r.RemoveMatch id stream).matchCount = toInt32 (r.matchCount - 1) := by
  unfold LocalMatchRegistry.RemoveMatch
  simp only
  split
  · simp only [signal_matchCount]
  · rfl

theorem RemoveMatch_stopped (r : LocalMatchRegistry) (id : String) (stream : PresenceStream) :
    (r.RemoveMatch id stream).stopped = r.stopped := by
  unfold LocalMatchRegistry.RemoveMatch
  simp only
  split
  · simp only [signal_stopped]
  · rfl

theorem NewMatch_of_stopped (r : LocalMatchRegistry) (id : String)
    (made : Except Err MatchHandler) (h : r.stopped = true) :
    r.NewMatch id made = (.error (.errorsNew "shutdown in progress"), r) := by
  unfold LocalMatchRegistry.NewMatch
  simp only [h, if_true]

theorem call_stopped (r : LocalMatchRegistry) (c : RegistryCall) (h : r.stopped = true) :
    (r.call c).stopped = true := by
  cases c with
  | newMatch id made =>
      show (r.NewMatch id made).2.stopped = true
      rw [NewMatch_of_stopped r id made h]
      exact h
  | removeMatch id stream =>
      show (r.RemoveMatch id stream).stopped = true
      rw [RemoveMatch_stopped]
      exact h
  | stop graceSeconds => exact Stop_stopped r graceSeconds

theorem run_stopped (calls : List RegistryCall) :
    ∀ r : LocalMatchRegistry, r.stopped = true → (r.run calls).stopped = true := by
  induction calls with
  | nil => intro r h; exact h
  | cons c rest ih =>
      intro r h
      show ((r.call c).run rest).stopped = true
      exact ih (r.call c) (call_stopped r c h)

/-- The count after a call is the count of the handlers alive after it, when
it was so before and the call, if a removal, names a handler alive. -/
theorem call_matchCount (r : LocalMatchRegistry) (live : List String) (c : RegistryCall)
    (hinv : r.matchCount = toInt32 live.length) (hc : removesLiveCall live c = true) :
    (r.call c).matchCount = toInt32 (liveAfterCall r live c).length := by
  cases c with
  | newMatch id made =>
      simp only [LocalMatchRegistry.call, liveAfterCall]
      unfold LocalMatchRegistry.NewMatch
      by_cases hs : r.stopped = true
      · simp only [hs, if_true]
        exact hinv
      · have hsf : r.stopped = false := by simpa using hs
        simp only [hsf, Bool.false_eq_true, if_false]
        cases made with
        | error err => exact hinv
        | ok mh =>
            simp only [List.length_cons, Nat.cast_add, Nat.cast_one]
            rw [hinv, toInt32_succ]
  | removeMatch id stream =>
      simp only [LocalMatchRegistry.call, liveAfterCall]
      have hmem : id ∈ live := by simpa [removesLiveCall] using hc
      have hpos : 0 < live.length := List.length_pos_of_mem hmem
      have hlen : (((live.erase id).length : Nat) : Int) = (live.length : Int) - 1 := by
        rw [List.length_erase_of_mem hmem]
        omega
      rw [RemoveMatch_matchCount, hinv, toInt32_pred, hlen]
  | stop graceSeconds =>
      simp only [LocalMatchRegistry.call, liveAfterCall]
      rw [Stop_matchCount]
      exact hinv

theorem run_matchCount (calls : List RegistryCall) :
    ∀ (r : LocalMatchRegistry) (live : List String),
      r.matchCount = toInt32 live.length → removesLive r live calls = true →
      (r.run calls).matchCount = toInt32 (liveAfter r live calls).length := by
  induction calls with
  | nil => intro r live hinv _; exact hinv
  | cons c rest ih =>
      intro r live hinv h
      have h2 : removesLiveCall live c = true ∧
          removesLive (r.call c) (liveAfterCall r live c) rest = true := by
        simpa [removesLive] using h
      simp only [LocalMatchRegistry.run, List.foldl_cons, liveAfter]
      exact ih (r.call c) (liveAfterCall r live c) (call_matchCount r live c hinv h2.1) h2.2

/-- C13, counterexample: a handler is registered and `RemoveMatch` is called
twice for it; no handler is left, and `Count()` is -1. -/
theorem Count_after_second_RemoveMatch :
    ((NewLocalMatchRegistry "n1").run
      [.newMatch matchA (.ok handlerA), .removeMatch matchA streamA,
        .removeMatch matchA streamA]).Count = -1 ∧
    (liveAfter (NewLocalMatchRegistry "n1") []
      [.newMatch matchA (.ok handlerA), .removeMatch matchA streamA,
        .removeMatch matchA streamA]).length = 0 := by
  decide

/-- C13, amended: in every state reached from a new registry by a sequence of
`NewMatch`, `RemoveMatch` and `Stop` calls in which every `RemoveMatch` names a
handler for which `NewMatch` has returned successfully and `RemoveMatch` has not
yet been called, `Count()` is the number of such handlers as an `int32`, which
is that number itself below `2^31`. -/
theorem Count_eq_live (node : String) (calls : List RegistryCall)
    (h : removesLive (NewLocalMatchRegistry node) [] calls = true) :
    ((NewLocalMatchRegistry node).run calls).Count =
      toInt32 (liveAfter (NewLocalMatchRegistry node) [] calls).length ∧
    ((liveAfter (NewLocalMatchRegistry node) [] calls).length < 2147483648 →
      ((NewLocalMatchRegistry node).run calls).Count =
        (liveAfter (NewLocalMatchRegistry node) [] calls).length) := by
  have hrun := run_matchCount calls (NewLocalMatchRegistry node) [] rfl h
  refine ⟨hrun, fun hlt => ?_⟩
  show ((NewLocalMatchRegistry node).run calls).matchCount = _
  rw [hrun, toInt32_of_lt _ hlt]

theorem Count_eq_live_witness :
    removesLive (NewLocalMatchRegistry "n1") []
      [.newMatch matchA (.ok handlerA), .newMatch matchB (.ok handlerB), .stop 30,
        .removeMatch matchA streamA, .newMatch matchA (.ok handlerA)] = true ∧
    ((NewLocalMatchRegistry "n1").run
      [.newMatch matchA (.ok handlerA), .newMatch matchB (.ok handlerB), .stop 30,
        .removeMatch matchA streamA, .newMatch matchA (.ok handlerA)]).Count = 1 :=
  ⟨by decide,
    ((Count_eq_live "n1"
      [.newMatch matchA (.ok handlerA), .newMatch matchB (.ok handlerB), .stop 30,
        .removeMatch matchA streamA, .newMatch matchA (.ok handlerA)] (by decide)).1).trans
      (by decide)⟩

/-- C14, the code at the failing input: `Stop(0)` empties the directory of
every registry and leaves the count as it was, so that after `Stop(0)` on a
registry holding one handler `Count()` is 1. -/
theorem Stop_zero_keeps_Count :
    (∀ (r : LocalMatchRegistry) (id : String), (r.Stop 0).GetMatch id = none) ∧
    (∀ r : LocalMatchRegistry, (r.Stop 0).Count = r.Count) ∧
    (((NewLocalMatchRegistry "n1").run [.newMatch matchA (.ok handlerA), .stop 0]).GetMatch matchA
      = none) ∧
    ((NewLocalMatchRegistry "n1").run [.newMatch matchA (.ok handlerA), .stop 0]).Count = 1 := by
  refine ⟨fun r id => ?_, fun r => Stop_matchCount r 0, by decide, by decide⟩
  show ((r.Stop 0).directory).lookup id = none
  have hd : (r.Stop 0).directory = [] := by
    unfold LocalMatchRegistry.Stop
    simp only [show ((0 : Int) == 0) = true from rfl, if_true, signal_directory]
  rw [hd]
  rfl

/-- C15, the code at the failing input: a handler is registered, `Stop(30)` is
called, the handler is removed and `Stop(0)` is called; the channel then holds
two values. The same after two calls of `Stop(0)` on a new registry. With two
handlers, `Stop(30)` and the first removal send nothing and the second removal
sends one value. -/
theorem Stop_signals_twice :
    ((NewLocalMatchRegistry "n1").run
      [.newMatch matchA (.ok handlerA), .stop 30, .removeMatch matchA streamA,
        .stop 0]).stoppedCh = 2 ∧
    ((NewLocalMatchRegistry "n1").run [.stop 0, .stop 0]).stoppedCh = 2 ∧
    ((NewLocalMatchRegistry "n1").run
      [.newMatch matchA (.ok handlerA), .newMatch matchB (.ok handlerB), .stop 30,
        .removeMatch matchA streamA]).stoppedCh = 0 ∧
    ((NewLocalMatchRegistry "n1").run
      [.newMatch matchA (.ok handlerA), .newMatch matchB (.ok handlerB), .stop 30,
        .removeMatch matchA streamA, .removeMatch matchB streamB]).stoppedCh = 1 := by
  decide

/-- C16: once `Stop` has been called with any grace value, in every state
reached by further calls `NewMatch` returns the error `shutdown in progress`
and leaves the registry, its directory and count included, as it was; so
`CreateMatch` fails as well and leaves the registry as it was, with that error
after the prefix `error creating match: ` when its factory made a core. -/
theorem NewMatch_after_Stop (r : LocalMatchRegistry) (graceSeconds : Int)
    (calls : List RegistryCall) (id : String) (made : Except Err MatchHandler)
    (core : Except Err (Option Unit)) :
    ((r.Stop graceSeconds).run calls).NewMatch id made =
      (.error (.errorsNew "shutdown in progress"), (r.Stop graceSeconds).run calls) ∧
    ((r.Stop graceSeconds).run calls).CreateMatch id (.ok (some ())) made =
      (.error (.errorsNew "error creating match: shutdown in progress"),
        (r.Stop graceSeconds).run calls) ∧
    (∃ err, ((r.Stop graceSeconds).run calls).CreateMatch id core made =
      (.error err, (r.Stop graceSeconds).run calls)) := by
  have hs : ((r.Stop graceSeconds).run calls).stopped = true :=
    run_stopped calls _ (Stop_stopped r graceSeconds)
  have hnew := NewMatch_of_stopped ((r.Stop graceSeconds).run calls) id made hs
  have hcreate : ((r.Stop graceSeconds).run calls).CreateMatch id (.ok (some ())) made =
      (.error (.errorsNew "error creating match: shutdown in progress"),
        (r.Stop graceSeconds).run calls) := by
    unfold LocalMatchRegistry.CreateMatch
    simp only [hnew]
    rfl
  refine ⟨hnew, hcreate, ?_⟩
  match core with
  | .error err => exact ⟨err, rfl⟩
  | .ok none => exact ⟨_, rfl⟩
  | .ok (some ()) => exact ⟨_, hcreate⟩

end Nakama

namespace Nakama

/-! ## Match labels -/

end Nakama

namespace Nakama

/-! ## Listing matches -/

theorem hitMatch_authoritative (env : ListEnv) (r : LocalMatchRegistry)
    (minSize maxSize : Option Int) (hit : Hit) (m : Match)
    (h : hitMatch env r minSize maxSize hit = some m) : m.Authoritative = true := by
  unfold hitMatch at h
  simp only at h
  split at h
  · cases h
  · split at h
    · cases h
    · split at h
      · cases h
        rfl
      · cases h

theorem relayedMatch_relayed (env : ListEnv) (label : Option String)
    (minSize maxSize : Option Int) (stream : PresenceStream) (size : Int) (m : Match)
    (h : relayedMatch env label minSize maxSize stream size = some m) :
    m.Authoritative = false := by
  unfold relayedMatch at h
  split at h
  · cases h
  · split at h
    · cases h
    · cases h
      rfl

theorem listHits_mem (env : ListEnv) (r : LocalMatchRegistry) (limit : Int)
    (minSize maxSize : Option Int) (hits : List Hit) :
    ∀ (results : List Match) (m : Match),
      m ∈ (listHits env r limit minSize maxSize hits results).1 →
      m ∈ results ∨ m.Authoritative = true := by
  induction hits with
  | nil => intro results m h; exact Or.inl h
  | cons hit rest ih =>
      intro results m h
      rw [listHits] at h
      cases hm : hitMatch env r minSize maxSize hit with
      | none =>
          rw [hm] at h
          exact ih results m h
      | some m1 =>
          rw [hm] at h
          have hauth := hitMatch_authoritative env r minSize maxSize hit m1 hm
          have hstep : m ∈ results ++ [m1] → m ∈ results ∨ m.Authoritative = true := by
            intro hmem
            rcases List.mem_append.mp hmem with h1 | h1
            · exact Or.inl h1
            · rw [List.mem_singleton.mp h1]
              exact Or.inr hauth
          simp only at h
          split at h
          · exact hstep h
          · rcases ih (results ++ [m1]) m h with h1 | h1
            · exact hstep h1
            · exact Or.inr h1

theorem listRelayed_mem (env : ListEnv) (limit : Int) (label : Option String)
    (minSize maxSize : Option Int) (streams : List (PresenceStream × Int)) :
    ∀ (results : List Match) (m : Match),
      m ∈ listRelayed env limit label minSize maxSize streams results →
      m ∈ results ∨ m.Authoritative = false := by
  induction streams with
  | nil => intro results m h; exact Or.inl h
  | cons s rest ih =>
      intro results m h
      obtain ⟨stream, size⟩ := s
      rw [listRelayed] at h
      cases hm : relayedMatch env label minSize maxSize stream size with
      | none =>
          rw [hm] at h
          exact ih results m h
      | some m1 =>
          rw [hm] at h
          have hrel := relayedMatch_relayed env label minSize maxSize stream size m1 hm
          have hstep : m ∈ results ++ [m1] → m ∈ results ∨ m.Authoritative = false := by
            intro hmem
            rcases List.mem_append.mp hmem with h1 | h1
            · exact Or.inl h1
            · rw [List.mem_singleton.mp h1]
              exact Or.inr hrel
          simp only at h
          split at h
          · exact hstep h
          · rcases ih (results ++ [m1]) m h with h1 | h1
            · exact hstep h1
            · exact Or.inr h1

theorem listHits_length (env : ListEnv) (r : LocalMatchRegistry) (limit : Int)
    (minSize maxSize : Option Int) (hits : List Hit) :
    ∀ results : List Match, (results.length : Int) < limit →
      ((listHits env r limit minSize maxSize hits results).1.length : Int) ≤ limit ∧
      ((listHits env r limit minSize maxSize hits results).2 = false →
        ((listHits env r limit minSize maxSize hits results).1.length : Int) < limit) := by
  induction hits with
  | nil => intro results h; exact ⟨le_of_lt h, fun _ => h⟩
  | cons hit rest ih =>
      intro results h
      rw [listHits]
      cases hm : hitMatch env r minSize maxSize hit with
      | none => exact ih results h
      | some m1 =>
          simp only
          have hlen : ((results ++ [m1]).length : Int) = (results.length : Int) + 1 := by
            simp
          by_cases heq : (((results ++ [m1]).length : Int) == limit) = true
          · rw [if_pos heq]
            have heq2 : ((results ++ [m1]).length : Int) = limit := by simpa using heq
            exact ⟨le_of_eq heq2, fun hf => by cases hf⟩
          · rw [if_neg heq]
            have hne : ((results ++ [m1]).length : Int) ≠ limit := by simpa using heq
            exact ih (results ++ [m1]) (by omega)

theorem listRelayed_length (env : ListEnv) (limit : Int) (label : Option String)
    (minSize maxSize : Option Int) (streams : List (PresenceStream × Int)) :
    ∀ results : List Match, (results.length : Int) < limit →
      ((listRelayed env limit label minSize maxSize streams results).length : Int) ≤ limit := by
  induction streams with
  | nil => intro results h; exact le_of_lt h
  | cons s rest ih =>
      intro results h
      obtain ⟨stream, size⟩ := s
      rw [listRelayed]
      cases hm : relayedMatch env label minSize maxSize stream size with
      | none => exact ih results h
      | some m1 =>
          simp only
          have hlen : ((results ++ [m1]).length : Int) = (results.length : Int) + 1 := by
            simp
          by_cases heq : (((results ++ [m1]).length : Int) == limit) = true
          · rw [if_pos heq]
            have heq2 : ((results ++ [m1]).length : Int) = limit := by simpa using heq
            exact le_of_eq heq2
          · rw [if_neg heq]
            have hne : ((results ++ [m1]).length : Int) ≠ limit := by simpa using heq
            exact ih (results ++ [m1]) (by omega)

/-- Relayed matches are allowed only without query and label and with the
authoritative argument nil or false; the label index is searched only with the
authoritative argument nil or true. -/
theorem listSelect_some (env : ListEnv) (r : LocalMatchRegistry) (limit : Int)
    (authoritative : Option Bool) (label : Option String) (minSize maxSize : Option Int)
    (queryString : Option String) (allowRelayed : Bool) (labelResults : Option (List Hit))
    (h : listSelect env r limit authoritative label minSize maxSize queryString =
      .ok (some (allowRelayed, labelResults))) :
    (allowRelayed = true →
      queryString = none ∧ label = none ∧ authoritative ≠ some true) ∧
    (labelResults.isSome = true → authoritative ≠ some false) := by
  unfold listSelect at h
  simp only at h
  cases queryString with
  | some qs =>
      simp only at h
      by_cases ha : (authoritative == some false) = true
      · rw [if_pos ha] at h
        cases h
      · rw [if_neg ha] at h
        have ha2 : authoritative ≠ some false := by simpa using ha
        split at h
        · cases h
        · cases h
          exact ⟨fun h0 => (by cases h0), fun _ => ha2⟩
  | none =>
      cases label with
      | some l =>
          simp only at h
          by_cases ha : (authoritative == some false) = true
          · rw [if_pos ha] at h
            cases h
          · rw [if_neg ha] at h
            have ha2 : authoritative ≠ some false := by simpa using ha
            split at h
            · cases h
            · cases h
              exact ⟨fun h0 => (by cases h0), fun _ => ha2⟩
      | none =>
          simp only at h
          match authoritative, h with
          | none, h =>
              simp only [beq_self_eq_true, Bool.true_or, if_true] at h
              split at h
              · cases h
              · cases h
                exact ⟨fun _ => ⟨rfl, rfl, (by simp)⟩, fun _ => (by simp)⟩
          | some true, h =>
              simp only [beq_self_eq_true, Bool.or_true, if_true] at h
              split at h
              · cases h
              · cases h
                exact ⟨fun h0 => (by simp at h0), fun _ => (by simp)⟩
          | some false, h =>
              have hc : ((some false : Option Bool) == none ||
                  (some false : Option Bool) == some true) = false := by decide
              rw [hc] at h
              simp only [Bool.false_eq_true, if_false] at h
              cases h
              exact ⟨fun _ => ⟨rfl, rfl, (by simp)⟩, fun h0 => (by simp at h0)⟩

end Nakama

namespace Nakama

/-- What `ListMatches` returns once the first part has chosen the search and
whether relayed matches are allowed. -/
theorem ListMatches_of_listSelect (env : ListEnv) (r : LocalMatchRegistry) (limit : Int)
    (authoritative : Option Bool) (label : Option String) (minSize maxSize : Option Int)
    (queryString : Option String) (allowRelayed : Bool) (labelResults : Option (List Hit))
    (hl : limit ≠ 0)
    (hs : listSelect env r limit authoritative label minSize maxSize queryString =
      .ok (some (allowRelayed, labelResults))) :
    r.ListMatches env limit authoritative label minSize maxSize queryString =
      if (noHits labelResults && authoritative == some false) = true then some (.ok [])
      else if limit < 0 then none
      else if (listLabelResults env r limit minSize maxSize labelResults).2 = true then
        some (.ok (listLabelResults env r limit minSize maxSize labelResults).1)
      else if (!allowRelayed) = true then
        some (.ok (listLabelResults env r limit minSize maxSize labelResults).1)
      else
        some (.ok (listRelayed env limit label minSize maxSize env.countByStreamModeFilter
          (listLabelResults env r limit minSize maxSize labelResults).1)) := by
  have hl2 : ¬ ((limit == 0) = true) := by simpa using hl
  unfold LocalMatchRegistry.ListMatches
  rw [if_neg hl2, hs]

/-- The matches taken from the hits of the search are authoritative, and there
are none when no search was made. -/
theorem fromHits_mem (env : ListEnv) (r : LocalMatchRegistry) (limit : Int)
    (minSize maxSize : Option Int) (labelResults : Option (List Hit)) (m : Match)
    (h : m ∈ (listLabelResults env r limit minSize maxSize labelResults).1) :
    m.Authoritative = true ∧ labelResults.isSome = true := by
  cases labelResults with
  | none => simp [listLabelResults] at h
  | some hits =>
      rcases listHits_mem env r limit minSize maxSize hits [] m h with h1 | h1
      · simp at h1
      · exact ⟨h1, rfl⟩

theorem fromHits_length (env : ListEnv) (r : LocalMatchRegistry) (limit : Int)
    (minSize maxSize : Option Int) (labelResults : Option (List Hit)) (hl : 0 < limit) :
    (((listLabelResults env r limit minSize maxSize labelResults).1.length : Nat) : Int) ≤
      limit ∧
    ((listLabelResults env r limit minSize maxSize labelResults).2 = false →
      (((listLabelResults env r limit minSize maxSize labelResults).1.length : Nat) : Int) <
        limit) := by
  cases labelResults with
  | none => exact ⟨le_of_lt hl, fun _ => hl⟩
  | some hits => exact listHits_length env r limit minSize maxSize hits [] hl

/-- C18: of the matches `ListMatches` returns, a relayed one is there only if
neither a query nor a label was given and the authoritative argument is nil or
false, and an authoritative one only if the authoritative argument is nil or
true; with the authoritative argument false and a query or a label the list is
empty; with the authoritative argument false alone the list is made from the
relayed streams of the tracker only, whatever the index and its search are,
and holds relayed matches only. -/
theorem ListMatches_kinds (env : ListEnv) (r : LocalMatchRegistry) (limit : Int)
    (authoritative : Option Bool) (label : Option String) (minSize maxSize : Option Int)
    (queryString : Option String) :
    (∀ ms, r.ListMatches env limit authoritative label minSize maxSize queryString =
        some (.ok ms) →
      ∀ m ∈ ms,
        (m.Authoritative = false →
          queryString = none ∧ label = none ∧ authoritative ≠ some true) ∧
        (m.Authoritative = true → authoritative ≠ some false)) ∧
    ((queryString.isSome || label.isSome) = true →
      r.ListMatches env limit (some false) label minSize maxSize queryString = some (.ok [])) ∧
    (r.ListMatches env limit (some false) none minSize maxSize none =
      if limit = 0 then some (.ok [])
      else if limit < 0 then none
      else some (.ok (listRelayed env limit none minSize maxSize
        env.countByStreamModeFilter []))) ∧
    (∀ m ∈ listRelayed env limit none minSize maxSize env.countByStreamModeFilter [],
      m.Authoritative = false) := by
  refine ⟨?_, ?_, ?_, ?_⟩
  · intro ms h m hm
    by_cases hl : limit = 0
    · subst hl
      have : ms = [] := by
        have h0 : LocalMatchRegistry.ListMatches env r 0 authoritative label minSize maxSize
            queryString = some (.ok []) := rfl
        rw [h0] at h
        cases h
        rfl
      rw [this] at hm
      cases hm
    · cases hsel : listSelect env r limit authoritative label minSize maxSize queryString with
      | error err =>
          have hl2 : ¬ ((limit == 0) = true) := by simpa using hl
          unfold LocalMatchRegistry.ListMatches at h
          rw [if_neg hl2, hsel] at h
          cases h
      | ok sel =>
          cases sel with
          | none =>
              have hl2 : ¬ ((limit == 0) = true) := by simpa using hl
              unfold LocalMatchRegistry.ListMatches at h
              rw [if_neg hl2, hsel] at h
              cases h
              cases hm
          | some p =>
              obtain ⟨allowRelayed, labelResults⟩ := p
              have hfacts := listSelect_some env r limit authoritative label minSize maxSize
                queryString allowRelayed labelResults hsel
              have hfrom : ∀ m1 : Match,
                  m1 ∈ (listLabelResults env r limit minSize maxSize labelResults).1 →
                  (m1.Authoritative = false →
                    queryString = none ∧ label = none ∧ authoritative ≠ some true) ∧
                  (m1.Authoritative = true → authoritative ≠ some false) := by
                intro m1 hm1
                have h2 := fromHits_mem env r limit minSize maxSize labelResults m1 hm1
                refine ⟨fun hf => ?_, fun _ => hfacts.2 h2.2⟩
                rw [h2.1] at hf
                cases hf
              rw [ListMatches_of_listSelect env r limit authoritative label minSize maxSize
                queryString allowRelayed labelResults hl hsel] at h
              split_ifs at h with h1 h2 h3 h4
              · cases h
                cases hm
              · cases h
                exact hfrom m hm
              · cases h
                exact hfrom m hm
              · cases h
                have har : allowRelayed = true := by simpa using h4
                rcases listRelayed_mem env limit label minSize maxSize
                  env.countByStreamModeFilter _ m hm with h5 | h5
                · exact hfrom m h5
                · refine ⟨fun _ => hfacts.1 har, fun ht => ?_⟩
                  rw [h5] at ht
                  cases ht
  · intro hq
    by_cases hl : (limit == 0) = true
    · unfold LocalMatchRegistry.ListMatches
      rw [if_pos hl]
    · have hsel : listSelect env r limit (some false) label minSize maxSize queryString =
          .ok none := by
        cases queryString with
        | some qs => rfl
        | none =>
            cases label with
            | some l => rfl
            | none => simp at hq
      unfold LocalMatchRegistry.ListMatches
      rw [if_neg hl, hsel]
  · by_cases hl : limit = 0
    · subst hl
      rfl
    · have hsel : listSelect env r limit (some false) none minSize maxSize none =
          .ok (some (true, none)) := rfl
      rw [ListMatches_of_listSelect env r limit (some false) none minSize maxSize none true none
        hl hsel, if_neg hl]
      simp [noHits, listLabelResults]
  · intro m hm
    rcases listRelayed_mem env limit none minSize maxSize env.countByStreamModeFilter [] m hm
      with h1 | h1
    · cases h1
    · exact h1

theorem ListMatches_kinds_witness :
    sampleRegistry.ListMatches sampleEnv 10 none none none none none =
      some (.ok [⟨matchA ++ ".n1", true, some "ranked", 3⟩, ⟨matchB ++ ".", false, none, 2⟩,
        ⟨matchA ++ ".", false, none, 4⟩]) ∧
    (∀ m ∈ [(⟨matchA ++ ".n1", true, some "ranked", 3⟩ : Match), ⟨matchB ++ ".", false, none, 2⟩,
        ⟨matchA ++ ".", false, none, 4⟩],
      (m.Authoritative = false →
        (none : Option String) = none ∧ (none : Option String) = none ∧
          (none : Option Bool) ≠ some true) ∧
      (m.Authoritative = true → (none : Option Bool) ≠ some false)) :=
  ⟨by decide,
    (ListMatches_kinds sampleEnv sampleRegistry 10 none none none none none).1 _ (by decide)⟩

/-- C19: for every `limit` that is not negative, `ListMatches` returns, and
when it returns a list, the list has at most `limit` matches, authoritative and
relayed ones together; with `limit` 0 it is the empty list. -/
theorem ListMatches_limit (env : ListEnv) (r : LocalMatchRegistry) (limit : Int)
    (authoritative : Option Bool) (label : Option String) (minSize maxSize : Option Int)
    (queryString : Option String) (h : 0 ≤ limit) :
    (∃ res, r.ListMatches env limit authoritative label minSize maxSize queryString = some res ∧
      ∀ ms, res = .ok ms → (ms.length : Int) ≤ limit) ∧
    (limit = 0 →
      r.ListMatches env limit authoritative label minSize maxSize queryString =
        some (.ok [])) := by
  refine ⟨?_, fun h0 => by subst h0; rfl⟩
  by_cases hl : limit = 0
  · subst hl
    refine ⟨.ok [], rfl, fun ms hms => ?_⟩
    cases hms
    simp
  · have hpos : 0 < limit := lt_of_le_of_ne h (Ne.symm hl)
    have hl2 : ¬ ((limit == 0) = true) := by simpa using hl
    have hempty : ∀ ms : List Match, (Except.ok [] : Except Err (List Match)) = .ok ms →
        (ms.length : Int) ≤ limit := by
      intro ms hms
      cases hms
      exact h
    cases hsel : listSelect env r limit authoritative label minSize maxSize queryString with
    | error err =>
        refine ⟨.error err, ?_, fun ms hms => by cases hms⟩
        unfold LocalMatchRegistry.ListMatches
        rw [if_neg hl2, hsel]
    | ok sel =>
        cases sel with
        | none =>
            refine ⟨.ok [], ?_, hempty⟩
            unfold LocalMatchRegistry.ListMatches
            rw [if_neg hl2, hsel]
        | some p =>
            obtain ⟨allowRelayed, labelResults⟩ := p
            have hlen := fromHits_length env r limit minSize maxSize labelResults hpos
            rw [ListMatches_of_listSelect env r limit authoritative label minSize maxSize
              queryString allowRelayed labelResults hl hsel]
            have hneg : ¬ limit < 0 := not_lt.mpr h
            rw [if_neg hneg]
            split_ifs with h1 h2 h3
            · exact ⟨_, rfl, hempty⟩
            · refine ⟨_, rfl, fun ms hms => ?_⟩
              cases hms
              exact hlen.1
            · refine ⟨_, rfl, fun ms hms => ?_⟩
              cases hms
              exact hlen.1
            · refine ⟨_, rfl, fun ms hms => ?_⟩
              cases hms
              have hf : (listLabelResults env r limit minSize maxSize labelResults).2 = false := by
                simpa using h2
              exact listRelayed_length env limit label minSize maxSize
                env.countByStreamModeFilter _ (hlen.2 hf)

theorem ListMatches_limit_witness :
    (0 : Int) ≤ 2 ∧
    sampleRegistry.ListMatches sampleEnv 2 none none none none none =
      some (.ok [⟨matchA ++ ".n1", true, some "ranked", 3⟩, ⟨matchB ++ ".", false, none, 2⟩]) ∧
    (∃ res, sampleRegistry.ListMatches sampleEnv 2 none none none none none = some res ∧
      ∀ ms, res = .ok ms → (ms.length : Int) ≤ 2) :=
  ⟨by decide, by decide,
    (ListMatches_limit sampleEnv sampleRegistry 2 none none none none none (by decide)).1⟩

end Nakama
